import Mathlib

/-!
# Matrix-product benchmark (`matrixproduct.cpp`)

A shallow embedding of the five multiplication kernels and of the driver `main`.

Modelling conventions.

* A `double*` buffer is a function from offsets to values (`Buf α`); the value type `α` is
  kept abstract, the kernels only use `0`, `1`, the cast of a natural number, `+` and `*`,
  and no law of arithmetic is assumed of them. `F64` is binary64 on the `double`s that hold
  an integer, with its rounding; `ExactOnNat` states what the results on the generator
  inputs need of the arithmetic.
* Every load and store of the three buffers is recorded, in program order, in `Mem.log`,
  with the mathematical value of its offset expression.
* `malloc` returns a buffer of arbitrary content, `calloc` a buffer of zeros. The number of
  elements of a buffer is the 32-bit value of the `int` expression `m_ar * m_ar`
  (`allocated`, `wrap32`). The loop nests (`initInputs`, `OnMult_mult`, ..) and the kernels
  built from them (`OnMult`, ..) are given on buffers that hold every offset; the calls
  `OnMult_call`, .. run the same phases and have no result (`none`) as soon as a logged access
  is outside the allocation. An access inside it has an offset below `2^31`, which is then
  also the 32-bit value of its `int` expression. An allocation whose size has not wrapped
  around is taken to succeed.
* `clock()` / `omp_get_wtime()` results, the iteration order chosen by OpenMP for a
  work-shared loop, the standard input and the PAPI library are inputs of the model.
* In the model of `main` a kernel invocation is one event of the trace, with its arguments;
  what the invocation computes is given by the model of the kernel, and whether it returns
  by `Call.returns`. After an invocation that does not return `main` is `stuck`: nothing of
  it is executed any more and the run has no exit status.
* A function that may end the process (`init_papi`, `handle_error`) returns how it ends.
-/

namespace MatrixProduct

/-! ## Loops -/

/-- The loop `for (i = lo; i < hi; i++) body`, run on the state `s`. -/
def forLoop {σ : Type} (lo hi : Nat) (s : σ) (body : Nat → σ → σ) : σ :=
  (List.range' lo (hi - lo)).foldl (fun s i => body i s) s

/-- The loop `for (i = lo; i < hi; i += step) body`. The body may itself fail to return;
`fuel` bounds the number of evaluations of the loop test, `none` means it was used up. -/
def forStep {σ : Type} : Nat → Nat → Nat → Nat → σ → (Nat → σ → Option σ) → Option σ
  | 0, _, _, _, _, _ => none
  | fuel + 1, i, hi, step, s, body =>
    if i < hi then
      match body i s with
      | some s1 => forStep fuel (i + step) hi step s1 body
      | none => none
    else some s

/-- A work-shared loop (`#pragma omp for` / `parallel for`) over `0 .. hi - 1`: the iterations
are run in the order `sched` chosen by the runtime. -/
def ompFor {σ : Type} (sched : List Nat) (s : σ) (body : Nat → σ → σ) : σ :=
  sched.foldl (fun s i => body i s) s

/-- The schedules the runtime may choose for a work-shared loop of `hi` iterations: every
iteration exactly once, in any order. -/
def IsSchedule (hi : Nat) (sched : List Nat) : Prop :=
  sched.Perm (List.range hi)

instance (hi : Nat) (sched : List Nat) : Decidable (IsSchedule hi sched) :=
  inferInstanceAs (Decidable (sched.Perm (List.range hi)))

/-! ## Memory -/

/-- A buffer of values, addressed by offset. -/
abbrev Buf (α : Type) := Nat → α

/-- The assignment `b[off] = v`. -/
def Buf.set {α : Type} (b : Buf α) (off : Nat) (v : α) : Buf α :=
  fun o => if o = off then v else b o

/-- The three buffers of a kernel. -/
inductive Buffer
  | pha
  | phb
  | phc
deriving DecidableEq, Repr

/-- One memory access of a kernel. -/
inductive Access
  | load (b : Buffer) (off : Nat)
  | store (b : Buffer) (off : Nat)
deriving DecidableEq, Repr

/-- The memory of a kernel: its three buffers and the accesses made so far. -/
structure Mem (α : Type) where
  pha : Buf α
  phb : Buf α
  phc : Buf α
  log : List Access

/-- The statement `pha[off] = v`. -/
def Mem.storeA {α : Type} (m : Mem α) (off : Nat) (v : α) : Mem α :=
  { m with pha := m.pha.set off v, log := m.log ++ [Access.store Buffer.pha off] }

/-- The statement `phb[off] = v`. -/
def Mem.storeB {α : Type} (m : Mem α) (off : Nat) (v : α) : Mem α :=
  { m with phb := m.phb.set off v, log := m.log ++ [Access.store Buffer.phb off] }

/-- The statement `phc[off] = v`. -/
def Mem.storeC {α : Type} (m : Mem α) (off : Nat) (v : α) : Mem α :=
  { m with phc := m.phc.set off v, log := m.log ++ [Access.store Buffer.phc off] }

/-- The statement `phc[c] += pha[a] * phb[b]`. -/
def Mem.accumC {α : Type} [Add α] [Mul α] (m : Mem α) (c a b : Nat) : Mem α :=
  { m with
    phc := m.phc.set c (m.phc c + m.pha a * m.phb b)
    log := m.log ++ [Access.load Buffer.phc c, Access.load Buffer.pha a,
      Access.load Buffer.phb b, Access.store Buffer.phc c] }

/-- The statement `temp += pha[a] * phb[b]` on the pair (`temp`, memory). -/
def accumTemp {α : Type} [Add α] [Mul α] (s : α × Mem α) (a b : Nat) : α × Mem α :=
  (s.1 + s.2.pha a * s.2.phb b,
    { s.2 with log := s.2.log ++ [Access.load Buffer.pha a, Access.load Buffer.phb b] })

/-! ## Input generation -/

/-- The two initialisation loop nests, the same in the five kernels:
`pha[i * m_ar + j] = 1.0` and `phb[i * m_br + j] = (double)(i + 1)`, on buffers that hold
every offset; the stores are logged, for the check against the allocation. -/
def initInputs {α : Type} [One α] [NatCast α] (m_ar m_br : Nat) (m : Mem α) : Mem α :=
  let m := forLoop 0 m_ar m fun i m =>
    forLoop 0 m_ar m fun j m =>
      m.storeA (i * m_ar + j) 1
  forLoop 0 m_br m fun i m =>
    forLoop 0 m_br m fun j m =>
      m.storeB (i * m_br + j) ((i + 1 : Nat) : α)

/-- The buffers of `OnMult` once initialised: three `malloc`s (contents `a0`, `b0`, `c0`).
Their size is accounted for in `OnMult_call`, which checks the logged accesses against it. -/
def OnMult_setup {α : Type} [One α] [NatCast α] (m_ar m_br : Nat) (a0 b0 c0 : Buf α) : Mem α :=
  initInputs m_ar m_br { pha := a0, phb := b0, phc := c0, log := [] }

/-- The buffers of `OnMultLine`, `OnMultBlock`, `OnMultLineOMP1` and `OnMultLineOMP2` once
initialised: `pha` and `phb` are `malloc`ed, `phc` is `calloc`ed. Their size is accounted for
in `OnMultLine_call` .. `OnMultLineOMP2_call`, which check the logged accesses against it. -/
def calloc_setup {α : Type} [Zero α] [One α] [NatCast α] (m_ar m_br : Nat) (a0 b0 : Buf α) :
    Mem α :=
  initInputs m_ar m_br { pha := a0, phb := b0, phc := fun _ => 0, log := [] }

/-! ## The multiplication loop nests -/

/-- The loop nest of `OnMult` (i-j-k, through the scalar `temp`). -/
def OnMult_mult {α : Type} [Zero α] [Add α] [Mul α] (m_ar m_br : Nat) (m : Mem α) : Mem α :=
  forLoop 0 m_ar m fun i m =>
    forLoop 0 m_br m fun j m =>
      let s : α × Mem α := (0, m)
      let s := forLoop 0 m_ar s fun k s =>
        accumTemp s (i * m_ar + k) (k * m_br + j)
      s.2.storeC (i * m_ar + j) s.1

/-- The loop nest of `OnMultLine` (i-k-j, accumulating into `phc`). -/
def OnMultLine_mult {α : Type} [Add α] [Mul α] (m_ar m_br : Nat) (m : Mem α) : Mem α :=
  forLoop 0 m_ar m fun i m =>
    forLoop 0 m_ar m fun k m =>
      forLoop 0 m_br m fun j m =>
        m.accumC (i * m_ar + j) (i * m_ar + k) (k * m_br + j)

/-- The six-loop nest of `OnMultBlock`. -/
def OnMultBlock_mult {α : Type} [Add α] [Mul α] (fuel m_ar m_br bkSize : Nat) (m : Mem α) :
    Option (Mem α) :=
  forStep fuel 0 m_ar bkSize m fun ii m =>
    forStep fuel 0 m_ar bkSize m fun kk m =>
      forStep fuel 0 m_br bkSize m fun jj m =>
        some <|
          forLoop ii (min (ii + bkSize) m_ar) m fun i m =>
            forLoop kk (min (kk + bkSize) m_ar) m fun k m =>
              forLoop jj (min (jj + bkSize) m_br) m fun j m =>
                m.accumC (i * m_ar + j) (i * m_ar + k) (k * m_br + j)

/-- The loop nest of `OnMultLineOMP1`: the outer `i` loop is work-shared, its iterations run
in the order `sched`. -/
def OnMultLineOMP1_mult {α : Type} [Add α] [Mul α] (m_ar m_br : Nat) (sched : List Nat)
    (m : Mem α) : Mem α :=
  ompFor sched m fun i m =>
    forLoop 0 m_ar m fun k m =>
      forLoop 0 m_br m fun j m =>
        m.accumC (i * m_br + j) (i * m_ar + k) (k * m_br + j)

/-- The loop nest of `OnMultLineOMP2`: the inner `j` loop is work-shared, for the pair
(`i`, `k`) its iterations run in the order `sched i k`. -/
def OnMultLineOMP2_mult {α : Type} [Add α] [Mul α] (m_ar m_br : Nat)
    (sched : Nat → Nat → List Nat) (m : Mem α) : Mem α :=
  forLoop 0 m_ar m fun i m =>
    forLoop 0 m_ar m fun k m =>
      ompFor (sched i k) m fun j m =>
        m.accumC (i * m_br + j) (i * m_ar + k) (k * m_br + j)

/-! ## Timing and output -/

/-- A `double` result of the timing arithmetic: a finite value (kept exact), an infinity or
a NaN. The sign of a zero is not kept: a zero divisor is taken to be `+0.0`. -/
inductive Dbl
  | fin (q : ℚ)
  | pinf
  | ninf
  | nan
deriving DecidableEq

/-- The product of two `double`s. -/
def Dbl.mul : Dbl → Dbl → Dbl
  | Dbl.fin a, Dbl.fin b => Dbl.fin (a * b)
  | Dbl.fin a, Dbl.pinf => if a = 0 then Dbl.nan else if 0 < a then Dbl.pinf else Dbl.ninf
  | Dbl.fin a, Dbl.ninf => if a = 0 then Dbl.nan else if 0 < a then Dbl.ninf else Dbl.pinf
  | Dbl.pinf, Dbl.fin b => if b = 0 then Dbl.nan else if 0 < b then Dbl.pinf else Dbl.ninf
  | Dbl.ninf, Dbl.fin b => if b = 0 then Dbl.nan else if 0 < b then Dbl.ninf else Dbl.pinf
  | Dbl.pinf, Dbl.pinf => Dbl.pinf
  | Dbl.ninf, Dbl.ninf => Dbl.pinf
  | Dbl.pinf, Dbl.ninf => Dbl.ninf
  | Dbl.ninf, Dbl.pinf => Dbl.ninf
  | Dbl.nan, _ => Dbl.nan
  | _, Dbl.nan => Dbl.nan

/-- The quotient of two `double`s; a finite non-zero value divided by zero is an infinity. -/
def Dbl.div : Dbl → Dbl → Dbl
  | Dbl.fin a, Dbl.fin b =>
    if b = 0 then (if a = 0 then Dbl.nan else if 0 < a then Dbl.pinf else Dbl.ninf)
    else Dbl.fin (a / b)
  | Dbl.fin _, Dbl.pinf => Dbl.fin 0
  | Dbl.fin _, Dbl.ninf => Dbl.fin 0
  | Dbl.pinf, Dbl.fin b => if 0 ≤ b then Dbl.pinf else Dbl.ninf
  | Dbl.ninf, Dbl.fin b => if 0 ≤ b then Dbl.ninf else Dbl.pinf
  | Dbl.pinf, Dbl.pinf => Dbl.nan
  | Dbl.pinf, Dbl.ninf => Dbl.nan
  | Dbl.ninf, Dbl.pinf => Dbl.nan
  | Dbl.ninf, Dbl.ninf => Dbl.nan
  | Dbl.nan, _ => Dbl.nan
  | _, Dbl.nan => Dbl.nan

/-- A `double` that is neither an infinity nor a NaN. -/
def Dbl.isFinite : Dbl → Bool
  | Dbl.fin _ => true
  | _ => false

/-- The comparison `0 < x` on `double`s. -/
def Dbl.isPositive : Dbl → Bool
  | Dbl.fin q => decide (0 < q)
  | Dbl.pinf => true
  | _ => false

/-- One item written to `cout`. -/
inductive Out (α : Type)
  | text (s : String)
  | seconds (t : Dbl)
  | num (g : Dbl)
  | val (v : α)
  | endl

/-- What a kernel leaves behind: its buffers right before they are freed, and its output. -/
structure Run (α : Type) where
  mem : Mem α
  out : List (Out α)

/-- The elapsed time `(double)(Time2 - Time1) / CLOCKS_PER_SEC` of the `clock()` kernels. -/
def clockSeconds (CLOCKS_PER_SEC Time1 Time2 : Int) : Dbl :=
  Dbl.div (Dbl.fin ((Time2 - Time1 : Int) : ℚ)) (Dbl.fin (CLOCKS_PER_SEC : ℚ))

/-- The throughput `(2.0 * m_ar * m_ar * m_br) / (timeInSeconds * 1e9)` of `OnMultLine`. -/
def OnMultLine_gflops (m_ar m_br : Nat) (timeInSeconds : Dbl) : Dbl :=
  Dbl.div (Dbl.fin (2 * (m_ar : ℚ) * (m_ar : ℚ) * (m_br : ℚ)))
    (Dbl.mul timeInSeconds (Dbl.fin 1000000000))

/-- The preview printed after the line "Result matrix: ", the same in the five kernels:
`for (i = 0; i < 1; i++) for (j = 0; j < min(10, m_br); j++) cout << phc[j] << " ";`. -/
def preview {α : Type} (m_br : Nat) (s : Mem α × List (Out α)) : Mem α × List (Out α) :=
  forLoop 0 1 s fun _ s =>
    forLoop 0 (min 10 m_br) s fun j s =>
      ({ s.1 with log := s.1.log ++ [Access.load Buffer.phc j] },
        s.2 ++ [Out.val (s.1.phc j), Out.text " "])

/-- The report that ends every kernel: the lines printed so far, "Result matrix: ", the
preview and a line end. -/
def report {α : Type} (m_br : Nat) (m : Mem α) (out : List (Out α)) : Run α :=
  let s := preview m_br (m, out ++ [Out.text "Result matrix: ", Out.endl])
  { mem := s.1, out := s.2 ++ [Out.endl] }

/-- The matrix entries among the items written to `cout`, in the order of printing. -/
def printedValues {α : Type} (out : List (Out α)) : List α :=
  out.filterMap fun x =>
    match x with
    | Out.val v => some v
    | _ => none

/-- The run `r` of a kernel with `m_br = N` shows the first row: after the items `pre`, which
hold no matrix entry, its output is the line "Result matrix: ", then for
`j = 0 .. min(10, N) - 1` the entry `C[0][j]` of the output buffer followed by a blank, then
a line end. -/
def ShowsFirstRow {α : Type} (N : Nat) (r : Run α) (pre : List (Out α)) : Prop :=
  printedValues pre = [] ∧
  r.out = pre ++ Out.text "Result matrix: " :: Out.endl ::
    ((List.range (min 10 N)).flatMap (fun j => [Out.val (r.mem.phc (0 * N + j)), Out.text " "])
      ++ [Out.endl])

/-! ## The kernels -/

/-- The kernel `OnMult(m_ar, m_br)` on buffers that hold every offset it uses; `a0`, `b0`,
`c0` are the contents of the fresh buffers, `Time1`, `Time2` the two results of `clock()`.
It is the result of the call `OnMult_call` when all accesses are inside the allocation. -/
def OnMult {α : Type} [Zero α] [One α] [NatCast α] [Add α] [Mul α] (CLOCKS_PER_SEC : Int)
    (m_ar m_br : Nat) (a0 b0 c0 : Buf α) (Time1 Time2 : Int) : Run α :=
  let m := OnMult_setup m_ar m_br a0 b0 c0
  let m := OnMult_mult m_ar m_br m
  report m_br m [Out.text "Time: ", Out.seconds (clockSeconds CLOCKS_PER_SEC Time1 Time2),
    Out.text " seconds\n"]

/-- The kernel `OnMultLine(m_ar, m_br)` on buffers that hold every offset it uses. -/
def OnMultLine {α : Type} [Zero α] [One α] [NatCast α] [Add α] [Mul α] (CLOCKS_PER_SEC : Int)
    (m_ar m_br : Nat) (a0 b0 : Buf α) (Time1 Time2 : Int) : Run α :=
  let m := calloc_setup m_ar m_br a0 b0
  let m := OnMultLine_mult m_ar m_br m
  let timeInSeconds := clockSeconds CLOCKS_PER_SEC Time1 Time2
  let gflops := OnMultLine_gflops m_ar m_br timeInSeconds
  report m_br m [Out.text "Time: ", Out.seconds timeInSeconds, Out.text " seconds\n",
    Out.text "Performance: ", Out.num gflops, Out.text " GFLOPS", Out.endl]

/-- The kernel `OnMultBlock(m_ar, m_br, bkSize)` on buffers that hold every offset it uses;
`none` when the loop nest does not come to an end within `fuel` evaluations of a tile-loop
test. -/
def OnMultBlock {α : Type} [Zero α] [One α] [NatCast α] [Add α] [Mul α] (CLOCKS_PER_SEC : Int)
    (fuel m_ar m_br bkSize : Nat) (a0 b0 : Buf α) (Time1 Time2 : Int) : Option (Run α) :=
  let m := calloc_setup m_ar m_br a0 b0
  match OnMultBlock_mult fuel m_ar m_br bkSize m with
  | none => none
  | some m =>
    some (report m_br m [Out.text "Time: ",
      Out.seconds (clockSeconds CLOCKS_PER_SEC Time1 Time2), Out.text " seconds\n"])

/-- The kernel `OnMultLineOMP1(m_ar, m_br)` on buffers that hold every offset it uses;
`Time1`, `Time2` are the two results of `omp_get_wtime()`. -/
def OnMultLineOMP1 {α : Type} [Zero α] [One α] [NatCast α] [Add α] [Mul α]
    (m_ar m_br : Nat) (sched : List Nat) (a0 b0 : Buf α) (Time1 Time2 : ℚ) : Run α :=
  let m := calloc_setup m_ar m_br a0 b0
  let m := OnMultLineOMP1_mult m_ar m_br sched m
  report m_br m [Out.text "Time: ", Out.seconds (Dbl.fin (Time2 - Time1)),
    Out.text " seconds\n"]

/-- The kernel `OnMultLineOMP2(m_ar, m_br)` on buffers that hold every offset it uses. -/
def OnMultLineOMP2 {α : Type} [Zero α] [One α] [NatCast α] [Add α] [Mul α]
    (m_ar m_br : Nat) (sched : Nat → Nat → List Nat) (a0 b0 : Buf α) (Time1 Time2 : ℚ) :
    Run α :=
  let m := calloc_setup m_ar m_br a0 b0
  let m := OnMultLineOMP2_mult m_ar m_br sched m
  report m_br m [Out.text "Time: ", Out.seconds (Dbl.fin (Time2 - Time1)),
    Out.text " seconds\n"]

/-! ## The driver -/

/-- The return code `PAPI_OK`. -/
def PAPI_OK : Int := 0

/-- The two preset events `main` counts. -/
inductive Preset
  | PAPI_L1_DCM
  | PAPI_L2_DCM
deriving DecidableEq, Repr

/-- A kernel invocation made by `main`, with its arguments. -/
inductive Call
  | OnMult (m_ar m_br : Int)
  | OnMultLine (m_ar m_br : Int)
  | OnMultBlock (m_ar m_br bkSize : Int)
  | OnMultLineOMP1 (m_ar m_br : Int)
  | OnMultLineOMP2 (m_ar m_br : Int)
deriving DecidableEq, Repr

/-- Whether a kernel invocation made by `main` (where `m_br = m_ar`) returns to `main`.
With a dimension of 0 or less no loop of the kernel runs an iteration and no buffer is
accessed. With a dimension above 46340 the `int` element count `m_ar * m_ar` of the
allocations wraps around and the first store of the initialisation is outside the allocated
memory: the process faults. In `OnMultBlock` with a dimension of 1 or more, a block size of 0
leaves the tile loop `for (ii = 0; ii < m_ar; ii += bkSize)` without progress, and a negative
block size makes its variable run below 0 until the `int` overflows: the kernel does not
return. For dimensions and block sizes in the natural numbers these are facts of the models of
the kernels (`OnMult_call` .. `OnMultLineOMP2_call`, `returns_iff`). -/
def Call.returns : Call → Bool
  | Call.OnMult m_ar _ => decide (m_ar ≤ 46340)
  | Call.OnMultLine m_ar _ => decide (m_ar ≤ 46340)
  | Call.OnMultBlock m_ar _ bkSize => decide (m_ar ≤ 0 ∨ (m_ar ≤ 46340 ∧ 1 ≤ bkSize))
  | Call.OnMultLineOMP1 m_ar _ => decide (m_ar ≤ 46340)
  | Call.OnMultLineOMP2 m_ar _ => decide (m_ar ≤ 46340)

/-- The PAPI library as `main` uses it. `σ` is the state of the library and of the hardware
counters (the handle `EventSet` is part of it); a call returns its return code and the new
state, `PAPI_stop` also the array `values` it was given, as it leaves it. `run` is what the
execution of a kernel does to that state. -/
structure Papi (σ : Type) where
  PAPI_VER_CURRENT : Int
  PAPI_library_init : Int → σ → Int × σ
  PAPI_create_eventset : σ → Int × σ
  PAPI_add_event : Preset → σ → Int × σ
  PAPI_start : σ → Int × σ
  PAPI_stop : σ → Int × Int → Int × (Int × Int) × σ
  PAPI_reset : σ → Int × σ
  PAPI_remove_event : Preset → σ → Int × σ
  PAPI_destroy_eventset : σ → Int × σ
  run : Call → σ → σ

/-- The PAPI functions `main` calls. -/
inductive PapiFn
  | library_init
  | create_eventset
  | add_event (e : Preset)
  | start
  | stop
  | reset
  | remove_event (e : Preset)
  | destroy_eventset
deriving DecidableEq, Repr

/-- What `main` does that can be observed, in program order. -/
inductive Ev
  | out (s : String)
  | read (x : Int)
  | papi (f : PapiFn) (ret : Int)
  | kernel (c : Call)
  | l1dcm (v : Int)
  | l2dcm (v : Int)
deriving DecidableEq, Repr

/-- The standard input: the decimal integers still to be read, separated by white space, and
the fail bit of `cin`. -/
structure Stdin where
  rest : List Int
  failed : Bool

/-- The extraction `cin >> x` into an `int`, where `old` is the value `x` holds. Once the
stream has failed, and at the end of the input (where the stream fails), nothing is
extracted and `x` is left alone. A number outside the range of `int` is consumed, `x` becomes
the nearest bound of the range and the stream fails. -/
def Stdin.extract (inp : Stdin) (old : Int) : Int × Stdin :=
  if inp.failed then (old, inp)
  else
    match inp.rest with
    | [] => (old, { inp with failed := true })
    | x :: r =>
      if x < -2147483648 then (-2147483648, { rest := r, failed := true })
      else if 2147483647 < x then (2147483647, { rest := r, failed := true })
      else (x, { inp with rest := r })

/-- The state of `main`: the PAPI state, the standard input, the local variables and the
events so far; `stuck` tells that a kernel invocation has not returned, after which nothing
of `main` is executed any more. -/
structure Driver (σ : Type) where
  papi : σ
  stdin : Stdin
  op : Int
  lin : Int
  col : Int
  blockSize : Int
  values : Int × Int
  ret : Int
  trace : List Ev
  stuck : Bool := false

/-- Append events to the trace. -/
def Driver.emit {σ : Type} (d : Driver σ) (es : List Ev) : Driver σ :=
  { d with trace := d.trace ++ es }

/-- The statement `ret = f(..)` for a PAPI call `f`, followed by
`if (ret != expected) cout << msg << endl;`. -/
def Driver.call {σ : Type} (d : Driver σ) (f : PapiFn) (r : Int × σ) (expected : Int)
    (msg : String) : Driver σ :=
  let d := { d with papi := r.2, ret := r.1, trace := d.trace ++ [Ev.papi f r.1] }
  if d.ret ≠ expected then d.emit [Ev.out msg, Ev.out "\n"] else d

/-- The kernel invocation `c`: an event of the trace and, if the invocation returns, its
effect on the counters; if it does not return, `main` is stuck in it. -/
def Driver.invoke {σ : Type} (P : Papi σ) (d : Driver σ) (c : Call) : Driver σ :=
  { d with
    papi := P.run c d.papi
    trace := d.trace ++ [Ev.kernel c]
    stuck := d.stuck || !c.returns }

/-- The part of `main` before the menu loop: library and event set initialisation, `op = 1`. -/
def main_setup {σ : Type} (P : Papi σ) (d : Driver σ) : Driver σ :=
  let d := d.call PapiFn.library_init (P.PAPI_library_init P.PAPI_VER_CURRENT d.papi)
    P.PAPI_VER_CURRENT "FAIL"
  let d := d.call PapiFn.create_eventset (P.PAPI_create_eventset d.papi) PAPI_OK
    "ERROR: create eventset"
  let d := d.call (PapiFn.add_event Preset.PAPI_L1_DCM)
    (P.PAPI_add_event Preset.PAPI_L1_DCM d.papi) PAPI_OK "ERROR: PAPI_L1_DCM"
  let d := d.call (PapiFn.add_event Preset.PAPI_L2_DCM)
    (P.PAPI_add_event Preset.PAPI_L2_DCM d.papi) PAPI_OK "ERROR: PAPI_L2_DCM"
  { d with op := 1 }

/-- The text of the menu. -/
def menu : List Ev :=
  [Ev.out "\n", Ev.out "1. Multiplication", Ev.out "\n",
    Ev.out "2. Line Multiplication", Ev.out "\n", Ev.out "3. Block Multiplication", Ev.out "\n",
    Ev.out "4. Line Multiplication OMP V1", Ev.out "\n",
    Ev.out "5. Line Multiplication OMP V2", Ev.out "\n", Ev.out "Selection?: "]

/-- The menu and the extraction `cin >> op` that open every turn of the loop. -/
def main_menu {σ : Type} (d : Driver σ) : Driver σ :=
  let d := d.emit menu
  let r := d.stdin.extract d.op
  { d with op := r.1, stdin := r.2, trace := d.trace ++ [Ev.read r.1] }

/-- The `switch (op)` of `main`. -/
def main_switch {σ : Type} (P : Papi σ) (d : Driver σ) : Driver σ :=
  if d.op = 1 then d.invoke P (Call.OnMult d.lin d.col)
  else if d.op = 2 then d.invoke P (Call.OnMultLine d.lin d.col)
  else if d.op = 3 then
    let d := d.emit [Ev.out "Block Size? "]
    let r := d.stdin.extract d.blockSize
    let d := { d with blockSize := r.1, stdin := r.2, trace := d.trace ++ [Ev.read r.1] }
    d.invoke P (Call.OnMultBlock d.lin d.col d.blockSize)
  else if d.op = 4 then d.invoke P (Call.OnMultLineOMP1 d.lin d.col)
  else if d.op = 5 then d.invoke P (Call.OnMultLineOMP2 d.lin d.col)
  else d

/-- The first part of the body of the menu loop, after the test `if (op == 0) break;`: the
dimension, the start of the counters and the `switch` with the kernel. -/
def main_run {σ : Type} (P : Papi σ) (d : Driver σ) : Driver σ :=
  let d := d.emit [Ev.out "Dimensions: lins=cols ? "]
  let r := d.stdin.extract d.lin
  let d := { d with lin := r.1, stdin := r.2, trace := d.trace ++ [Ev.read r.1] }
  let d := { d with col := d.lin }
  let d := d.call PapiFn.start (P.PAPI_start d.papi) PAPI_OK "ERROR: Start PAPI"
  main_switch P d

/-- The second part of the body of the menu loop, reached when the kernel has returned: the
stop of the counters, the two counts and the reset. -/
def main_collect {σ : Type} (P : Papi σ) (d : Driver σ) : Driver σ :=
  if d.stuck then d
  else
    let s := P.PAPI_stop d.papi d.values
    let d := { d with values := s.2.1 }
    let d := d.call PapiFn.stop (s.1, s.2.2) PAPI_OK "ERROR: Stop PAPI"
    let d := d.emit [Ev.l1dcm d.values.1, Ev.l2dcm d.values.2]
    d.call PapiFn.reset (P.PAPI_reset d.papi) PAPI_OK "FAIL reset"

/-- The body of the menu loop after the test `if (op == 0) break;`. -/
def main_iteration {σ : Type} (P : Papi σ) (d : Driver σ) : Driver σ :=
  main_collect P (main_run P d)

/-- One turn of the `do .. while (op != 0)` loop; the flag tells whether the loop goes on. -/
def main_turn {σ : Type} (P : Papi σ) (d : Driver σ) : Driver σ × Bool :=
  let d := main_menu d
  if d.op = 0 then (d, false)
  else
    let d := main_iteration P d
    (d, decide (d.op ≠ 0))

/-- The menu loop; `none` when it has not ended after `fuel` turns, or when a kernel
invocation has not returned. -/
def main_loop {σ : Type} (P : Papi σ) : Nat → Driver σ → Option (Driver σ)
  | 0, _ => none
  | fuel + 1, d =>
    if (main_turn P d).1.stuck then none
    else if (main_turn P d).2 then main_loop P fuel (main_turn P d).1
    else some (main_turn P d).1

/-- The state of `main` at the head of the loop after `n` complete turns, if the loop is
still running then. -/
def main_after {σ : Type} (P : Papi σ) : Nat → Driver σ → Option (Driver σ)
  | 0, d => some d
  | n + 1, d =>
    if (main_turn P d).1.stuck then none
    else if (main_turn P d).2 then main_after P n (main_turn P d).1
    else none

/-- The part of `main` after the menu loop. -/
def main_teardown {σ : Type} (P : Papi σ) (d : Driver σ) : Driver σ :=
  let d := d.call (PapiFn.remove_event Preset.PAPI_L1_DCM)
    (P.PAPI_remove_event Preset.PAPI_L1_DCM d.papi) PAPI_OK "FAIL remove event"
  let d := d.call (PapiFn.remove_event Preset.PAPI_L2_DCM)
    (P.PAPI_remove_event Preset.PAPI_L2_DCM d.papi) PAPI_OK "FAIL remove event"
  d.call PapiFn.destroy_eventset (P.PAPI_destroy_eventset d.papi) PAPI_OK "FAIL destroy"

/-- The program `main`, run on the library state `s0` and the input `input`; `lin`, `col`,
`blockSize`, `ret` and `values` are the contents of the uninitialised locals. The result is the exit
status and the trace, `none` when the menu loop has not ended after `fuel` turns or a kernel
invocation has not returned. -/
def main {σ : Type} (P : Papi σ) (fuel : Nat) (s0 : σ) (input : List Int)
    (lin col blockSize ret : Int) (values : Int × Int) : Option (Int × List Ev) :=
  let d : Driver σ :=
    { papi := s0
      stdin := { rest := input, failed := false }
      op := 0
      lin := lin
      col := col
      blockSize := blockSize
      values := values
      ret := ret
      trace := [] }
  let d := main_setup P d
  match main_loop P fuel d with
  | none => none
  | some d =>
    let d := main_teardown P d
    some (0, d.trace)

/-- The kernel invocations among the events of a trace, in order. -/
def kernelCalls (t : List Ev) : List Call :=
  t.filterMap fun e =>
    match e with
    | Ev.kernel c => some c
    | _ => none

/-- The PAPI calls and the prints of a count among the events of a trace, in order. -/
def measurement (t : List Ev) : List Ev :=
  t.filter fun e =>
    match e with
    | Ev.papi _ _ => true
    | Ev.l1dcm _ => true
    | Ev.l2dcm _ => true
    | _ => false

/-! ## A small counter model, to run the driver -/

/-- The state of the small model: whether the event set is counting, and its accumulators. -/
structure Counters where
  counting : Bool
  acc : Int × Int
deriving DecidableEq, Repr

/-- A small model of the library: `PAPI_library_init` returns `initRet` and `PAPI_start`
returns `startRet` (the event set counts only if that is `PAPI_OK`); a kernel invocation `c`
adds `cost c` to the accumulators while the event set counts; `PAPI_stop` retrieves the
accumulators, `PAPI_reset` zeroes them; every other call succeeds. -/
def smallPapi (ver initRet startRet : Int) (cost : Call → Int × Int) : Papi Counters :=
  { PAPI_VER_CURRENT := ver
    PAPI_library_init := fun _ s => (initRet, s)
    PAPI_create_eventset := fun s => (PAPI_OK, s)
    PAPI_add_event := fun _ s => (PAPI_OK, s)
    PAPI_start := fun s =>
      (startRet, if startRet = PAPI_OK then { s with counting := true } else s)
    PAPI_stop := fun s _ => (PAPI_OK, s.acc, { s with counting := false })
    PAPI_reset := fun s => (PAPI_OK, { s with acc := (0, 0) })
    PAPI_remove_event := fun _ s => (PAPI_OK, s)
    PAPI_destroy_eventset := fun s => (PAPI_OK, s)
    run := fun c s =>
      if s.counting then { s with acc := (s.acc.1 + (cost c).1, s.acc.2 + (cost c).2) }
      else s }

/-! ## Auxiliary definitions for the proofs -/

/-- The value the i-k-j accumulation leaves in a cell that starts at `v`: the products
`A[i][k] * B[k][j]` are added for `k = 0, 1, ..`, in this order. -/
def accumulate {α : Type} [Add α] [Mul α] (N : Nat) (A B : Buf α) (i j : Nat) (v : α) : α :=
  (List.range N).foldl (fun v k => v + A (i * N + k) * B (k * N + j)) v

/-- The i-k-j nest on the output buffer alone, over arbitrary index lists. -/
def nest3 {α : Type} [Add α] [Mul α] (N : Nat) (A B : Buf α) (Li Lk : List Nat)
    (Lj : Nat → Nat → List Nat) (c : Buf α) : Buf α :=
  Li.foldl (fun c i => Lk.foldl (fun c k => (Lj i k).foldl (fun c j =>
    c.set (i * N + j) (c (i * N + j) + A (i * N + k) * B (k * N + j))) c) c) c

/-- The output buffer the i-k-j accumulation produces from `c`: every cell of the `N × N`
matrix accumulates its `N` products, the other offsets are left alone. -/
def lineResult {α : Type} [Add α] [Mul α] (N : Nat) (A B c : Buf α) : Buf α :=
  fun o => if o / N < N then accumulate N A B (o / N) (o % N) (c o) else c o

/-- The values the variable of `for (i = lo; i < hi; i += step)` takes, in order. -/
def tiles : Nat → Nat → Nat → Nat → List Nat
  | 0, _, _, _ => []
  | fuel + 1, i, hi, step => if i < hi then i :: tiles fuel (i + step) hi step else []

/-- The offsets `b .. min (b + bk) N - 1` of one tile. -/
def tile (N bk b : Nat) : List Nat := List.range' b (min (b + bk) N - b)

/-- What the three inner loops of the tile (`ii`, `kk`, `jj`) do to the cell `o`. -/
def cellJ {α : Type} [Add α] [Mul α] (N bk : Nat) (A B : Buf α) (ii kk jj o : Nat) (v : α) : α :=
  if o % N ∈ tile N bk jj then
    (if o / N ∈ tile N bk ii then
      (tile N bk kk).foldl (fun v k => v + A (o / N * N + k) * B (k * N + o % N)) v
    else v)
  else v

/-- What the `jj` loop and the loops inside it do to the cell `o`. -/
def cellK {α : Type} [Add α] [Mul α] (N bk : Nat) (A B : Buf α) (ii kk o : Nat) (v : α) : α :=
  (tile N bk kk).foldl (fun v k => if o / N ∈ tile N bk ii ∧ o % N < N
    then v + A (o / N * N + k) * B (k * N + o % N) else v) v

/-- What the `kk` loop and the loops inside it do to the cell `o`. -/
def cellI {α : Type} [Add α] [Mul α] (N bk : Nat) (A B : Buf α) (ii o : Nat) (v : α) : α :=
  if o / N ∈ tile N bk ii then
    (if o % N < N then accumulate N A B (o / N) (o % N) v else v)
  else v

/-- The six-loop nest on the output buffer alone. -/
def blockNest {α : Type} [Add α] [Mul α] (N bk : Nat) (A B : Buf α) (T : List Nat)
    (c : Buf α) : Buf α :=
  T.foldl (fun c ii => T.foldl (fun c kk => T.foldl (fun c jj =>
    nest3 N A B (tile N bk ii) (tile N bk kk) (fun _ _ => tile N bk jj) c) c) c) c

/-- A two-level nest that rewrites the cell `i * N + j` of a buffer by `u i j`. -/
def nest2 {β : Type} (N : Nat) (u : Nat → Nat → β → β) (Li : List Nat) (Lj : Nat → List Nat)
    (c : Nat → β) : Nat → β :=
  Li.foldl (fun c i => (Lj i).foldl (fun c j =>
    fun o => if o = i * N + j then u i j (c (i * N + j)) else c o) c) c

/-- The matrices of the worked example in `OnMultLine`, with `phc` zeroed. -/
def example3 : Mem ℤ :=
  { pha := fun o => [1, 2, 3, 4, 5, 6, 7, 8, 9].getD o 0
    phb := fun o => [9, 8, 7, 6, 5, 4, 3, 2, 1].getD o 0
    phc := fun _ => 0
    log := [] }

/-- The matrices of the worked example in `OnMultBlock`, with `phc` zeroed. -/
def example4 : Mem ℤ :=
  { pha := fun o => [1, 2, 2, 7, 1, 5, 6, 2, 3, 3, 4, 5, 3, 3, 6, 7].getD o 0
    phb := fun o => [3, 1, 1, 4, 7, 4, 5, 3, 2, 4, 2, 4, 3, 1, 8, 5].getD o 0
    phc := fun _ => 0
    log := [] }

/-- A state of `main` at the head of the menu loop: `op` as given, `input` still to be read,
the event set idle with zero accumulators, an empty trace. -/
def driverAt (op : Int) (input : List Int) : Driver Counters :=
  { papi := { counting := false, acc := (0, 0) }
    stdin := { rest := input, failed := false }
    op := op
    lin := 7
    col := 7
    blockSize := 7
    values := (7, 7)
    ret := 0
    trace := [] }

/-- The counts a kernel invocation adds in the examples: 100 and 40 for `OnMult`, 10 and 3
for any other kernel. -/
def exampleCost : Call → Int × Int
  | Call.OnMult _ _ => (100, 40)
  | _ => (10, 3)

/-- The events that bracket a kernel: the start of the event set, a kernel invocation, the
stop of the event set. -/
inductive Mark
  | start
  | kernel
  | stop
deriving DecidableEq, Repr

/-- The starts, kernel invocations and stops among the events of a trace, in order. -/
def marks (t : List Ev) : List Mark :=
  t.filterMap fun e =>
    match e with
    | Ev.papi PapiFn.start _ => some Mark.start
    | Ev.papi PapiFn.stop _ => some Mark.stop
    | Ev.kernel _ => some Mark.kernel
    | _ => none

/-- Every start is followed by its stop, with at most one kernel invocation and no other
start in between, and no kernel invocation or stop stands outside such a pair. -/
def bracketed : List Mark → Bool
  | [] => true
  | Mark.start :: Mark.kernel :: Mark.stop :: rest => bracketed rest
  | Mark.start :: Mark.stop :: rest => bracketed rest
  | _ => false

/-- Every start is followed by its stop with exactly one kernel invocation in between, and no
kernel invocation or stop stands outside such a pair. -/
def bracketedOne : List Mark → Bool
  | [] => true
  | Mark.start :: Mark.kernel :: Mark.stop :: rest => bracketedOne rest
  | _ => false

/-- A library in which the three teardown calls fail with the code -1. -/
def failingTeardown : Papi Counters :=
  { smallPapi 117440512 117440512 0 exampleCost with
    PAPI_remove_event := fun _ s => (-1, s)
    PAPI_destroy_eventset := fun s => (-1, s) }

/-- The outer iteration `i` of the work-shared loop of `OnMultLineOMP1`. -/
def OnMultLineOMP1_iteration {α : Type} [Add α] [Mul α] (m_ar m_br i : Nat) (m : Mem α) :
    Mem α :=
  forLoop 0 m_ar m fun k m =>
    forLoop 0 m_br m fun j m =>
      m.accumC (i * m_br + j) (i * m_ar + k) (k * m_br + j)

/-- The offsets of the loads from `phb` in an access log, in order. -/
def loadsB (log : List Access) : List Nat :=
  log.filterMap fun a =>
    match a with
    | Access.load Buffer.phb o => some o
    | _ => none

/-- The six loops of `OnMultBlock` around an arbitrary innermost statement `body i k j`. -/
def OnMultBlock_nest {σ : Type} (fuel m_ar m_br bkSize : Nat) (s : σ)
    (body : Nat → Nat → Nat → σ → σ) : Option σ :=
  forStep fuel 0 m_ar bkSize s fun ii s =>
    forStep fuel 0 m_ar bkSize s fun kk s =>
      forStep fuel 0 m_br bkSize s fun jj s =>
        some <|
          forLoop ii (min (ii + bkSize) m_ar) s fun i s =>
            forLoop kk (min (kk + bkSize) m_ar) s fun k s =>
              forLoop jj (min (jj + bkSize) m_br) s fun j s =>
                body i k j s

/-- The index triples (`i`, `k`, `j`) in the order in which the six loops of `OnMultBlock`
over an `N × N` problem reach the innermost statement; `T` lists the tile origins. -/
def blockOrder (N bk : Nat) (T : List Nat) : List (Nat × Nat × Nat) :=
  T.flatMap fun ii => T.flatMap fun kk => T.flatMap fun jj =>
    (tile N bk ii).flatMap fun i => (tile N bk kk).flatMap fun k =>
      (tile N bk jj).flatMap fun j => [(i, k, j)]

/-- The offset of an access. -/
def Access.off : Access → Nat
  | Access.load _ o => o
  | Access.store _ o => o

/-- All accesses of the log are at offsets below `size`, the number of elements of each
buffer. -/
def Within (size : Nat) (log : List Access) : Prop :=
  ∀ a ∈ log, a.off < size

instance (size : Nat) (log : List Access) : Decidable (Within size log) :=
  inferInstanceAs (Decidable (∀ a ∈ log, a.off < size))

/-- The accesses of a log replayed on buffers of `size` elements with checked indexing:
`none` as soon as one access takes the out-of-range branch. -/
def replay (size : Nat) : List Access → Option Unit
  | [] => some ()
  | a :: log => if a.off < size then replay size log else none

/-- The value a 32-bit signed `int` holds when the mathematical result is `x`: two's
complement wrap-around. -/
def wrap32 (x : Int) : Int :=
  (x + 2147483648) % 4294967296 - 2147483648

/-- The `int` expression `m_ar * m_ar`, the element count of the three allocations. -/
def elementCount32 (m_ar : Int) : Int :=
  wrap32 (m_ar * m_ar)

/-- The `int` expressions `i * m_ar + j`, `i * m_ar + k` and `k * m_br + j` of the kernels:
`row * stride + column`. -/
def offset32 (row stride column : Int) : Int :=
  wrap32 (wrap32 (row * stride) + column)

/-- What `init_papi` and `handle_error` print: the line "PAPI library version mismatch!", the
line "PAPI error %d: %s" for a return code, or the line "PAPI Version Number: MAJOR: ..
MINOR: .. REVISION: .." made from a version number. -/
inductive InitOut
  | mismatch
  | error (retval : Int)
  | version (retval : Int)
deriving DecidableEq, Repr

/-- How a function ends: it returns to its caller, or it ends the process with
`exit(status)`. -/
inductive Ending
  | returns
  | exits (status : Int)
deriving DecidableEq, Repr

/-- The function `handle_error(retval)`: it prints the error and calls `exit(1)`. -/
def handle_error (retval : Int) : List InitOut × Ending :=
  ([InitOut.error retval], Ending.exits 1)

/-- The function `init_papi()`, run on the library state `s`: what it prints, how it ends,
and the library state it leaves. -/
def init_papi {σ : Type} (P : Papi σ) (s : σ) : List InitOut × Ending × σ :=
  let r := P.PAPI_library_init P.PAPI_VER_CURRENT s
  let retval := r.1
  if retval ≠ P.PAPI_VER_CURRENT ∧ retval < 0 then
    ([InitOut.mismatch], Ending.exits 1, r.2)
  else if retval < 0 then
    ((handle_error retval).1, (handle_error retval).2, r.2)
  else
    ([InitOut.version retval], Ending.returns, r.2)

/-- The event set is never started while it is started: walking the marks with a flag that a
start sets and a stop clears, no start is met while the flag is set. -/
def noRestart : Bool → List Mark → Bool
  | _, [] => true
  | started, Mark.start :: rest => !started && noRestart true rest
  | _, Mark.stop :: rest => noRestart false rest
  | started, Mark.kernel :: rest => noRestart started rest

/-- A library in which `PAPI_start` succeeds only as many times as the second component of the
state tells, and `PAPI_stop` on an event set that is not counting fails with the code -9 and
leaves `values` alone; a kernel invocation `c` adds `exampleCost c` to the accumulators while
the event set counts; `PAPI_reset` zeroes the accumulators. -/
def startsLeft : Papi (Counters × Nat) :=
  { PAPI_VER_CURRENT := 117440512
    PAPI_library_init := fun _ s => (117440512, s)
    PAPI_create_eventset := fun s => (PAPI_OK, s)
    PAPI_add_event := fun _ s => (PAPI_OK, s)
    PAPI_start := fun s =>
      if s.2 = 0 then (-1, s) else (PAPI_OK, ({ s.1 with counting := true }, s.2 - 1))
    PAPI_stop := fun s v =>
      if s.1.counting then (PAPI_OK, s.1.acc, ({ s.1 with counting := false }, s.2))
      else (-9, v, s)
    PAPI_reset := fun s => (PAPI_OK, ({ s.1 with acc := (0, 0) }, s.2))
    PAPI_remove_event := fun _ s => (PAPI_OK, s)
    PAPI_destroy_eventset := fun s => (PAPI_OK, s)
    run := fun c s =>
      if s.1.counting then
        ({ s.1 with acc := (s.1.acc.1 + (exampleCost c).1, s.1.acc.2 + (exampleCost c).2) }, s.2)
      else s }

/-! ## The allocations and the calls of the kernels -/

/-- The number of elements that each of the three buffers of a kernel holds. Each buffer is
requested by `malloc((m_ar * m_ar) * sizeof(double))` or
`calloc((m_ar * m_ar), sizeof(double))`, where the product `m_ar * m_ar` is an `int`: when it
has wrapped around to a negative number the size, converted to `size_t`, is beyond any
memory, the allocation yields a null pointer and the buffer holds no element. -/
def allocated (m_ar : Nat) : Nat :=
  (elementCount32 (m_ar : Int)).toNat

/-- The memory `m` if every access made so far is inside buffers of `size` elements, `none`
if one is outside: the program then has no defined behaviour (it faults on the null pointer
of a failed allocation, or reads or writes memory outside its buffer). An offset below
`size`, which is at most `2^31 - 1`, is also the value of its `int` expression. -/
def Mem.checked {α : Type} (size : Nat) (m : Mem α) : Option (Mem α) :=
  if Within size m.log then some m else none

/-- The run `r` if every access it has made is inside buffers of `size` elements. -/
def Run.checked {α : Type} (size : Nat) (r : Run α) : Option (Run α) :=
  if Within size r.mem.log then some r else none

/-- The call `OnMult(m_ar, m_br)` with its allocations: the three phases of the kernel
(initialisation, multiplication, report) in turn, each on the buffers of `allocated m_ar`
elements; `none` when an access is outside them. -/
def OnMult_call {α : Type} [Zero α] [One α] [NatCast α] [Add α] [Mul α] (CLOCKS_PER_SEC : Int)
    (m_ar m_br : Nat) (a0 b0 c0 : Buf α) (Time1 Time2 : Int) : Option (Run α) := do
  let m ← (OnMult_setup m_ar m_br a0 b0 c0).checked (allocated m_ar)
  let m ← (OnMult_mult m_ar m_br m).checked (allocated m_ar)
  (report m_br m [Out.text "Time: ", Out.seconds (clockSeconds CLOCKS_PER_SEC Time1 Time2),
    Out.text " seconds\n"]).checked (allocated m_ar)

/-- The call `OnMultLine(m_ar, m_br)` with its allocations. -/
def OnMultLine_call {α : Type} [Zero α] [One α] [NatCast α] [Add α] [Mul α]
    (CLOCKS_PER_SEC : Int) (m_ar m_br : Nat) (a0 b0 : Buf α) (Time1 Time2 : Int) :
    Option (Run α) := do
  let m ← (calloc_setup m_ar m_br a0 b0).checked (allocated m_ar)
  let m ← (OnMultLine_mult m_ar m_br m).checked (allocated m_ar)
  let timeInSeconds := clockSeconds CLOCKS_PER_SEC Time1 Time2
  let gflops := OnMultLine_gflops m_ar m_br timeInSeconds
  (report m_br m [Out.text "Time: ", Out.seconds timeInSeconds, Out.text " seconds\n",
    Out.text "Performance: ", Out.num gflops, Out.text " GFLOPS", Out.endl]).checked
      (allocated m_ar)

/-- The call `OnMultBlock(m_ar, m_br, bkSize)` with its allocations; `none` also when the
loop nest does not come to an end within `fuel` evaluations of a tile-loop test. -/
def OnMultBlock_call {α : Type} [Zero α] [One α] [NatCast α] [Add α] [Mul α]
    (CLOCKS_PER_SEC : Int) (fuel m_ar m_br bkSize : Nat) (a0 b0 : Buf α) (Time1 Time2 : Int) :
    Option (Run α) := do
  let m ← (calloc_setup m_ar m_br a0 b0).checked (allocated m_ar)
  let m ← OnMultBlock_mult fuel m_ar m_br bkSize m
  let m ← m.checked (allocated m_ar)
  (report m_br m [Out.text "Time: ", Out.seconds (clockSeconds CLOCKS_PER_SEC Time1 Time2),
    Out.text " seconds\n"]).checked (allocated m_ar)

/-- The call `OnMultLineOMP1(m_ar, m_br)` with its allocations. -/
def OnMultLineOMP1_call {α : Type} [Zero α] [One α] [NatCast α] [Add α] [Mul α]
    (m_ar m_br : Nat) (sched : List Nat) (a0 b0 : Buf α) (Time1 Time2 : ℚ) :
    Option (Run α) := do
  let m ← (calloc_setup m_ar m_br a0 b0).checked (allocated m_ar)
  let m ← (OnMultLineOMP1_mult m_ar m_br sched m).checked (allocated m_ar)
  (report m_br m [Out.text "Time: ", Out.seconds (Dbl.fin (Time2 - Time1)),
    Out.text " seconds\n"]).checked (allocated m_ar)

/-- The call `OnMultLineOMP2(m_ar, m_br)` with its allocations. -/
def OnMultLineOMP2_call {α : Type} [Zero α] [One α] [NatCast α] [Add α] [Mul α]
    (m_ar m_br : Nat) (sched : Nat → Nat → List Nat) (a0 b0 : Buf α) (Time1 Time2 : ℚ) :
    Option (Run α) := do
  let m ← (calloc_setup m_ar m_br a0 b0).checked (allocated m_ar)
  let m ← (OnMultLineOMP2_mult m_ar m_br sched m).checked (allocated m_ar)
  (report m_br m [Out.text "Time: ", Out.seconds (Dbl.fin (Time2 - Time1)),
    Out.text " seconds\n"]).checked (allocated m_ar)

/-! ## Binary64 on integers -/

/-- The number of low bits that binary64 cannot keep of the natural number `n`: the least
`e`, counted up from the given one, with `n < 2^(53 + e)`; `fuel` bounds the search. -/
def droppedBits : Nat → Nat → Nat → Nat
  | 0, e, _ => e
  | fuel + 1, e, n => if n < 2 ^ (53 + e) then e else droppedBits fuel (e + 1) n

/-- The rounding of an integer to binary64 (for magnitudes below `2^1024`): the nearest
integer with at most 53 significant bits, of two nearest ones the one whose 53rd bit is 0. -/
def round53 (x : Int) : Int :=
  let n := x.natAbs
  let e := droppedBits 971 0 n
  let q := n / 2 ^ e
  let r := n % 2 ^ e
  let q1 := if 2 ^ e < 2 * r ∨ (2 * r = 2 ^ e ∧ q % 2 = 1) then q + 1 else q
  Int.sign x * ((q1 * 2 ^ e : Nat) : Int)

/-- A `double` that holds an integer. Sums and products of such values are integers before
rounding; the operations round them to binary64. -/
structure F64 where
  val : Int
deriving DecidableEq, Repr

instance : Zero F64 := ⟨⟨0⟩⟩

instance : One F64 := ⟨⟨1⟩⟩

instance : NatCast F64 := ⟨fun n => ⟨round53 n⟩⟩

instance : Add F64 := ⟨fun a b => ⟨round53 (a.val + b.val)⟩⟩

instance : Mul F64 := ⟨fun a b => ⟨round53 (a.val * b.val)⟩⟩

/-- The arithmetic of the value type is exact on the natural numbers below `2^53`, as that
of binary64 is: 0 and 1 are the casts of 0 and 1, and a sum or product of two such numbers
that is itself below `2^53` is the cast of the sum or product. -/
structure ExactOnNat (α : Type) [Zero α] [One α] [NatCast α] [Add α] [Mul α] : Prop where
  zero : (0 : α) = ((0 : Nat) : α)
  one : (1 : α) = ((1 : Nat) : α)
  add : ∀ a b : Nat, a + b < 2 ^ 53 → ((a : Nat) : α) + ((b : Nat) : α) = ((a + b : Nat) : α)
  mul : ∀ a b : Nat, a < 2 ^ 53 → b < 2 ^ 53 → a * b < 2 ^ 53 →
    ((a : Nat) : α) * ((b : Nat) : α) = ((a * b : Nat) : α)

/-- Matrices `A` and `B` of ones and an output buffer that holds `10^16` in every cell, as
`double`s. -/
def roundingLine : Mem F64 :=
  { pha := fun _ => 1
    phb := fun _ => 1
    phc := fun _ => ⟨10000000000000000⟩
    log := [] }

/-- The matrix `A` with `A[0][0] = 10^16` and 1 elsewhere, a matrix `B` of ones and an output
buffer of zeros, as `double`s. -/
def roundingNaive : Mem F64 :=
  { pha := fun o => if o = 0 then ⟨10000000000000000⟩ else 1
    phb := fun _ => 1
    phc := fun _ => 0
    log := [] }

/-! ## Reasoning about loops -/

theorem foldl_rel {σ τ ι : Type} (R : σ → τ → Prop) (f : σ → ι → σ) (g : τ → ι → τ)
    (l : List ι) (h : ∀ s t i, i ∈ l → R s t → R (f s i) (g t i)) (s : σ) (t : τ)
    (h0 : R s t) : R (l.foldl f s) (l.foldl g t) := by
  induction l generalizing s t with
  | nil => simpa using h0
  | cons a l ih =>
    simp only [List.foldl_cons]
    exact ih (fun s t i hi => h s t i (List.mem_cons_of_mem _ hi)) _ _
      (h s t a (List.mem_cons_self _ _) h0)

theorem foldl_inv {σ ι : Type} (P : σ → Prop) (f : σ → ι → σ) (l : List ι)
    (h : ∀ s i, i ∈ l → P s → P (f s i)) (s : σ) (h0 : P s) : P (l.foldl f s) := by
  induction l generalizing s with
  | nil => simpa using h0
  | cons a l ih =>
    simp only [List.foldl_cons]
    exact ih (fun s i hi => h s i (List.mem_cons_of_mem _ hi)) _
      (h s a (List.mem_cons_self _ _) h0)

theorem foldl_congr_mem {β ι : Type} (f g : β → ι → β) (l : List ι)
    (h : ∀ v i, i ∈ l → f v i = g v i) (v : β) : l.foldl f v = l.foldl g v := by
  induction l generalizing v with
  | nil => rfl
  | cons a l ih =>
    simp only [List.foldl_cons]
    rw [h v a (List.mem_cons_self _ _)]
    exact ih (fun v i hi => h v i (List.mem_cons_of_mem _ hi)) _

theorem foldl_buf_apply {ι β : Type} (l : List ι) (upd : ι → Nat → β → β) (c : Nat → β)
    (o : Nat) :
    (l.foldl (fun c i => fun o => upd i o (c o)) c) o = l.foldl (fun v i => upd i o v) (c o) := by
  induction l generalizing c with
  | nil => rfl
  | cons a l ih => simp only [List.foldl_cons]; rw [ih]

theorem foldl_once {ι β : Type} [DecidableEq ι] (l : List ι) (hnd : l.Nodup) (x : ι)
    (g : ι → β → β) (v : β) :
    l.foldl (fun v i => if i = x then g i v else v) v = if x ∈ l then g x v else v := by
  induction l generalizing v with
  | nil => simp
  | cons a l ih =>
    have hnd2 := List.nodup_cons.mp hnd
    simp only [List.foldl_cons, List.mem_cons]
    rw [ih hnd2.2]
    by_cases hax : a = x
    · subst hax
      simp [hnd2.1]
    · have hxa : ¬ x = a := fun h => hax h.symm
      simp [hax, hxa]

theorem foldl_cond {ι β : Type} (l : List ι) (c : Prop) [Decidable c] (f : β → ι → β) (v : β) :
    l.foldl (fun v i => if c then f v i else v) v = if c then l.foldl f v else v := by
  by_cases hc : c
  · simp [hc]
  · simp only [hc, if_false]
    induction l with
    | nil => rfl
    | cons a l ih => simp [ih]

/-! ## One cell of the output buffer -/

theorem offset_eq_iff (N o i j : Nat) (hj : j < N) :
    o = i * N + j ↔ j = o % N ∧ i = o / N := by
  have hN : 0 < N := by omega
  constructor
  · intro h
    subst h
    constructor
    · rw [Nat.add_comm, Nat.add_mul_mod_self_right, Nat.mod_eq_of_lt hj]
    · rw [Nat.add_comm, Nat.add_mul_div_right _ _ hN, Nat.div_eq_of_lt hj, Nat.zero_add]
  · rintro ⟨h1, h2⟩
    subst h1 h2
    rw [Nat.mul_comm]
    exact (Nat.div_add_mod o N).symm

theorem set_accum_eq {α ι : Type} [Add α] (off : ι → Nat) (t : ι → α) :
    (fun (c : Buf α) (j : ι) => c.set (off j) (c (off j) + t j)) =
      fun c j o => if o = off j then c o + t j else c o := by
  funext c j o
  simp only [Buf.set]
  split
  · next h => rw [h]
  · rfl

theorem nest3_apply {α : Type} [Add α] [Mul α] (N : Nat) (A B : Buf α) (Li Lk : List Nat)
    (Lj : Nat → Nat → List Nat) (c : Buf α) (o : Nat)
    (hLi : Li.Nodup) (hLj : ∀ i k, (Lj i k).Nodup) (hjN : ∀ i k j, j ∈ Lj i k → j < N) :
    nest3 N A B Li Lk Lj c o =
      if o / N ∈ Li then
        Lk.foldl (fun v k => if o % N ∈ Lj (o / N) k
          then v + A (o / N * N + k) * B (k * N + o % N) else v) (c o)
      else c o := by
  unfold nest3
  -- innermost level
  have hj : ∀ i k (c : Buf α), (Lj i k).foldl (fun c j =>
      c.set (i * N + j) (c (i * N + j) + A (i * N + k) * B (k * N + j))) c =
      fun o => if o % N ∈ Lj i k then
        (if i = o / N then c o + A (o / N * N + k) * B (k * N + o % N) else c o) else c o := by
    intro i k c
    funext o
    have h1 : (Lj i k).foldl (fun c j =>
        c.set (i * N + j) (c (i * N + j) + A (i * N + k) * B (k * N + j))) c o =
        (Lj i k).foldl (fun v j => if o = i * N + j
          then v + A (i * N + k) * B (k * N + j) else v) (c o) := by
      have := foldl_buf_apply (Lj i k) (fun j o v => if o = i * N + j
          then v + A (i * N + k) * B (k * N + j) else v) c o
      rw [← this, set_accum_eq]
    rw [h1]
    rw [foldl_congr_mem _ (fun v j => if j = o % N then
        (fun (_ : Nat) v => if i = o / N then v + A (o / N * N + k) * B (k * N + o % N) else v) j v
        else v) (Lj i k)]
    · rw [foldl_once _ (hLj i k)]
    · intro v j hjm
      have hlt := hjN i k j hjm
      by_cases h : o = i * N + j
      · have h2 := (offset_eq_iff N o i j hlt).mp h
        simp only [h, if_true]
        rw [← h, if_pos h2.1, if_pos h2.2, ← h2.1, ← h2.2]
      · have h2 : ¬ (j = o % N ∧ i = o / N) := fun h3 => h ((offset_eq_iff N o i j hlt).mpr h3)
        simp only [h, if_false]
        by_cases h4 : j = o % N
        · have h5 : ¬ i = o / N := fun h6 => h2 ⟨h4, h6⟩
          simp [h4, h5]
        · simp [h4]
  simp only [hj]
  -- middle level
  have hk : ∀ i (c : Buf α), Lk.foldl (fun c k => fun o => if o % N ∈ Lj i k then
        (if i = o / N then c o + A (o / N * N + k) * B (k * N + o % N) else c o) else c o) c =
      fun o => if i = o / N then Lk.foldl (fun v k => if o % N ∈ Lj (o / N) k
          then v + A (o / N * N + k) * B (k * N + o % N) else v) (c o) else c o := by
    intro i c
    funext o
    rw [foldl_buf_apply Lk (fun k o v => if o % N ∈ Lj i k then
        (if i = o / N then v + A (o / N * N + k) * B (k * N + o % N) else v) else v) c o]
    by_cases hi : i = o / N
    · subst hi
      simp
    · simp only [hi, if_false, ite_self]
      exact (foldl_cond Lk False (fun v _ => v) (c o)).trans (by simp)
  simp only [hk]
  rw [foldl_buf_apply Li (fun i o v => if i = o / N then Lk.foldl (fun v k =>
      if o % N ∈ Lj (o / N) k then v + A (o / N * N + k) * B (k * N + o % N) else v) v else v) c o]
  rw [foldl_once Li hLi (o / N) (fun _ v => Lk.foldl (fun v k =>
      if o % N ∈ Lj (o / N) k then v + A (o / N * N + k) * B (k * N + o % N) else v) v)]

theorem mem_nest3 {α : Type} [Add α] [Mul α] (N : Nat) (Li Lk : List Nat)
    (Lj : Nat → Nat → List Nat) (m : Mem α) :
    (Li.foldl (fun m i => Lk.foldl (fun m k => (Lj i k).foldl (fun m j =>
      m.accumC (i * N + j) (i * N + k) (k * N + j)) m) m) m).pha = m.pha ∧
    (Li.foldl (fun m i => Lk.foldl (fun m k => (Lj i k).foldl (fun m j =>
      m.accumC (i * N + j) (i * N + k) (k * N + j)) m) m) m).phb = m.phb ∧
    (Li.foldl (fun m i => Lk.foldl (fun m k => (Lj i k).foldl (fun m j =>
      m.accumC (i * N + j) (i * N + k) (k * N + j)) m) m) m).phc =
      nest3 N m.pha m.phb Li Lk Lj m.phc := by
  have key := foldl_rel
    (fun (m' : Mem α) (c : Buf α) => m'.pha = m.pha ∧ m'.phb = m.phb ∧ m'.phc = c)
    (fun m i => Lk.foldl (fun m k => (Lj i k).foldl (fun m j =>
      m.accumC (i * N + j) (i * N + k) (k * N + j)) m) m)
    (fun c i => Lk.foldl (fun c k => (Lj i k).foldl (fun c j =>
      c.set (i * N + j) (c (i * N + j) + m.pha (i * N + k) * m.phb (k * N + j))) c) c)
    Li ?_ m m.phc ⟨rfl, rfl, rfl⟩
  · exact key
  · intro s t i _ hst
    refine foldl_rel
      (fun (m' : Mem α) (c : Buf α) => m'.pha = m.pha ∧ m'.phb = m.phb ∧ m'.phc = c)
      _ _ Lk ?_ s t hst
    intro s t k _ hst
    refine foldl_rel
      (fun (m' : Mem α) (c : Buf α) => m'.pha = m.pha ∧ m'.phb = m.phb ∧ m'.phc = c)
      _ _ (Lj i k) ?_ s t hst
    intro s t j _ hst
    obtain ⟨h1, h2, h3⟩ := hst
    refine ⟨h1, h2, ?_⟩
    simp only [Mem.accumC, h1, h2, h3]

theorem nest3_range {α : Type} [Add α] [Mul α] (N : Nat) (A B c : Buf α) (Li : List Nat)
    (Lj : Nat → Nat → List Nat) (hLi : Li.Perm (List.range N))
    (hLj : ∀ i k, (Lj i k).Perm (List.range N)) :
    nest3 N A B Li (List.range N) Lj c = lineResult N A B c := by
  funext o
  rw [nest3_apply N A B Li (List.range N) Lj c o (hLi.nodup_iff.mpr (List.nodup_range N))
    (fun i k => (hLj i k).nodup_iff.mpr (List.nodup_range N))
    (fun i k j hj => List.mem_range.mp ((hLj i k).mem_iff.mp hj))]
  unfold lineResult accumulate
  by_cases h : o / N < N
  · have hN : 0 < N := Nat.pos_of_ne_zero (fun h0 => by subst h0; simp at h)
    have hmod : ∀ k, o % N ∈ Lj (o / N) k :=
      fun k => (hLj _ k).mem_iff.mpr (List.mem_range.mpr (Nat.mod_lt _ hN))
    have hdiv : o / N ∈ Li := hLi.mem_iff.mpr (List.mem_range.mpr h)
    simp only [hmod, hdiv, if_true, h]
  · have hdiv : ¬ o / N ∈ Li := fun hm => h (List.mem_range.mp (hLi.mem_iff.mp hm))
    simp only [hdiv, h, if_false]

theorem OnMultLine_mult_spec {α : Type} [Add α] [Mul α] (N : Nat) (m : Mem α) :
    (OnMultLine_mult N N m).pha = m.pha ∧ (OnMultLine_mult N N m).phb = m.phb ∧
    (OnMultLine_mult N N m).phc = lineResult N m.pha m.phb m.phc := by
  have h := mem_nest3 N (List.range N) (List.range N) (fun _ _ => List.range N) m
  rw [nest3_range N _ _ _ _ _ (List.Perm.refl _) (fun _ _ => List.Perm.refl _)] at h
  simpa [OnMultLine_mult, forLoop, List.range_eq_range'] using h

theorem OnMultLineOMP1_mult_spec {α : Type} [Add α] [Mul α] (N : Nat) (sched : List Nat)
    (hs : IsSchedule N sched) (m : Mem α) :
    (OnMultLineOMP1_mult N N sched m).pha = m.pha ∧
    (OnMultLineOMP1_mult N N sched m).phb = m.phb ∧
    (OnMultLineOMP1_mult N N sched m).phc = lineResult N m.pha m.phb m.phc := by
  have h := mem_nest3 N sched (List.range N) (fun _ _ => List.range N) m
  rw [nest3_range N _ _ _ _ _ hs (fun _ _ => List.Perm.refl _)] at h
  simpa [OnMultLineOMP1_mult, forLoop, ompFor, List.range_eq_range'] using h

theorem OnMultLineOMP2_mult_spec {α : Type} [Add α] [Mul α] (N : Nat)
    (sched : Nat → Nat → List Nat) (hs : ∀ i k, IsSchedule N (sched i k)) (m : Mem α) :
    (OnMultLineOMP2_mult N N sched m).pha = m.pha ∧
    (OnMultLineOMP2_mult N N sched m).phb = m.phb ∧
    (OnMultLineOMP2_mult N N sched m).phc = lineResult N m.pha m.phb m.phc := by
  have h := mem_nest3 N (List.range N) (List.range N) sched m
  rw [nest3_range N _ _ _ _ _ (List.Perm.refl _) hs] at h
  simpa [OnMultLineOMP2_mult, forLoop, ompFor, List.range_eq_range'] using h

/-! ## Tiled loops -/

theorem forStep_eq_some {σ : Type} (step : Nat) (hstep : 0 < step) (hi : Nat)
    (body : Nat → σ → Option σ) (g : Nat → σ → σ) (hbody : ∀ b s, body b s = some (g b s))
    (fuel i : Nat) (s : σ) (hfuel : hi - i < fuel) :
    forStep fuel i hi step s body =
      some ((tiles fuel i hi step).foldl (fun s b => g b s) s) := by
  induction fuel generalizing i s with
  | zero => omega
  | succ fuel ih =>
    unfold forStep tiles
    by_cases h : i < hi
    · simp only [h, if_true, hbody, List.foldl_cons]
      exact ih (i + step) (g i s) (by omega)
    · simp [h]

theorem tiles_foldl {β : Type} (step : Nat) (hstep : 0 < step) (hi : Nat) (f : β → Nat → β)
    (fuel i : Nat) (v : β) (hfuel : hi - i ≤ fuel) :
    (tiles fuel i hi step).foldl
        (fun v b => (List.range' b (min (b + step) hi - b)).foldl f v) v =
      (List.range' i (hi - i)).foldl f v := by
  induction fuel generalizing i v with
  | zero =>
    have : hi - i = 0 := by omega
    simp [tiles, this]
  | succ fuel ih =>
    unfold tiles
    by_cases h : i < hi
    · simp only [h, if_true, List.foldl_cons]
      rw [ih (i + step) _ (by omega)]
      rw [← List.foldl_append]
      congr 1
      by_cases h2 : i + step ≤ hi
      · have e1 : min (i + step) hi - i = step := by omega
        have e2 : hi - i = hi - (i + step) + step := by omega
        rw [e1, e2, List.range'_append_1]
      · have e1 : min (i + step) hi - i = hi - i := by omega
        have e2 : hi - (i + step) = 0 := by omega
        simp [e1, e2]
    · have : hi - i = 0 := by omega
      simp [h, this]

theorem tiles_once {β : Type} (step : Nat) (hstep : 0 < step) (hi : Nat) (x : Nat)
    (g : β → β) (fuel : Nat) (v : β) (hfuel : hi ≤ fuel) :
    (tiles fuel 0 hi step).foldl
        (fun v b => if x ∈ List.range' b (min (b + step) hi - b) then g v else v) v =
      if x < hi then g v else v := by
  have h1 : (fun (v : β) b => if x ∈ List.range' b (min (b + step) hi - b) then g v else v) =
      fun v b => (List.range' b (min (b + step) hi - b)).foldl
        (fun v i => if i = x then (fun _ => g) i v else v) v := by
    funext v b
    rw [foldl_once _ (List.nodup_range' _ _)]
  rw [h1, tiles_foldl step hstep hi _ fuel 0 v (by omega), foldl_once _ (List.nodup_range' _ _)]
  simp [List.mem_range']

theorem foldl_keep {ι β : Type} (l : List ι) (v : β) : l.foldl (fun v _ => v) v = v := by
  induction l with
  | nil => rfl
  | cons a l ih => simp [ih]

theorem foldl_buf_apply_of {ι β : Type} (l : List ι) (F : (Nat → β) → ι → (Nat → β))
    (upd : ι → Nat → β → β) (hF : ∀ c i o, F c i o = upd i o (c o)) (c : Nat → β) (o : Nat) :
    (l.foldl F c) o = l.foldl (fun v i => upd i o v) (c o) := by
  have : F = fun c i => fun o => upd i o (c o) := by
    funext c i o
    exact hF c i o
  rw [this, foldl_buf_apply]

theorem nest3_tile {α : Type} [Add α] [Mul α] (N bk : Nat) (A B : Buf α) (ii kk jj : Nat)
    (c : Buf α) (o : Nat) :
    nest3 N A B (tile N bk ii) (tile N bk kk) (fun _ _ => tile N bk jj) c o =
      cellJ N bk A B ii kk jj o (c o) := by
  have hnd : ∀ b, (tile N bk b).Nodup := fun b => List.nodup_range' _ _
  rw [nest3_apply N A B _ _ _ c o (hnd ii) (fun _ _ => hnd jj)
    (fun _ _ j hj => by
      have := List.mem_range'_1.mp hj
      omega)]
  unfold cellJ
  by_cases hj : o % N ∈ tile N bk jj
  · simp only [hj, if_true]
  · simp only [hj, if_false, foldl_keep, ite_self]

theorem blockNest_eq {α : Type} [Add α] [Mul α] (N bk : Nat) (hbk : 0 < bk) (A B : Buf α)
    (fuel : Nat) (hfuel : N ≤ fuel) (c : Buf α) :
    blockNest N bk A B (tiles fuel 0 N bk) c = lineResult N A B c := by
  have hjj : ∀ ii kk (c : Buf α) o, (tiles fuel 0 N bk).foldl (fun c jj =>
      nest3 N A B (tile N bk ii) (tile N bk kk) (fun _ _ => tile N bk jj) c) c o =
      cellK N bk A B ii kk o (c o) := by
    intro ii kk c o
    rw [foldl_buf_apply_of _ _ (cellJ N bk A B ii kk)
      (fun c jj o => nest3_tile N bk A B ii kk jj c o)]
    unfold cellJ tile
    rw [tiles_once bk hbk N (o % N) _ fuel _ hfuel]
    unfold cellK tile
    rw [foldl_cond]
    by_cases h1 : o % N < N
    · by_cases h2 : o / N ∈ List.range' ii (min (ii + bk) N - ii)
      · simp [h1, h2]
      · simp [h1, h2]
    · simp [h1]
  have hkk : ∀ ii (c : Buf α) o, (tiles fuel 0 N bk).foldl (fun c kk =>
      (tiles fuel 0 N bk).foldl (fun c jj =>
        nest3 N A B (tile N bk ii) (tile N bk kk) (fun _ _ => tile N bk jj) c) c) c o =
      cellI N bk A B ii o (c o) := by
    intro ii c o
    rw [foldl_buf_apply_of _ _ (cellK N bk A B ii) (fun c kk o => hjj ii kk c o)]
    unfold cellK tile
    rw [tiles_foldl bk hbk N _ fuel 0 _ (by omega)]
    rw [foldl_cond]
    unfold cellI accumulate tile
    by_cases h1 : o % N < N
    · by_cases h2 : o / N ∈ List.range' ii (min (ii + bk) N - ii)
      · simp [h1, h2, List.range_eq_range']
      · simp [h1, h2]
    · simp [h1]
  funext o
  unfold blockNest
  rw [foldl_buf_apply_of _ _ (cellI N bk A B) (fun c ii o => hkk ii c o)]
  unfold cellI tile
  rw [tiles_once bk hbk N (o / N) _ fuel _ hfuel]
  unfold lineResult
  by_cases h : o / N < N
  · have hN : 0 < N := Nat.pos_of_ne_zero (fun h0 => by subst h0; simp at h)
    simp [h, Nat.mod_lt _ hN]
  · simp [h]

theorem OnMultBlock_mult_spec {α : Type} [Add α] [Mul α] (N bkSize : Nat) (hbk : 0 < bkSize)
    (fuel : Nat) (hfuel : N < fuel) (m : Mem α) :
    ∃ m', OnMultBlock_mult fuel N N bkSize m = some m' ∧
      m'.pha = m.pha ∧ m'.phb = m.phb ∧ m'.phc = lineResult N m.pha m.phb m.phc := by
  have hjj : ∀ ii kk (s : Mem α), forStep fuel 0 N bkSize s (fun jj m => some
      (forLoop ii (min (ii + bkSize) N) m fun i m =>
        forLoop kk (min (kk + bkSize) N) m fun k m =>
          forLoop jj (min (jj + bkSize) N) m fun j m =>
            m.accumC (i * N + j) (i * N + k) (k * N + j))) = some _ :=
    fun ii kk s => forStep_eq_some bkSize hbk N _ _ (fun _ _ => rfl) fuel 0 s (by omega)
  have hkk : ∀ ii (s : Mem α), forStep fuel 0 N bkSize s (fun kk m =>
      forStep fuel 0 N bkSize m (fun jj m => some
      (forLoop ii (min (ii + bkSize) N) m fun i m =>
        forLoop kk (min (kk + bkSize) N) m fun k m =>
          forLoop jj (min (jj + bkSize) N) m fun j m =>
            m.accumC (i * N + j) (i * N + k) (k * N + j)))) = some _ :=
    fun ii s => forStep_eq_some bkSize hbk N _ _ (fun kk s => hjj ii kk s) fuel 0 s (by omega)
  have hii := forStep_eq_some bkSize hbk N _ _ (fun ii s => hkk ii s) fuel 0 m (by omega)
  refine ⟨_, hii, ?_⟩
  rw [← blockNest_eq N bkSize hbk m.pha m.phb fuel (by omega) m.phc]
  unfold blockNest
  refine foldl_rel
    (fun (m' : Mem α) (c : Buf α) => m'.pha = m.pha ∧ m'.phb = m.phb ∧ m'.phc = c)
    _ _ _ ?_ m m.phc ⟨rfl, rfl, rfl⟩
  intro s t ii _ hst
  refine foldl_rel
    (fun (m' : Mem α) (c : Buf α) => m'.pha = m.pha ∧ m'.phb = m.phb ∧ m'.phc = c)
    _ _ _ ?_ s t hst
  intro s t kk _ hst
  refine foldl_rel
    (fun (m' : Mem α) (c : Buf α) => m'.pha = m.pha ∧ m'.phb = m.phb ∧ m'.phc = c)
    _ _ _ ?_ s t hst
  intro s t jj _ hst
  obtain ⟨h1, h2, h3⟩ := hst
  have h := mem_nest3 N (tile N bkSize ii) (tile N bkSize kk) (fun _ _ => tile N bkSize jj) s
  rw [h1, h2, h3] at h
  simpa [forLoop, tile] using h

/-! ## Two-level nests: initialisation and `OnMult` -/

theorem nest2_apply {β : Type} (N : Nat) (u : Nat → Nat → β → β) (Li : List Nat)
    (Lj : Nat → List Nat) (c : Nat → β) (o : Nat)
    (hLi : Li.Nodup) (hLj : ∀ i, (Lj i).Nodup) (hjN : ∀ i j, j ∈ Lj i → j < N) :
    nest2 N u Li Lj c o =
      if o / N ∈ Li ∧ o % N ∈ Lj (o / N) then u (o / N) (o % N) (c o) else c o := by
  have hj : ∀ i (c : Nat → β) o, (Lj i).foldl (fun c j =>
      fun o => if o = i * N + j then u i j (c (i * N + j)) else c o) c o =
      (fun i o v => if i = o / N then (if o % N ∈ Lj i then u i (o % N) v else v) else v)
        i o (c o) := by
    intro i c o
    rw [foldl_buf_apply_of (Lj i) _ (fun j o v => if o = i * N + j then u i j v else v)
      (fun c j o => by
        simp only
        split
        · next h => rw [h]
        · rfl)]
    rw [foldl_congr_mem _ (fun v j => if j = o % N then
        (fun j v => if i = o / N then u i j v else v) j v else v) (Lj i)]
    · rw [foldl_once _ (hLj i)]
      by_cases h1 : i = o / N
      · simp [h1]
      · simp [h1]
    · intro v j hjm
      have hlt := hjN i j hjm
      by_cases h : o = i * N + j
      · have h2 := (offset_eq_iff N o i j hlt).mp h
        simp only [h, if_true]
        rw [← h, if_pos h2.1, if_pos h2.2]
      · have h2 : ¬ (j = o % N ∧ i = o / N) := fun h3 => h ((offset_eq_iff N o i j hlt).mpr h3)
        simp only [h, if_false]
        by_cases h4 : j = o % N
        · have h5 : ¬ i = o / N := fun h6 => h2 ⟨h4, h6⟩
          simp [h4, h5]
        · simp [h4]
  unfold nest2
  rw [foldl_buf_apply_of Li _
    (fun i o v => if i = o / N then (if o % N ∈ Lj i then u i (o % N) v else v) else v)
    (fun c i o => hj i c o)]
  rw [foldl_once Li hLi (o / N) (fun i v => if o % N ∈ Lj i then u i (o % N) v else v)]
  by_cases h1 : o / N ∈ Li
  · simp [h1]
  · simp [h1]

theorem nest2_range {β : Type} (N : Nat) (u : Nat → Nat → β → β) (c : Nat → β) (o : Nat) :
    nest2 N u (List.range N) (fun _ => List.range N) c o =
      if o / N < N then u (o / N) (o % N) (c o) else c o := by
  rw [nest2_apply N u _ _ c o (List.nodup_range N) (fun _ => List.nodup_range N)
    (fun _ j hj => List.mem_range.mp hj)]
  by_cases h : o / N < N
  · have hN : 0 < N := Nat.pos_of_ne_zero (fun h0 => by subst h0; simp at h)
    simp [h, Nat.mod_lt _ hN]
  · simp [h]

theorem initInputs_spec {α : Type} [One α] [NatCast α] (N : Nat) (m : Mem α) :
    (initInputs N N m).pha = (fun o => if o / N < N then 1 else m.pha o) ∧
    (initInputs N N m).phb = (fun o => if o / N < N then ((o / N + 1 : Nat) : α) else m.phb o) ∧
    (initInputs N N m).phc = m.phc := by
  have hA : ∀ m : Mem α,
      (forLoop 0 N m fun i m => forLoop 0 N m fun j m => m.storeA (i * N + j) 1).pha =
        nest2 N (fun _ _ _ => 1) (List.range N) (fun _ => List.range N) m.pha ∧
      (forLoop 0 N m fun i m => forLoop 0 N m fun j m => m.storeA (i * N + j) 1).phb = m.phb ∧
      (forLoop 0 N m fun i m => forLoop 0 N m fun j m => m.storeA (i * N + j) 1).phc =
        m.phc := by
    intro m
    unfold forLoop nest2
    rw [Nat.sub_zero, ← List.range_eq_range']
    refine foldl_rel
      (fun (m' : Mem α) (c : Buf α) => m'.pha = c ∧ m'.phb = m.phb ∧ m'.phc = m.phc)
      _ _ _ ?_ m m.pha ⟨rfl, rfl, rfl⟩
    intro s t i _ hst
    refine foldl_rel
      (fun (m' : Mem α) (c : Buf α) => m'.pha = c ∧ m'.phb = m.phb ∧ m'.phc = m.phc)
      _ _ _ ?_ s t hst
    intro s t j _ hst
    obtain ⟨h1, h2, h3⟩ := hst
    refine ⟨?_, h2, h3⟩
    simp only [Mem.storeA, h1]
    rfl
  have hB : ∀ m : Mem α,
      (forLoop 0 N m fun i m => forLoop 0 N m fun j m =>
        m.storeB (i * N + j) ((i + 1 : Nat) : α)).pha = m.pha ∧
      (forLoop 0 N m fun i m => forLoop 0 N m fun j m =>
        m.storeB (i * N + j) ((i + 1 : Nat) : α)).phb =
        nest2 N (fun i _ _ => ((i + 1 : Nat) : α)) (List.range N) (fun _ => List.range N)
          m.phb ∧
      (forLoop 0 N m fun i m => forLoop 0 N m fun j m =>
        m.storeB (i * N + j) ((i + 1 : Nat) : α)).phc = m.phc := by
    intro m
    unfold forLoop nest2
    rw [Nat.sub_zero, ← List.range_eq_range']
    refine foldl_rel
      (fun (m' : Mem α) (c : Buf α) => m'.pha = m.pha ∧ m'.phb = c ∧ m'.phc = m.phc)
      _ _ _ ?_ m m.phb ⟨rfl, rfl, rfl⟩
    intro s t i _ hst
    refine foldl_rel
      (fun (m' : Mem α) (c : Buf α) => m'.pha = m.pha ∧ m'.phb = c ∧ m'.phc = m.phc)
      _ _ _ ?_ s t hst
    intro s t j _ hst
    obtain ⟨h1, h2, h3⟩ := hst
    refine ⟨h1, ?_, h3⟩
    simp only [Mem.storeB, h2]
    rfl
  unfold initInputs
  obtain ⟨a1, a2, a3⟩ := hA m
  obtain ⟨b1, b2, b3⟩ := hB (forLoop 0 N m fun i m => forLoop 0 N m fun j m =>
    m.storeA (i * N + j) 1)
  refine ⟨?_, ?_, ?_⟩
  · rw [b1, a1]
    funext o
    rw [nest2_range]
  · rw [b2, a2]
    funext o
    rw [nest2_range]
  · rw [b3, a3]

theorem OnMult_inner {α : Type} [Zero α] [Add α] [Mul α] (N i j : Nat) (m : Mem α) :
    ((List.range N).foldl (fun s k => accumTemp s (i * N + k) (k * N + j)) ((0 : α), m)).1 =
      accumulate N m.pha m.phb i j 0 ∧
    ((List.range N).foldl (fun s k => accumTemp s (i * N + k) (k * N + j)) ((0 : α), m)).2.pha =
      m.pha ∧
    ((List.range N).foldl (fun s k => accumTemp s (i * N + k) (k * N + j)) ((0 : α), m)).2.phb =
      m.phb ∧
    ((List.range N).foldl (fun s k => accumTemp s (i * N + k) (k * N + j)) ((0 : α), m)).2.phc =
      m.phc ∧
    ∀ b o, ((List.range N).foldl (fun s k => accumTemp s (i * N + k) (k * N + j))
      ((0 : α), m)).2.log.count (Access.store b o) = m.log.count (Access.store b o) := by
  unfold accumulate
  refine foldl_rel
    (fun (s : α × Mem α) (t : α) => s.1 = t ∧ s.2.pha = m.pha ∧ s.2.phb = m.phb ∧
      s.2.phc = m.phc ∧ ∀ b o, s.2.log.count (Access.store b o) = m.log.count (Access.store b o))
    _ _ _ ?_ ((0 : α), m) 0 ⟨rfl, rfl, rfl, rfl, fun _ _ => rfl⟩
  intro s t k _ hst
  obtain ⟨h1, h2, h3, h4, h5⟩ := hst
  refine ⟨?_, h2, h3, h4, ?_⟩
  · simp only [accumTemp, h1, h2, h3]
  · intro b o
    simp [accumTemp, List.count_append, h5]

theorem OnMult_mult_spec {α : Type} [Zero α] [Add α] [Mul α] (N : Nat) (m : Mem α) :
    (OnMult_mult N N m).pha = m.pha ∧ (OnMult_mult N N m).phb = m.phb ∧
    (OnMult_mult N N m).phc =
      (fun o => if o / N < N then accumulate N m.pha m.phb (o / N) (o % N) 0 else m.phc o) ∧
    ∀ o, (OnMult_mult N N m).log.count (Access.store Buffer.phc o) =
      m.log.count (Access.store Buffer.phc o) + if o / N < N then 1 else 0 := by
  have key : (OnMult_mult N N m).pha = m.pha ∧ (OnMult_mult N N m).phb = m.phb ∧
      ∀ o, (OnMult_mult N N m).phc o =
        (nest2 N (fun i j (p : α × Nat) => (accumulate N m.pha m.phb i j 0, p.2 + 1))
          (List.range N) (fun _ => List.range N)
          (fun o => (m.phc o, m.log.count (Access.store Buffer.phc o))) o).1 ∧
      (OnMult_mult N N m).log.count (Access.store Buffer.phc o) =
        (nest2 N (fun i j (p : α × Nat) => (accumulate N m.pha m.phb i j 0, p.2 + 1))
          (List.range N) (fun _ => List.range N)
          (fun o => (m.phc o, m.log.count (Access.store Buffer.phc o))) o).2 := by
    unfold OnMult_mult forLoop nest2
    rw [Nat.sub_zero, ← List.range_eq_range']
    refine foldl_rel
      (fun (m' : Mem α) (c : Nat → α × Nat) => m'.pha = m.pha ∧ m'.phb = m.phb ∧
        ∀ o, m'.phc o = (c o).1 ∧ m'.log.count (Access.store Buffer.phc o) = (c o).2)
      _ _ _ ?_ m _ ⟨rfl, rfl, fun _ => ⟨rfl, rfl⟩⟩
    intro s t i _ hst
    refine foldl_rel
      (fun (m' : Mem α) (c : Nat → α × Nat) => m'.pha = m.pha ∧ m'.phb = m.phb ∧
        ∀ o, m'.phc o = (c o).1 ∧ m'.log.count (Access.store Buffer.phc o) = (c o).2)
      _ _ _ ?_ s t hst
    intro s t j _ hst
    obtain ⟨h1, h2, h3⟩ := hst
    obtain ⟨k1, k2, k3, k4, k5⟩ := OnMult_inner N i j s
    dsimp only
    simp only [Mem.storeC, k1, k2, k3, k4, h1, h2]
    refine ⟨trivial, trivial, ?_⟩
    intro o
    by_cases ho : o = i * N + j
    · subst ho
      simp [Buf.set, List.count_append, k5, (h3 _).2]
    · have hne : ¬ (i * N + j = o) := fun h => ho h.symm
      simp [Buf.set, ho, hne, List.count_append, k5, h3 o]
  obtain ⟨e1, e2, e3⟩ := key
  refine ⟨e1, e2, ?_, ?_⟩
  · funext o
    rw [(e3 o).1, nest2_range]
    by_cases h : o / N < N
    · simp [h]
    · simp [h]
  · intro o
    rw [(e3 o).2, nest2_range]
    by_cases h : o / N < N
    · simp [h]
    · simp [h]

/-! ## The report -/

theorem preview_spec {α : Type} (m_br : Nat) (m : Mem α) (out : List (Out α)) :
    (preview m_br (m, out)).1.pha = m.pha ∧ (preview m_br (m, out)).1.phb = m.phb ∧
    (preview m_br (m, out)).1.phc = m.phc ∧
    (preview m_br (m, out)).2 = out ++
      (List.range (min 10 m_br)).flatMap (fun j => [Out.val (m.phc j), Out.text " "]) := by
  have hone : List.range' 0 1 = [0] := rfl
  unfold preview forLoop
  simp only [Nat.sub_zero, hone, List.foldl_cons, List.foldl_nil, ← List.range_eq_range']
  generalize min 10 m_br = n
  induction n with
  | zero => simp
  | succ n ih =>
    rw [List.range_succ, List.foldl_append, List.flatMap_append]
    obtain ⟨h1, h2, h3, h4⟩ := ih
    simp only [List.foldl_cons, List.foldl_nil, h1, h2, h3, h4]
    simp

theorem report_spec {α : Type} (m_br : Nat) (m : Mem α) (out : List (Out α)) :
    (report m_br m out).mem.pha = m.pha ∧ (report m_br m out).mem.phb = m.phb ∧
    (report m_br m out).mem.phc = m.phc ∧
    (report m_br m out).out = out ++ Out.text "Result matrix: " :: Out.endl ::
      ((List.range (min 10 m_br)).flatMap (fun j => [Out.val (m.phc j), Out.text " "]) ++
        [Out.endl]) := by
  obtain ⟨h1, h2, h3, h4⟩ := preview_spec m_br m (out ++ [Out.text "Result matrix: ", Out.endl])
  unfold report
  simp only [h1, h2, h3, h4]
  simp

/-! ## Sums -/

theorem offset_div (N i j : Nat) (hj : j < N) : (i * N + j) / N = i :=
  ((offset_eq_iff N (i * N + j) i j hj).mp rfl).2.symm

theorem offset_mod (N i j : Nat) (hj : j < N) : (i * N + j) % N = j :=
  ((offset_eq_iff N (i * N + j) i j hj).mp rfl).1.symm

theorem foldl_add_eq_sum {α : Type} [AddCommMonoid α] (f : Nat → α) (N : Nat) (v : α) :
    (List.range N).foldl (fun v k => v + f k) v = v + ∑ k in Finset.range N, f k := by
  induction N with
  | zero => simp
  | succ n ih =>
    rw [List.range_succ, List.foldl_append, ih, Finset.sum_range_succ]
    simp [add_assoc]

theorem accumulate_eq_sum {α : Type} [Semiring α] (N : Nat) (A B : Buf α) (i j : Nat) (v : α) :
    accumulate N A B i j v = v + ∑ k in Finset.range N, A (i * N + k) * B (k * N + j) :=
  foldl_add_eq_sum _ N v

theorem sum_succ_mul_two (N : Nat) : (∑ k in Finset.range N, (k + 1)) * 2 = N * (N + 1) := by
  induction N with
  | zero => simp
  | succ n ih =>
    rw [Finset.sum_range_succ, Nat.add_mul, ih]
    ring

theorem sum_succ (N : Nat) : ∑ k in Finset.range N, (k + 1) = N * (N + 1) / 2 := by
  have h := sum_succ_mul_two N
  omega

theorem printedValues_items {α : Type} (f : Nat → α) (n : Nat) :
    printedValues ((List.range n).flatMap (fun j => [Out.val (f j), Out.text " "])) =
      (List.range n).map f := by
  induction n with
  | zero => rfl
  | succ n ih =>
    rw [List.range_succ, List.flatMap_append, List.map_append]
    unfold printedValues at ih ⊢
    rw [List.filterMap_append, ih]
    simp

theorem report_shows {α : Type} (N : Nat) (m : Mem α) (pre : List (Out α))
    (hpre : printedValues pre = []) :
    ShowsFirstRow N (report N m pre) pre ∧
    printedValues (report N m pre).out =
      (List.range (min 10 N)).map (fun j => (report N m pre).mem.phc (0 * N + j)) := by
  obtain ⟨_, _, h3, h4⟩ := report_spec N m pre
  have hitems := printedValues_items (fun j => m.phc j) (min 10 N)
  refine ⟨⟨hpre, ?_⟩, ?_⟩
  · rw [h4, h3]
    simp only [Nat.zero_mul, Nat.zero_add]
  · rw [h4, h3]
    unfold printedValues at hpre hitems ⊢
    rw [List.filterMap_append, hpre, List.filterMap_cons, List.filterMap_cons,
      List.filterMap_append, hitems]
    simp

/-! ## The throughput of `OnMultLine` -/

theorem OnMultLine_prints_gflops {α : Type} [Zero α] [One α] [NatCast α] [Add α] [Mul α]
    (CLOCKS_PER_SEC : Int) (m_ar m_br : Nat) (a0 b0 : Buf α) (Time1 Time2 : Int) :
    Out.num (OnMultLine_gflops m_ar m_br (clockSeconds CLOCKS_PER_SEC Time1 Time2)) ∈
      (OnMultLine CLOCKS_PER_SEC m_ar m_br a0 b0 Time1 Time2).out := by
  unfold OnMultLine
  rw [(report_spec _ _ _).2.2.2]
  simp

/-- C7, as stated, fails when the two `clock()` results are equal (elapsed time 0, the
usual case for `N = 3`): `OnMultLine` then prints an infinite throughput. -/
theorem C7_zero_elapsed :
    (5 : Int) ≤ 5 ∧
    OnMultLine_gflops 3 3 (clockSeconds 1000000 5 5) = Dbl.pinf ∧
    Out.num Dbl.pinf ∈ (OnMultLine (α := ℤ) 1000000 3 3 (fun _ => 0) (fun _ => 0) 5 5).out ∧
    ¬ (Dbl.isFinite (OnMultLine_gflops 3 3 (clockSeconds 1000000 5 5)) = true ∧
      Dbl.isPositive (OnMultLine_gflops 3 3 (clockSeconds 1000000 5 5)) = true) := by
  have h : OnMultLine_gflops 3 3 (clockSeconds 1000000 5 5) = Dbl.pinf := by
    simp [OnMultLine_gflops, clockSeconds, Dbl.div, Dbl.mul]
  refine ⟨le_refl _, h, ?_, ?_⟩
  · rw [← h]
    exact OnMultLine_prints_gflops 1000000 3 3 _ _ 5 5
  · rw [h]
    simp [Dbl.isFinite]

/-- C7, amended. For `N = 3`, a positive `CLOCKS_PER_SEC` and `Time2 > Time1` (a positive
elapsed time) the throughput `OnMultLine` prints is
`2 * N * N * N / (elapsed_seconds * 1e9)`, a finite value greater than 0. -/
theorem C7_gflops {α : Type} [Zero α] [One α] [NatCast α] [Add α] [Mul α]
    (CLOCKS_PER_SEC Time1 Time2 : Int) (hcps : 0 < CLOCKS_PER_SEC) (ht : Time1 < Time2)
    (a0 b0 : Buf α) :
    OnMultLine_gflops 3 3 (clockSeconds CLOCKS_PER_SEC Time1 Time2) =
      Dbl.fin (2 * 3 * 3 * 3 /
        (((Time2 - Time1 : Int) : ℚ) / (CLOCKS_PER_SEC : ℚ) * 1000000000)) ∧
    Dbl.isFinite (OnMultLine_gflops 3 3 (clockSeconds CLOCKS_PER_SEC Time1 Time2)) = true ∧
    Dbl.isPositive (OnMultLine_gflops 3 3 (clockSeconds CLOCKS_PER_SEC Time1 Time2)) = true ∧
    Out.num (OnMultLine_gflops 3 3 (clockSeconds CLOCKS_PER_SEC Time1 Time2)) ∈
      (OnMultLine CLOCKS_PER_SEC 3 3 a0 b0 Time1 Time2).out := by
  have h1 : (0 : ℚ) < (CLOCKS_PER_SEC : ℚ) := by exact_mod_cast hcps
  have h2 : (0 : ℚ) < ((Time2 - Time1 : Int) : ℚ) := by
    have : 0 < Time2 - Time1 := by omega
    exact_mod_cast this
  have h3 : (0 : ℚ) < ((Time2 - Time1 : Int) : ℚ) / (CLOCKS_PER_SEC : ℚ) * 1000000000 := by
    positivity
  have h : OnMultLine_gflops 3 3 (clockSeconds CLOCKS_PER_SEC Time1 Time2) =
      Dbl.fin (2 * 3 * 3 * 3 /
        (((Time2 - Time1 : Int) : ℚ) / (CLOCKS_PER_SEC : ℚ) * 1000000000)) := by
    unfold OnMultLine_gflops clockSeconds
    simp only [Dbl.div, Dbl.mul, ne_of_gt h1, ne_of_gt h3, if_false]
    norm_num
  refine ⟨h, ?_, ?_, OnMultLine_prints_gflops CLOCKS_PER_SEC 3 3 a0 b0 Time1 Time2⟩
  · rw [h]
    rfl
  · rw [h]
    simp only [Dbl.isPositive, decide_eq_true_eq]
    positivity

/-- C7 amended, for one clock tick at 1000000 ticks per second: 0.054 GFLOPS. -/
theorem C7_gflops_witness :
    ((0 : Int) < 1000000 ∧ (5 : Int) < 6) ∧
    OnMultLine_gflops 3 3 (clockSeconds 1000000 5 6) =
      Dbl.fin (2 * 3 * 3 * 3 / (((6 - 5 : Int) : ℚ) / ((1000000 : Int) : ℚ) * 1000000000)) ∧
    (2 * 3 * 3 * 3 / (((6 - 5 : Int) : ℚ) / ((1000000 : Int) : ℚ) * 1000000000) : ℚ) =
      27 / 500 :=
  ⟨⟨by decide, by decide⟩,
    (C7_gflops (α := ℤ) 1000000 5 6 (by decide) (by decide) (fun _ => 0) (fun _ => 0)).1,
    by norm_num⟩

/-! ## The driver -/

/-- C8 fails on the code. With a library whose `PAPI_library_init` returns the error code -1
(and the compiled-against version is 117440512), `main` prints "FAIL" and goes on: it creates
the event set, adds the two events, shows the menu, and on the input `1 3 0` runs
`OnMult(3, 3)`; it ends with exit status 0. -/
theorem C8_init_failure_goes_on :
    main (smallPapi 117440512 (-1) 0 (fun _ => (10, 3))) 2 ⟨false, (0, 0)⟩ [1, 3, 0]
        7 7 7 7 (7, 7) =
      some (0,
        [Ev.papi PapiFn.library_init (-1), Ev.out "FAIL", Ev.out "\n",
          Ev.papi PapiFn.create_eventset 0,
          Ev.papi (PapiFn.add_event Preset.PAPI_L1_DCM) 0,
          Ev.papi (PapiFn.add_event Preset.PAPI_L2_DCM) 0] ++ menu ++
        [Ev.read 1, Ev.out "Dimensions: lins=cols ? ", Ev.read 3, Ev.papi PapiFn.start 0,
          Ev.kernel (Call.OnMult 3 3), Ev.papi PapiFn.stop 0, Ev.l1dcm 10, Ev.l2dcm 3,
          Ev.papi PapiFn.reset 0] ++ menu ++
        [Ev.read 0, Ev.papi (PapiFn.remove_event Preset.PAPI_L1_DCM) 0,
          Ev.papi (PapiFn.remove_event Preset.PAPI_L2_DCM) 0,
          Ev.papi PapiFn.destroy_eventset 0]) := by
  rfl

theorem call_trace {σ : Type} (d : Driver σ) (f : PapiFn) (r : Int × σ) (expected : Int)
    (msg : String) :
    (d.call f r expected msg).trace = d.trace ++ Ev.papi f r.1 ::
      (if r.1 ≠ expected then [Ev.out msg, Ev.out "\n"] else []) := by
  unfold Driver.call Driver.emit
  by_cases h : r.1 = expected
  · simp [h]
  · simp [h]

theorem call_fields {σ : Type} (d : Driver σ) (f : PapiFn) (r : Int × σ) (expected : Int)
    (msg : String) :
    (d.call f r expected msg).papi = r.2 ∧ (d.call f r expected msg).stdin = d.stdin ∧
    (d.call f r expected msg).op = d.op ∧ (d.call f r expected msg).lin = d.lin ∧
    (d.call f r expected msg).col = d.col ∧
    (d.call f r expected msg).blockSize = d.blockSize ∧
    (d.call f r expected msg).values = d.values := by
  unfold Driver.call Driver.emit
  by_cases h : r.1 = expected
  · simp [h]
  · simp [h]

theorem kernelCalls_append (t u : List Ev) :
    kernelCalls (t ++ u) = kernelCalls t ++ kernelCalls u := by
  unfold kernelCalls
  rw [List.filterMap_append]

theorem call_stuck {σ : Type} (d : Driver σ) (f : PapiFn) (r : Int × σ) (expected : Int)
    (msg : String) : (d.call f r expected msg).stuck = d.stuck := by
  unfold Driver.call Driver.emit
  by_cases h : r.1 = expected
  · simp [h]
  · simp [h]

theorem main_collect_of_stuck {σ : Type} (P : Papi σ) (d : Driver σ) (h : d.stuck = true) :
    main_collect P d = d := by
  unfold main_collect
  simp only [h, if_true]

theorem main_collect_stuck {σ : Type} (P : Papi σ) (d : Driver σ) :
    (main_collect P d).stuck = d.stuck := by
  by_cases h : d.stuck = true
  · rw [main_collect_of_stuck P d h]
  · have hf : d.stuck = false := by simpa using h
    unfold main_collect
    simp only [hf, Bool.false_eq_true, if_false, call_stuck, Driver.emit]

theorem main_collect_trace {σ : Type} (P : Papi σ) (d : Driver σ) (hs : d.stuck = false) :
    (main_collect P d).trace = d.trace ++
      (Ev.papi PapiFn.stop (P.PAPI_stop d.papi d.values).1 ::
        (if (P.PAPI_stop d.papi d.values).1 ≠ PAPI_OK
          then [Ev.out "ERROR: Stop PAPI", Ev.out "\n"] else [])) ++
      [Ev.l1dcm (P.PAPI_stop d.papi d.values).2.1.1,
        Ev.l2dcm (P.PAPI_stop d.papi d.values).2.1.2] ++
      (Ev.papi PapiFn.reset (P.PAPI_reset (P.PAPI_stop d.papi d.values).2.2).1 ::
        (if (P.PAPI_reset (P.PAPI_stop d.papi d.values).2.2).1 ≠ PAPI_OK
          then [Ev.out "FAIL reset", Ev.out "\n"] else [])) := by
  unfold main_collect
  simp only [hs, Bool.false_eq_true, if_false, call_trace, (call_fields _ _ _ _ _).1,
    (call_fields _ _ _ _ _).2.2.2.2.2.2, Driver.emit, List.append_assoc]

theorem main_collect_fields {σ : Type} (P : Papi σ) (d : Driver σ) (hs : d.stuck = false) :
    (main_collect P d).papi = (P.PAPI_reset (P.PAPI_stop d.papi d.values).2.2).2 ∧
    (main_collect P d).values = (P.PAPI_stop d.papi d.values).2.1 ∧
    (main_collect P d).op = d.op := by
  unfold main_collect
  simp only [hs, Bool.false_eq_true, if_false, (call_fields _ _ _ _ _).1,
    (call_fields _ _ _ _ _).2.2.1, (call_fields _ _ _ _ _).2.2.2.2.2.2, Driver.emit, and_self]

theorem kernelCalls_collect {σ : Type} (P : Papi σ) (d : Driver σ) :
    kernelCalls (main_collect P d).trace = kernelCalls d.trace := by
  by_cases hs : d.stuck = true
  · rw [main_collect_of_stuck P d hs]
  · rw [main_collect_trace P d (by simpa using hs)]
    simp only [kernelCalls_append]
    by_cases h1 : (P.PAPI_stop d.papi d.values).1 = PAPI_OK <;>
      by_cases h2 : (P.PAPI_reset (P.PAPI_stop d.papi d.values).2.2).1 = PAPI_OK <;>
      simp [h1, h2, kernelCalls]

/-- C9. In a turn of the menu loop with a selection in 1..5, whatever `PAPI_start` returns,
the events from the prompt for the dimension to the kernel are: the prompt, the dimension `N`
read, the call of `PAPI_start`, the two items of the line "ERROR: Start PAPI" if and only if
its return code is not `PAPI_OK`, for selection 3 the prompt and the read of the block size,
and the invocation of the selected kernel with (`N`, `N`); this is the only kernel invocation
of the turn, and neither the kernel nor its arguments depend on the return code. -/
theorem C9_start_failure_is_reported_only {σ : Type} (P : Papi σ) (d : Driver σ)
    (hsel : 1 ≤ d.op ∧ d.op ≤ 5) :
    (main_run P d).trace = d.trace ++
      [Ev.out "Dimensions: lins=cols ? ", Ev.read (d.stdin.extract d.lin).1,
        Ev.papi PapiFn.start (P.PAPI_start d.papi).1] ++
      (if (P.PAPI_start d.papi).1 ≠ PAPI_OK
        then [Ev.out "ERROR: Start PAPI", Ev.out "\n"] else []) ++
      (if d.op = 3 then [Ev.out "Block Size? ",
        Ev.read ((d.stdin.extract d.lin).2.extract d.blockSize).1] else []) ++
      [Ev.kernel
        (if d.op = 1 then Call.OnMult (d.stdin.extract d.lin).1 (d.stdin.extract d.lin).1
        else if d.op = 2 then
          Call.OnMultLine (d.stdin.extract d.lin).1 (d.stdin.extract d.lin).1
        else if d.op = 3 then
          Call.OnMultBlock (d.stdin.extract d.lin).1 (d.stdin.extract d.lin).1
            ((d.stdin.extract d.lin).2.extract d.blockSize).1
        else if d.op = 4 then
          Call.OnMultLineOMP1 (d.stdin.extract d.lin).1 (d.stdin.extract d.lin).1
        else Call.OnMultLineOMP2 (d.stdin.extract d.lin).1 (d.stdin.extract d.lin).1)] ∧
    kernelCalls (main_iteration P d).trace = kernelCalls d.trace ++
      [if d.op = 1 then Call.OnMult (d.stdin.extract d.lin).1 (d.stdin.extract d.lin).1
        else if d.op = 2 then
          Call.OnMultLine (d.stdin.extract d.lin).1 (d.stdin.extract d.lin).1
        else if d.op = 3 then
          Call.OnMultBlock (d.stdin.extract d.lin).1 (d.stdin.extract d.lin).1
            ((d.stdin.extract d.lin).2.extract d.blockSize).1
        else if d.op = 4 then
          Call.OnMultLineOMP1 (d.stdin.extract d.lin).1 (d.stdin.extract d.lin).1
        else Call.OnMultLineOMP2 (d.stdin.extract d.lin).1 (d.stdin.extract d.lin).1] := by
  have htrace : (main_run P d).trace = d.trace ++
      [Ev.out "Dimensions: lins=cols ? ", Ev.read (d.stdin.extract d.lin).1,
        Ev.papi PapiFn.start (P.PAPI_start d.papi).1] ++
      (if (P.PAPI_start d.papi).1 ≠ PAPI_OK
        then [Ev.out "ERROR: Start PAPI", Ev.out "\n"] else []) ++
      (if d.op = 3 then [Ev.out "Block Size? ",
        Ev.read ((d.stdin.extract d.lin).2.extract d.blockSize).1] else []) ++
      [Ev.kernel
        (if d.op = 1 then Call.OnMult (d.stdin.extract d.lin).1 (d.stdin.extract d.lin).1
        else if d.op = 2 then
          Call.OnMultLine (d.stdin.extract d.lin).1 (d.stdin.extract d.lin).1
        else if d.op = 3 then
          Call.OnMultBlock (d.stdin.extract d.lin).1 (d.stdin.extract d.lin).1
            ((d.stdin.extract d.lin).2.extract d.blockSize).1
        else if d.op = 4 then
          Call.OnMultLineOMP1 (d.stdin.extract d.lin).1 (d.stdin.extract d.lin).1
        else Call.OnMultLineOMP2 (d.stdin.extract d.lin).1 (d.stdin.extract d.lin).1)] := by
    have hop : d.op = 1 ∨ d.op = 2 ∨ d.op = 3 ∨ d.op = 4 ∨ d.op = 5 := by omega
    unfold main_run main_switch
    simp only [(call_fields _ _ _ _ _).2.2.1, (call_fields _ _ _ _ _).2.2.2.1,
      (call_fields _ _ _ _ _).2.2.2.2.1, (call_fields _ _ _ _ _).2.1,
      (call_fields _ _ _ _ _).2.2.2.2.2.1, Driver.emit, Driver.invoke, call_trace]
    rcases hop with h | h | h | h | h <;> simp [h]
  refine ⟨htrace, ?_⟩
  unfold main_iteration
  rw [kernelCalls_collect, htrace]
  simp only [kernelCalls_append]
  by_cases h1 : (P.PAPI_start d.papi).1 = PAPI_OK <;> by_cases h3 : d.op = 3 <;>
    simp [h1, h3, kernelCalls]

theorem main_turn_nonzero {σ : Type} (P : Papi σ) (d : Driver σ) (hop : (main_menu d).op ≠ 0) :
    main_turn P d = (main_collect P (main_run P (main_menu d)),
      decide ((main_collect P (main_run P (main_menu d))).op ≠ 0)) := by
  unfold main_turn main_iteration
  simp only [hop, if_false]

theorem main_turn_zero {σ : Type} (P : Papi σ) (d : Driver σ) (hop : (main_menu d).op = 0) :
    main_turn P d = (main_menu d, false) := by
  unfold main_turn
  simp only [hop, if_true]

theorem measurement_append (t u : List Ev) :
    measurement (t ++ u) = measurement t ++ measurement u := by
  unfold measurement
  rw [List.filter_append]

theorem main_menu_measurement {σ : Type} (d : Driver σ) :
    measurement (main_menu d).trace = measurement d.trace := by
  unfold main_menu Driver.emit
  simp [measurement_append, measurement, menu]

theorem main_run_measurement {σ : Type} (P : Papi σ) (d : Driver σ) :
    measurement (main_run P d).trace =
      measurement d.trace ++ [Ev.papi PapiFn.start (P.PAPI_start d.papi).1] := by
  unfold main_run main_switch
  simp only [(call_fields _ _ _ _ _).2.2.1, Driver.emit, Driver.invoke]
  by_cases h0 : (P.PAPI_start d.papi).1 = PAPI_OK <;>
    by_cases h1 : d.op = 1 <;> by_cases h2 : d.op = 2 <;> by_cases h3 : d.op = 3 <;>
    by_cases h4 : d.op = 4 <;> by_cases h5 : d.op = 5 <;>
    simp [h0, h1, h2, h3, h4, h5, call_trace, measurement_append, measurement]

/-- C9 with selection 3, the input `4 2` and a `PAPI_start` that returns -1: the error line
is printed and `OnMultBlock(4, 4, 2)` is invoked, once. -/
theorem C9_start_failure_is_reported_only_witness :
    ((1 : Int) ≤ 3 ∧ (3 : Int) ≤ 5) ∧
    (main_run (smallPapi 117440512 117440512 (-1) exampleCost) (driverAt 3 [4, 2])).trace =
      [Ev.out "Dimensions: lins=cols ? ", Ev.read 4, Ev.papi PapiFn.start (-1),
        Ev.out "ERROR: Start PAPI", Ev.out "\n", Ev.out "Block Size? ", Ev.read 2,
        Ev.kernel (Call.OnMultBlock 4 4 2)] ∧
    kernelCalls
        (main_iteration (smallPapi 117440512 117440512 (-1) exampleCost)
          (driverAt 3 [4, 2])).trace =
      [Call.OnMultBlock 4 4 2] :=
  ⟨⟨by decide, by decide⟩,
    C9_start_failure_is_reported_only (smallPapi 117440512 117440512 (-1) exampleCost)
      (driverAt 3 [4, 2]) ⟨by decide, by decide⟩⟩

/-! ## Brackets -/

theorem marks_append (t u : List Ev) : marks (t ++ u) = marks t ++ marks u := by
  unfold marks
  rw [List.filterMap_append]

theorem bracketed_append (a b : List Mark) (ha : bracketed a = true) :
    bracketed (a ++ b) = bracketed b := by
  induction a using bracketed.induct with
  | case1 => rfl
  | case2 rest ih =>
    simp only [bracketed] at ha
    simpa [bracketed] using ih ha
  | case3 rest ih =>
    simp only [bracketed] at ha
    simpa [bracketed] using ih ha
  | case4 l h1 h2 h3 =>
    exfalso
    unfold bracketed at ha
    split at ha
    · exact h1 rfl
    · exact h2 _ rfl
    · exact h3 _ rfl
    · simp at ha

theorem marks_call {σ : Type} (d : Driver σ) (f : PapiFn) (r : Int × σ) (expected : Int)
    (msg : String) :
    marks (d.call f r expected msg).trace = marks d.trace ++ marks [Ev.papi f r.1] := by
  rw [call_trace]
  by_cases h : r.1 = expected
  · simp [h, marks_append]
  · have e : Ev.papi f r.1 :: [Ev.out msg, Ev.out "\n"] =
        [Ev.papi f r.1] ++ [Ev.out msg, Ev.out "\n"] := rfl
    have e2 : marks [Ev.out msg, Ev.out "\n"] = [] := rfl
    simp only [h, ne_eq, not_false_eq_true, if_true, e, marks_append, e2, List.append_nil]

theorem marks_menu {σ : Type} (d : Driver σ) : marks (main_menu d).trace = marks d.trace := by
  unfold main_menu Driver.emit
  simp [marks_append, marks, menu]

theorem marks_run {σ : Type} (P : Papi σ) (d : Driver σ) :
    marks (main_run P d).trace = marks d.trace ++ Mark.start ::
      (if 1 ≤ d.op ∧ d.op ≤ 5 then [Mark.kernel] else []) := by
  have hs : ∀ r : Int, marks [Ev.papi PapiFn.start r] = [Mark.start] := fun _ => rfl
  have hk : ∀ c : Call, marks [Ev.kernel c] = [Mark.kernel] := fun _ => rfl
  have hd : ∀ x : Int, marks [Ev.out "Dimensions: lins=cols ? ", Ev.read x] = [] :=
    fun _ => rfl
  have hb : marks [Ev.out "Block Size? "] = [] := rfl
  have hr : ∀ x : Int, marks [Ev.read x] = [] := fun _ => rfl
  have hbk : ∀ (x : Int) (c : Call),
      marks [Ev.out "Block Size? ", Ev.read x, Ev.kernel c] = [Mark.kernel] := fun _ _ => rfl
  unfold main_run main_switch
  simp only [(call_fields _ _ _ _ _).2.2.1, Driver.emit, Driver.invoke]
  by_cases h1 : d.op = 1
  · simp [h1, marks_append, marks_call, hs, hk, hd]
  by_cases h2 : d.op = 2
  · simp [h2, marks_append, marks_call, hs, hk, hd]
  by_cases h3 : d.op = 3
  · simp [h3, marks_append, marks_call, hs, hk, hd, hb, hr, hbk]
  by_cases h4 : d.op = 4
  · simp [h4, marks_append, marks_call, hs, hk, hd]
  by_cases h5 : d.op = 5
  · simp [h5, marks_append, marks_call, hs, hk, hd]
  have h : ¬ (1 ≤ d.op ∧ d.op ≤ 5) := by omega
  simp [h1, h2, h3, h4, h5, h, marks_append, marks_call, hs, hd]

theorem marks_setup {σ : Type} (P : Papi σ) (d : Driver σ) :
    marks (main_setup P d).trace = marks d.trace := by
  have h1 : ∀ r : Int, marks [Ev.papi PapiFn.library_init r] = [] := fun _ => rfl
  have h2 : ∀ r : Int, marks [Ev.papi PapiFn.create_eventset r] = [] := fun _ => rfl
  have h3 : ∀ (e : Preset) (r : Int), marks [Ev.papi (PapiFn.add_event e) r] = [] :=
    fun _ _ => rfl
  unfold main_setup
  simp [marks_call, h1, h2, h3]

theorem marks_teardown {σ : Type} (P : Papi σ) (d : Driver σ) :
    marks (main_teardown P d).trace = marks d.trace := by
  have h1 : ∀ (e : Preset) (r : Int), marks [Ev.papi (PapiFn.remove_event e) r] = [] :=
    fun _ _ => rfl
  have h2 : ∀ r : Int, marks [Ev.papi PapiFn.destroy_eventset r] = [] := fun _ => rfl
  unfold main_teardown
  simp [marks_call, h1, h2]

/-- C12 fails on the code for the selection 3. On the input `3 4 2` the turn prompts
"Block Size? " and reads the block size after `PAPI_start` and before the kernel and
`PAPI_stop`, while the prompt and the read of the dimension come before `PAPI_start`. -/
theorem C12_block_size_read_inside :
    (main_iteration (smallPapi 117440512 117440512 0 exampleCost) (driverAt 3 [4, 2])).trace =
      [Ev.out "Dimensions: lins=cols ? ", Ev.read 4, Ev.papi PapiFn.start 0,
        Ev.out "Block Size? ", Ev.read 2, Ev.kernel (Call.OnMultBlock 4 4 2),
        Ev.papi PapiFn.stop 0, Ev.l1dcm 10, Ev.l2dcm 3, Ev.papi PapiFn.reset 0] := by
  rfl

/-- C13. The part of `main` after the menu loop calls, whatever each call returns,
`PAPI_remove_event` for the L1 event, `PAPI_remove_event` for the L2 event and
`PAPI_destroy_eventset`, in this order, each followed by its error line if and only if its
return code is not `PAPI_OK`; a run of `main` whose menu loop ends is the trace of the loop
followed by these events, with exit status 0. -/
theorem C13_teardown {σ : Type} (P : Papi σ) :
    (∀ d : Driver σ, (main_teardown P d).trace = d.trace ++
      (Ev.papi (PapiFn.remove_event Preset.PAPI_L1_DCM)
          (P.PAPI_remove_event Preset.PAPI_L1_DCM d.papi).1 ::
        (if (P.PAPI_remove_event Preset.PAPI_L1_DCM d.papi).1 ≠ PAPI_OK
          then [Ev.out "FAIL remove event", Ev.out "\n"] else [])) ++
      (Ev.papi (PapiFn.remove_event Preset.PAPI_L2_DCM)
          (P.PAPI_remove_event Preset.PAPI_L2_DCM
            (P.PAPI_remove_event Preset.PAPI_L1_DCM d.papi).2).1 ::
        (if (P.PAPI_remove_event Preset.PAPI_L2_DCM
            (P.PAPI_remove_event Preset.PAPI_L1_DCM d.papi).2).1 ≠ PAPI_OK
          then [Ev.out "FAIL remove event", Ev.out "\n"] else [])) ++
      (Ev.papi PapiFn.destroy_eventset
          (P.PAPI_destroy_eventset (P.PAPI_remove_event Preset.PAPI_L2_DCM
            (P.PAPI_remove_event Preset.PAPI_L1_DCM d.papi).2).2).1 ::
        (if (P.PAPI_destroy_eventset (P.PAPI_remove_event Preset.PAPI_L2_DCM
            (P.PAPI_remove_event Preset.PAPI_L1_DCM d.papi).2).2).1 ≠ PAPI_OK
          then [Ev.out "FAIL destroy", Ev.out "\n"] else []))) ∧
    ∀ (fuel : Nat) (s0 : σ) (input : List Int) (lin col blockSize ret : Int)
      (values : Int × Int) (r : Int × List Ev),
      main P fuel s0 input lin col blockSize ret values = some r →
        r.1 = 0 ∧ ∃ d : Driver σ, r.2 = (main_teardown P d).trace ∧
          main_loop P fuel (main_setup P
            { papi := s0
              stdin := { rest := input, failed := false }
              op := 0
              lin := lin
              col := col
              blockSize := blockSize
              values := values
              ret := ret
              trace := [] }) = some d := by
  refine ⟨?_, ?_⟩
  · intro d
    unfold main_teardown
    simp only [call_trace, (call_fields _ _ _ _ _).1, List.append_assoc]
  · intro fuel s0 input lin col blockSize ret values r hr
    unfold main at hr
    simp only at hr
    split at hr
    · simp at hr
    · next d hd =>
      simp only [Option.some.injEq] at hr
      rw [← hr]
      exact ⟨rfl, d, rfl, hd⟩

/-- C13 with a library whose three teardown calls all fail, on the input `0`: the three calls
are made and reported, the exit status is 0. -/
theorem C13_teardown_witness :
    main failingTeardown 1 ⟨false, (0, 0)⟩ [0] 7 7 7 7 (7, 7) =
      some (0,
        [Ev.papi PapiFn.library_init 117440512, Ev.papi PapiFn.create_eventset 0,
          Ev.papi (PapiFn.add_event Preset.PAPI_L1_DCM) 0,
          Ev.papi (PapiFn.add_event Preset.PAPI_L2_DCM) 0] ++ menu ++
        [Ev.read 0, Ev.papi (PapiFn.remove_event Preset.PAPI_L1_DCM) (-1),
          Ev.out "FAIL remove event", Ev.out "\n",
          Ev.papi (PapiFn.remove_event Preset.PAPI_L2_DCM) (-1),
          Ev.out "FAIL remove event", Ev.out "\n",
          Ev.papi PapiFn.destroy_eventset (-1), Ev.out "FAIL destroy", Ev.out "\n"]) ∧
    ((0 : Int), [Ev.papi PapiFn.library_init 117440512, Ev.papi PapiFn.create_eventset 0,
          Ev.papi (PapiFn.add_event Preset.PAPI_L1_DCM) 0,
          Ev.papi (PapiFn.add_event Preset.PAPI_L2_DCM) 0] ++ menu ++
        [Ev.read 0, Ev.papi (PapiFn.remove_event Preset.PAPI_L1_DCM) (-1),
          Ev.out "FAIL remove event", Ev.out "\n",
          Ev.papi (PapiFn.remove_event Preset.PAPI_L2_DCM) (-1),
          Ev.out "FAIL remove event", Ev.out "\n",
          Ev.papi PapiFn.destroy_eventset (-1), Ev.out "FAIL destroy", Ev.out "\n"]).1 = 0 :=
  ⟨rfl, ((C13_teardown failingTeardown).2 1 ⟨false, (0, 0)⟩ [0] 7 7 7 7 (7, 7) _ rfl).1⟩

/-! ## The OpenMP kernels -/

theorem foldl_append_flatMap {ι β : Type} (L : List ι) (f : ι → List β) (l0 : List β) :
    L.foldl (fun l x => l ++ f x) l0 = l0 ++ L.flatMap f := by
  induction L generalizing l0 with
  | nil => simp
  | cons a L ih => simp [ih, List.append_assoc]

theorem loadsB_append (t u : List Access) : loadsB (t ++ u) = loadsB t ++ loadsB u := by
  unfold loadsB
  rw [List.filterMap_append]

theorem OnMultLineOMP1_mult_eq {α : Type} [Add α] [Mul α] (m_ar m_br : Nat)
    (sched : List Nat) (m : Mem α) :
    OnMultLineOMP1_mult m_ar m_br sched m =
      ompFor sched m (OnMultLineOMP1_iteration m_ar m_br) :=
  rfl

theorem loadsB_OnMult_mult {α : Type} [Zero α] [Add α] [Mul α] (m_ar m_br : Nat) (m : Mem α) :
    loadsB (OnMult_mult m_ar m_br m).log = loadsB m.log ++
      (List.range m_ar).flatMap (fun _ => (List.range m_br).flatMap (fun j =>
        (List.range m_ar).flatMap (fun k => [k * m_br + j]))) := by
  unfold OnMult_mult forLoop
  simp only [Nat.sub_zero, ← List.range_eq_range']
  rw [← foldl_append_flatMap]
  refine foldl_rel (fun (m' : Mem α) (l : List Nat) => loadsB m'.log = l) _ _ _ ?_ m _ rfl
  intro s t i _ hst
  rw [← foldl_append_flatMap]
  refine foldl_rel (fun (m' : Mem α) (l : List Nat) => loadsB m'.log = l) _ _ _ ?_ s t hst
  intro s t j _ hst
  have hk : loadsB ((List.range m_ar).foldl
      (fun (s : α × Mem α) k => accumTemp s (i * m_ar + k) (k * m_br + j)) ((0 : α), s)).2.log =
      t ++ (List.range m_ar).flatMap (fun k => [k * m_br + j]) := by
    rw [← foldl_append_flatMap]
    refine foldl_rel (fun (s' : α × Mem α) (l : List Nat) => loadsB s'.2.log = l) _ _ _ ?_
      ((0 : α), s) t hst
    intro s t k _ hst
    simp only [accumTemp, loadsB_append, hst]
    rfl
  simp only [Mem.storeC, loadsB_append, hk]
  simp [loadsB]

/-- C16, as stated, fails: with `m_ar = 2` and `m_br = 3` the loop nest of `OnMult` loads
`B[1][0]` from the offset `1 * m_br + 0 = 3`, not from `1 * m_ar + 0 = 2`; its loads from
`phb` are at the offsets 0, 3, 1, 4, 2, 5 (twice), not at 0, 2, 1, 3, 2, 4. -/
theorem C16_reads_B_with_B_stride :
    loadsB (OnMult_mult 2 3 { example3 with log := [] }).log =
      [0, 3, 1, 4, 2, 5, 0, 3, 1, 4, 2, 5] ∧
    loadsB (OnMult_mult 2 3 { example3 with log := [] }).log ≠
      (List.range 2).flatMap (fun _ => (List.range 3).flatMap (fun j =>
        (List.range 2).flatMap (fun k => [k * 2 + j]))) := by
  decide

/-- C16, amended. For all `m_ar`, `m_br` the loop nest of `OnMult` loads `B[k][j]` from the
offset `k * m_br + j` of `phb`, for `i < m_ar`, `j < m_br`, `k < m_ar` in loop order: `B` is
addressed with its own stride. For `k ≥ 1` this offset is `k * m_ar + j` exactly when
`m_ar = m_br`. -/
theorem C16_B_offsets {α : Type} [Zero α] [Add α] [Mul α] (m_ar m_br : Nat) (m : Mem α) :
    loadsB (OnMult_mult m_ar m_br m).log = loadsB m.log ++
      (List.range m_ar).flatMap (fun _ => (List.range m_br).flatMap (fun j =>
        (List.range m_ar).flatMap (fun k => [k * m_br + j]))) ∧
    ∀ k j : Nat, 1 ≤ k → (k * m_br + j = k * m_ar + j ↔ m_ar = m_br) := by
  refine ⟨loadsB_OnMult_mult m_ar m_br m, ?_⟩
  intro k j hk
  constructor
  · intro h
    have h2 : k * m_br = k * m_ar := by omega
    exact (Nat.eq_of_mul_eq_mul_left hk h2).symm
  · intro h
    rw [h]

/-- C16 amended, for `m_ar = 2`, `m_br = 3`, `k = 1`, `j = 0`. -/
theorem C16_B_offsets_witness :
    1 ≤ 1 ∧
    loadsB (OnMult_mult 2 3 { example3 with log := [] }).log =
      loadsB ([] : List Access) ++
        (List.range 2).flatMap (fun _ => (List.range 3).flatMap (fun j =>
          (List.range 2).flatMap (fun k => [k * 3 + j]))) ∧
    (1 * 3 + 0 = 1 * 2 + 0 ↔ 2 = 3) :=
  ⟨by decide, (C16_B_offsets 2 3 { example3 with log := [] }).1,
    (C16_B_offsets 2 3 { example3 with log := [] }).2 1 0 (by decide)⟩

/-! ## The iterations of the blocked nest -/

theorem OnMultBlock_mult_eq_nest {α : Type} [Add α] [Mul α] (fuel m_ar m_br bkSize : Nat)
    (m : Mem α) :
    OnMultBlock_mult fuel m_ar m_br bkSize m =
      OnMultBlock_nest fuel m_ar m_br bkSize m
        (fun i k j m => m.accumC (i * m_ar + j) (i * m_ar + k) (k * m_br + j)) :=
  rfl

theorem foldl_flatMap_eq {ι κ β : Type} (L : List ι) (f : ι → List κ) (g : β → κ → β)
    (v : β) : (L.flatMap f).foldl g v = L.foldl (fun v x => (f x).foldl g v) v := by
  induction L generalizing v with
  | nil => rfl
  | cons a L ih => simp [List.flatMap_cons, List.foldl_append, ih]

theorem OnMultBlock_nest_eq {σ : Type} (N bkSize fuel : Nat) (hbk : 0 < bkSize)
    (hfuel : N < fuel) (s : σ) (body : Nat → Nat → Nat → σ → σ) :
    OnMultBlock_nest fuel N N bkSize s body =
      some ((blockOrder N bkSize (tiles fuel 0 N bkSize)).foldl
        (fun s t => body t.1 t.2.1 t.2.2 s) s) := by
  have hjj : ∀ ii kk (s : σ), forStep fuel 0 N bkSize s (fun jj s => some
      (forLoop ii (min (ii + bkSize) N) s fun i s =>
        forLoop kk (min (kk + bkSize) N) s fun k s =>
          forLoop jj (min (jj + bkSize) N) s fun j s => body i k j s)) = some _ :=
    fun ii kk s => forStep_eq_some bkSize hbk N _ _ (fun _ _ => rfl) fuel 0 s (by omega)
  have hkk : ∀ ii (s : σ), forStep fuel 0 N bkSize s (fun kk s =>
      forStep fuel 0 N bkSize s (fun jj s => some
      (forLoop ii (min (ii + bkSize) N) s fun i s =>
        forLoop kk (min (kk + bkSize) N) s fun k s =>
          forLoop jj (min (jj + bkSize) N) s fun j s => body i k j s))) = some _ :=
    fun ii s => forStep_eq_some bkSize hbk N _ _ (fun kk s => hjj ii kk s) fuel 0 s (by omega)
  have hii := forStep_eq_some bkSize hbk N _ _ (fun ii s => hkk ii s) fuel 0 s (by omega)
  unfold OnMultBlock_nest
  rw [hii]
  unfold blockOrder
  simp only [foldl_flatMap_eq, forLoop, tile, List.foldl_cons, List.foldl_nil]

theorem forStep_zero_step {σ : Type} (fuel i hi : Nat) (h : i < hi) (s : σ)
    (body : Nat → σ → Option σ) : forStep fuel i hi 0 s body = none := by
  induction fuel generalizing s with
  | zero => rfl
  | succ fuel ih =>
    unfold forStep
    simp only [h, if_true, Nat.add_zero]
    cases body i s with
    | none => rfl
    | some s1 => exact ih s1

theorem foldl_count (l : List (Nat × Nat × Nat)) (t : Nat × Nat × Nat) (c : Nat) :
    l.foldl (fun c x => if x = t then c + 1 else c) c = c + l.count t := by
  induction l generalizing c with
  | nil => simp
  | cons a l ih =>
    rw [List.foldl_cons, ih, List.count_cons]
    by_cases h : a = t
    · simp [h]
      omega
    · simp [h]

theorem foldl_hits3 (Li Lk Lj : List Nat) (hLi : Li.Nodup) (hLk : Lk.Nodup) (hLj : Lj.Nodup)
    (i0 k0 j0 : Nat) (c : Nat) :
    Li.foldl (fun c i => Lk.foldl (fun c k => Lj.foldl (fun c j =>
      if (i, k, j) = (i0, k0, j0) then c + 1 else c) c) c) c =
      if i0 ∈ Li ∧ k0 ∈ Lk ∧ j0 ∈ Lj then c + 1 else c := by
  have hj : ∀ i k, (fun (c : Nat) j => if (i, k, j) = (i0, k0, j0) then c + 1 else c) =
      fun c j => if j = j0 then (fun _ c => if i = i0 ∧ k = k0 then c + 1 else c) j c
        else c := by
    intro i k
    funext c j
    by_cases h : j = j0 <;> simp [h]
  have hk : ∀ i, (fun (c : Nat) k => if j0 ∈ Lj then
      (fun _ c => if i = i0 ∧ k = k0 then c + 1 else c) j0 c else c) =
      fun c k => if k = k0 then (fun _ c => if i = i0 ∧ j0 ∈ Lj then c + 1 else c) k c
        else c := by
    intro i
    funext c k
    by_cases h : k = k0 <;> by_cases h2 : j0 ∈ Lj <;> simp [h, h2]
  have hi : (fun (c : Nat) i => if k0 ∈ Lk then
      (fun _ c => if i = i0 ∧ j0 ∈ Lj then c + 1 else c) k0 c else c) =
      fun c i => if i = i0 then (fun _ c => if k0 ∈ Lk ∧ j0 ∈ Lj then c + 1 else c) i c
        else c := by
    funext c i
    by_cases h : i = i0 <;> by_cases h2 : k0 ∈ Lk <;> simp [h, h2]
  simp only [hj, foldl_once Lj hLj, hk, foldl_once Lk hLk, hi, foldl_once Li hLi]
  by_cases h : i0 ∈ Li <;> simp [h]

theorem count_blockOrder (N bk fuel : Nat) (hbk : 0 < bk) (hfuel : N ≤ fuel)
    (i0 k0 j0 : Nat) :
    (blockOrder N bk (tiles fuel 0 N bk)).count (i0, k0, j0) =
      if i0 < N ∧ k0 < N ∧ j0 < N then 1 else 0 := by
  have hnd : ∀ b, (tile N bk b).Nodup := fun b => List.nodup_range' _ _
  have h := foldl_count (blockOrder N bk (tiles fuel 0 N bk)) (i0, k0, j0) 0
  rw [Nat.zero_add] at h
  rw [← h]
  unfold blockOrder
  simp only [foldl_flatMap_eq, List.foldl_cons, List.foldl_nil]
  simp only [foldl_hits3 _ _ _ (hnd _) (hnd _) (hnd _)]
  have hjj : ∀ ii kk, (fun (c : Nat) jj =>
      if i0 ∈ tile N bk ii ∧ k0 ∈ tile N bk kk ∧ j0 ∈ tile N bk jj then c + 1 else c) =
      fun c jj => if j0 ∈ List.range' jj (min (jj + bk) N - jj) then
        (fun c => if i0 ∈ tile N bk ii ∧ k0 ∈ tile N bk kk then c + 1 else c) c else c := by
    intro ii kk
    funext c jj
    by_cases h1 : j0 ∈ tile N bk jj
    · have h2 := h1
      unfold tile at h2
      simp [h1, h2]
    · have h2 := h1
      unfold tile at h2
      simp [h1, h2]
  have hkk : ∀ ii, (fun (c : Nat) kk => if j0 < N then
      (fun c => if i0 ∈ tile N bk ii ∧ k0 ∈ tile N bk kk then c + 1 else c) c else c) =
      fun c kk => if k0 ∈ List.range' kk (min (kk + bk) N - kk) then
        (fun c => if i0 ∈ tile N bk ii ∧ j0 < N then c + 1 else c) c else c := by
    intro ii
    funext c kk
    by_cases h1 : k0 ∈ tile N bk kk
    · have h2 := h1
      unfold tile at h2
      by_cases h3 : j0 < N <;> simp [h1, h2, h3]
    · have h2 := h1
      unfold tile at h2
      simp [h1, h2]
  have hii : (fun (c : Nat) ii => if k0 < N then
      (fun c => if i0 ∈ tile N bk ii ∧ j0 < N then c + 1 else c) c else c) =
      fun c ii => if i0 ∈ List.range' ii (min (ii + bk) N - ii) then
        (fun c => if k0 < N ∧ j0 < N then c + 1 else c) c else c := by
    funext c ii
    by_cases h1 : i0 ∈ tile N bk ii
    · have h2 := h1
      unfold tile at h2
      by_cases h3 : k0 < N <;> simp [h1, h2, h3]
    · have h2 := h1
      unfold tile at h2
      simp [h1, h2]
  simp only [hjj, tiles_once bk hbk N j0 _ fuel _ hfuel, hkk,
    tiles_once bk hbk N k0 _ fuel _ hfuel, hii, tiles_once bk hbk N i0 _ fuel _ hfuel]
  by_cases h : i0 < N <;> simp [h]

theorem offset_lt (N i j : Nat) (hi : i < N) (hj : j < N) : i * N + j < N * N := by
  have h : (i + 1) * N ≤ N * N := Nat.mul_le_mul_right N hi
  rw [Nat.add_mul] at h
  omega

theorem within_append (size : Nat) (l l' : List Access) :
    Within size (l ++ l') ↔ Within size l ∧ Within size l' := by
  unfold Within
  simp only [List.mem_append]
  constructor
  · intro h
    exact ⟨fun a ha => h a (Or.inl ha), fun a ha => h a (Or.inr ha)⟩
  · rintro ⟨h1, h2⟩ a (ha | ha)
    · exact h1 a ha
    · exact h2 a ha

theorem replay_eq_some (size : Nat) (log : List Access) (h : Within size log) :
    replay size log = some () := by
  induction log with
  | nil => rfl
  | cons a log ih =>
    unfold replay
    rw [if_pos (h a (List.mem_cons_self _ _))]
    exact ih (fun b hb => h b (List.mem_cons_of_mem _ hb))

theorem within_accumC {α : Type} [Add α] [Mul α] (size : Nat) (m : Mem α) (c a b : Nat)
    (hm : Within size m.log) (hc : c < size) (ha : a < size) (hb : b < size) :
    Within size (m.accumC c a b).log := by
  unfold Mem.accumC
  rw [within_append]
  refine ⟨hm, ?_⟩
  intro x hx
  simp only [List.mem_cons, List.mem_singleton, List.not_mem_nil, or_false] at hx
  rcases hx with rfl | rfl | rfl | rfl <;> assumption

theorem within_initInputs {α : Type} [One α] [NatCast α] (N : Nat) (m : Mem α)
    (hm : Within (N * N) m.log) : Within (N * N) (initInputs N N m).log := by
  unfold initInputs forLoop
  simp only [Nat.sub_zero]
  refine foldl_inv (fun m' : Mem α => Within (N * N) m'.log) _ _ ?_ _ ?_
  · intro s i hi hs
    refine foldl_inv (fun m' : Mem α => Within (N * N) m'.log) _ _ ?_ _ hs
    intro s j hj hs
    have hi := (List.mem_range'_1.mp hi).2
    have hj := (List.mem_range'_1.mp hj).2
    unfold Mem.storeB
    rw [within_append]
    refine ⟨hs, ?_⟩
    intro x hx
    simp only [List.mem_singleton] at hx
    subst hx
    exact offset_lt N i j (by omega) (by omega)
  · refine foldl_inv (fun m' : Mem α => Within (N * N) m'.log) _ _ ?_ _ hm
    intro s i hi hs
    refine foldl_inv (fun m' : Mem α => Within (N * N) m'.log) _ _ ?_ _ hs
    intro s j hj hs
    have hi := (List.mem_range'_1.mp hi).2
    have hj := (List.mem_range'_1.mp hj).2
    unfold Mem.storeA
    rw [within_append]
    refine ⟨hs, ?_⟩
    intro x hx
    simp only [List.mem_singleton] at hx
    subst hx
    exact offset_lt N i j (by omega) (by omega)

theorem within_nest3 {α : Type} [Add α] [Mul α] (N : Nat) (Li Lk : List Nat)
    (Lj : Nat → Nat → List Nat) (hLi : ∀ i ∈ Li, i < N) (hLk : ∀ k ∈ Lk, k < N)
    (hLj : ∀ i k, ∀ j ∈ Lj i k, j < N) (m : Mem α) (hm : Within (N * N) m.log) :
    Within (N * N) (Li.foldl (fun m i => Lk.foldl (fun m k => (Lj i k).foldl (fun m j =>
      m.accumC (i * N + j) (i * N + k) (k * N + j)) m) m) m).log := by
  refine foldl_inv (fun m' : Mem α => Within (N * N) m'.log) _ _ ?_ _ hm
  intro s i hi hs
  refine foldl_inv (fun m' : Mem α => Within (N * N) m'.log) _ _ ?_ _ hs
  intro s k hk hs
  refine foldl_inv (fun m' : Mem α => Within (N * N) m'.log) _ _ ?_ _ hs
  intro s j hj hs
  have hi := hLi i hi
  have hk := hLk k hk
  have hj := hLj i k j hj
  exact within_accumC _ s _ _ _ hs (offset_lt N i j hi hj) (offset_lt N i k hi hk)
    (offset_lt N k j hk hj)

theorem within_OnMult_mult {α : Type} [Zero α] [Add α] [Mul α] (N : Nat) (m : Mem α)
    (hm : Within (N * N) m.log) : Within (N * N) (OnMult_mult N N m).log := by
  unfold OnMult_mult forLoop
  simp only [Nat.sub_zero]
  refine foldl_inv (fun m' : Mem α => Within (N * N) m'.log) _ _ ?_ _ hm
  intro s i hi hs
  refine foldl_inv (fun m' : Mem α => Within (N * N) m'.log) _ _ ?_ _ hs
  intro s j hj hs
  have hi := (List.mem_range'_1.mp hi).2
  have hj := (List.mem_range'_1.mp hj).2
  have hk : Within (N * N) ((List.range' 0 N).foldl
      (fun (s : α × Mem α) k => accumTemp s (i * N + k) (k * N + j)) ((0 : α), s)).2.log := by
    refine foldl_inv (fun s' : α × Mem α => Within (N * N) s'.2.log) _ _ ?_ _ hs
    intro s k hk hs
    have hk := (List.mem_range'_1.mp hk).2
    unfold accumTemp
    rw [within_append]
    refine ⟨hs, ?_⟩
    intro x hx
    simp only [List.mem_cons, List.mem_singleton, List.not_mem_nil, or_false] at hx
    rcases hx with rfl | rfl
    · exact offset_lt N i k (by omega) (by omega)
    · exact offset_lt N k j (by omega) (by omega)
  unfold Mem.storeC
  rw [within_append]
  refine ⟨hk, ?_⟩
  intro x hx
  simp only [List.mem_singleton] at hx
  subst hx
  exact offset_lt N i j (by omega) (by omega)

theorem within_OnMultLine_mult {α : Type} [Add α] [Mul α] (N : Nat) (m : Mem α)
    (hm : Within (N * N) m.log) : Within (N * N) (OnMultLine_mult N N m).log := by
  have h := within_nest3 N (List.range N) (List.range N) (fun _ _ => List.range N)
    (fun _ h => List.mem_range.mp h) (fun _ h => List.mem_range.mp h)
    (fun _ _ _ h => List.mem_range.mp h) m hm
  simpa [OnMultLine_mult, forLoop, List.range_eq_range'] using h

theorem within_OnMultLineOMP1_mult {α : Type} [Add α] [Mul α] (N : Nat) (sched : List Nat)
    (hs : IsSchedule N sched) (m : Mem α) (hm : Within (N * N) m.log) :
    Within (N * N) (OnMultLineOMP1_mult N N sched m).log := by
  have h := within_nest3 N sched (List.range N) (fun _ _ => List.range N)
    (fun _ h => List.mem_range.mp (hs.mem_iff.mp h)) (fun _ h => List.mem_range.mp h)
    (fun _ _ _ h => List.mem_range.mp h) m hm
  simpa [OnMultLineOMP1_mult, forLoop, ompFor, List.range_eq_range'] using h

theorem within_OnMultLineOMP2_mult {α : Type} [Add α] [Mul α] (N : Nat)
    (sched : Nat → Nat → List Nat) (hs : ∀ i k, IsSchedule N (sched i k)) (m : Mem α)
    (hm : Within (N * N) m.log) : Within (N * N) (OnMultLineOMP2_mult N N sched m).log := by
  have h := within_nest3 N (List.range N) (List.range N) sched
    (fun _ h => List.mem_range.mp h) (fun _ h => List.mem_range.mp h)
    (fun i k _ h => List.mem_range.mp ((hs i k).mem_iff.mp h)) m hm
  simpa [OnMultLineOMP2_mult, forLoop, ompFor, List.range_eq_range'] using h

theorem mem_blockOrder (N bk fuel : Nat) (hbk : 0 < bk) (hfuel : N ≤ fuel)
    (t : Nat × Nat × Nat) (ht : t ∈ blockOrder N bk (tiles fuel 0 N bk)) :
    t.1 < N ∧ t.2.1 < N ∧ t.2.2 < N := by
  have hc := count_blockOrder N bk fuel hbk hfuel t.1 t.2.1 t.2.2
  have hpos : 0 < (blockOrder N bk (tiles fuel 0 N bk)).count (t.1, t.2.1, t.2.2) :=
    List.count_pos_iff.mpr ht
  by_contra hcon
  rw [if_neg hcon] at hc
  omega

theorem within_OnMultBlock_mult {α : Type} [Add α] [Mul α] (N bkSize fuel : Nat)
    (hbk : 0 < bkSize) (hfuel : N < fuel) (m : Mem α) (hm : Within (N * N) m.log) :
    ∃ r, OnMultBlock_mult fuel N N bkSize m = some r ∧ Within (N * N) r.log := by
  rw [OnMultBlock_mult_eq_nest, OnMultBlock_nest_eq N bkSize fuel hbk hfuel]
  refine ⟨_, rfl, ?_⟩
  refine foldl_inv (fun m' : Mem α => Within (N * N) m'.log) _ _ ?_ _ hm
  intro s t ht hs
  obtain ⟨h1, h2, h3⟩ := mem_blockOrder N bkSize fuel hbk (by omega) t ht
  exact within_accumC _ s _ _ _ hs (offset_lt N _ _ h1 h3) (offset_lt N _ _ h1 h2)
    (offset_lt N _ _ h2 h3)

theorem within_report {α : Type} (N : Nat) (m : Mem α) (out : List (Out α))
    (hm : Within (N * N) m.log) : Within (N * N) (report N m out).mem.log := by
  have hone : List.range' 0 1 = [0] := rfl
  unfold report preview forLoop
  simp only [Nat.sub_zero, hone, List.foldl_cons, List.foldl_nil]
  refine foldl_inv (fun s' : Mem α × List (Out α) => Within (N * N) s'.1.log) _ _ ?_ _ hm
  intro s j hj hs
  have hj := (List.mem_range'_1.mp hj).2
  show Within (N * N) (s.1.log ++ [Access.load Buffer.phc j])
  rw [within_append]
  refine ⟨hs, ?_⟩
  intro x hx
  simp only [List.mem_singleton] at hx
  subst hx
  have h1 : j < N := by omega
  have h2 : N * 1 ≤ N * N := Nat.mul_le_mul_left N (by omega)
  show j < N * N
  omega

theorem within_setup {α : Type} [Zero α] [One α] [NatCast α] (N : Nat) (a0 b0 c0 : Buf α) :
    Within (N * N) (OnMult_setup N N a0 b0 c0).log ∧
    Within (N * N) (calloc_setup N N a0 b0).log := by
  have hnil : Within (N * N) [] := fun _ h => absurd h (List.not_mem_nil _)
  exact ⟨within_initInputs N _ hnil, within_initInputs N _ hnil⟩

/-! ## 32-bit `int` -/

theorem wrap32_eq (x : Int) (h1 : -2147483648 ≤ x) (h2 : x < 2147483648) : wrap32 x = x := by
  unfold wrap32
  rw [Int.emod_eq_of_lt (by omega) (by omega)]
  omega

theorem offset32_eq (N a b : Int) (hN : N ≤ 46340) (ha0 : 0 ≤ a) (ha : a < N)
    (hb0 : 0 ≤ b) (hb : b < N) : offset32 a N b = a * N + b := by
  have h1 : 0 ≤ a * N := Int.mul_nonneg ha0 (by omega)
  have h2 : a * N ≤ 46339 * 46340 := by
    calc a * N ≤ 46339 * N := Int.mul_le_mul_of_nonneg_right (by omega) (by omega)
      _ ≤ 46339 * 46340 := Int.mul_le_mul_of_nonneg_left hN (by omega)
  unfold offset32
  rw [wrap32_eq (a * N) (by omega) (by omega), wrap32_eq (a * N + b) (by omega) (by omega)]

/-- C19. With 32-bit `int` arithmetic, for `1 ≤ N ≤ 46340` and loop variables `i`, `j`, `k`
in `0 .. N - 1`, the element count `m_ar * m_ar` and the offsets `i * m_ar + j`,
`i * m_ar + k` and `k * m_br + j` (`m_ar = m_br = N`) have their mathematical values. For
`N = 46341` the element count 2147488281 exceeds `2^31 - 1` and wraps to -2147479015. -/
theorem C19_no_wrap (N i j k : Int) (hN1 : 1 ≤ N) (hN : N ≤ 46340) (hi0 : 0 ≤ i)
    (hi : i < N) (hj0 : 0 ≤ j) (hj : j < N) (hk0 : 0 ≤ k) (hk : k < N) :
    (elementCount32 N = N * N ∧ offset32 i N j = i * N + j ∧ offset32 i N k = i * N + k ∧
      offset32 k N j = k * N + j) ∧
    ((2 : Int) ^ 31 - 1 < 46341 * 46341 ∧ elementCount32 46341 = -2147479015 ∧
      elementCount32 46341 ≠ 46341 * 46341) := by
  refine ⟨⟨?_, offset32_eq N i j hN hi0 hi hj0 hj, offset32_eq N i k hN hi0 hi hk0 hk,
    offset32_eq N k j hN hk0 hk hj0 hj⟩, by decide, by decide, by decide⟩
  have h1 : 0 ≤ N * N := Int.mul_nonneg (by omega) (by omega)
  have h2 : N * N ≤ 46340 * 46340 := by
    calc N * N ≤ 46340 * N := Int.mul_le_mul_of_nonneg_right hN (by omega)
      _ ≤ 46340 * 46340 := Int.mul_le_mul_of_nonneg_left hN (by omega)
  unfold elementCount32
  exact wrap32_eq (N * N) (by omega) (by omega)

/-- C19 at the largest dimension without wrap-around, `N = 46340`, in the last cell. -/
theorem C19_no_wrap_witness :
    ((1 : Int) ≤ 46340 ∧ (46340 : Int) ≤ 46340 ∧ (0 : Int) ≤ 46339 ∧ (46339 : Int) < 46340) ∧
    (elementCount32 46340 = 46340 * 46340 ∧ offset32 46339 46340 46339 = 46339 * 46340 + 46339 ∧
      offset32 46339 46340 46339 = 46339 * 46340 + 46339 ∧
      offset32 46339 46340 46339 = 46339 * 46340 + 46339) ∧
    elementCount32 46340 = 2147395600 ∧ offset32 46339 46340 46339 = 2147395599 :=
  ⟨⟨by decide, by decide, by decide, by decide⟩,
    (C19_no_wrap 46340 46339 46339 46339 (by decide) (by decide) (by decide) (by decide)
      (by decide) (by decide) (by decide) (by decide)).1,
    by decide, by decide⟩

/-! ## The helper `init_papi` -/

/-- C20 fails on the code. When `PAPI_library_init` returns the version 100663296 (6.0.0.0)
and the compiled-against version is 117440512 (7.0.0.0), `init_papi` prints the version line
and returns; with the return code -1 it prints "PAPI library version mismatch!" and exits
with status 1. Whatever the library, `init_papi` ends the process exactly when the return
code is negative: the first test reads `retval < 0` where a version mismatch is a positive
return code. -/
theorem C20_positive_mismatch_returns :
    init_papi (smallPapi 117440512 100663296 0 exampleCost) ⟨false, (0, 0)⟩ =
      ([InitOut.version 100663296], Ending.returns, ⟨false, (0, 0)⟩) ∧
    init_papi (smallPapi 117440512 (-1) 0 exampleCost) ⟨false, (0, 0)⟩ =
      ([InitOut.mismatch], Ending.exits 1, ⟨false, (0, 0)⟩) ∧
    ∀ (σ : Type) (P : Papi σ) (s : σ), (init_papi P s).2.1 =
      if (P.PAPI_library_init P.PAPI_VER_CURRENT s).1 < 0 then Ending.exits 1
      else Ending.returns := by
  refine ⟨by decide, by decide, ?_⟩
  intro σ P s
  unfold init_papi handle_error
  by_cases h1 : (P.PAPI_library_init P.PAPI_VER_CURRENT s).1 < 0
  · by_cases h2 : (P.PAPI_library_init P.PAPI_VER_CURRENT s).1 = P.PAPI_VER_CURRENT
    · rw [h2] at h1
      simp [h1, h2]
    · simp [h1, h2]
  · simp [h1]

/-! ## The turns of the menu loop -/

theorem main_turn_stuck {σ : Type} (P : Papi σ) (d : Driver σ) (hop : (main_menu d).op ≠ 0) :
    (main_turn P d).1.stuck = (main_run P (main_menu d)).stuck := by
  rw [main_turn_nonzero P d hop]
  exact main_collect_stuck P _

theorem main_turn_acc {σ : Type} (P : Papi σ) (acc : σ → Int × Int)
    (hP : ∀ s, acc (P.PAPI_reset s).2 = (0, 0)) (d : Driver σ)
    (hs : (main_turn P d).1.stuck = false) (hgo : (main_turn P d).2 = true) :
    acc (main_turn P d).1.papi = (0, 0) := by
  by_cases hop : (main_menu d).op = 0
  · rw [main_turn_zero P d hop] at hgo
    simp at hgo
  · rw [main_turn_stuck P d hop] at hs
    rw [main_turn_nonzero P d hop]
    simp only [(main_collect_fields P _ hs).1]
    exact hP _

theorem main_after_acc {σ : Type} (P : Papi σ) (acc : σ → Int × Int)
    (hP : ∀ s, acc (P.PAPI_reset s).2 = (0, 0))
    (n : Nat) (d0 d : Driver σ) (h0 : acc d0.papi = (0, 0)) (h : main_after P n d0 = some d) :
    acc d.papi = (0, 0) := by
  induction n generalizing d0 with
  | zero =>
    simp only [main_after, Option.some.injEq] at h
    rw [← h]
    exact h0
  | succ n ih =>
    unfold main_after at h
    by_cases hs : (main_turn P d0).1.stuck = true
    · simp [hs] at h
    · have hs : (main_turn P d0).1.stuck = false := by simpa using hs
      by_cases hgo : (main_turn P d0).2 = true
      · simp only [hs, hgo, Bool.false_eq_true, if_false, if_true] at h
        exact ih _ (main_turn_acc P acc hP d0 hs hgo) h
      · simp [hs, hgo] at h

theorem main_after_succ_acc {σ : Type} (P : Papi σ) (acc : σ → Int × Int)
    (hP : ∀ s, acc (P.PAPI_reset s).2 = (0, 0))
    (n : Nat) (d0 d : Driver σ) (h : main_after P (n + 1) d0 = some d) :
    acc d.papi = (0, 0) := by
  unfold main_after at h
  by_cases hs : (main_turn P d0).1.stuck = true
  · simp [hs] at h
  · have hs : (main_turn P d0).1.stuck = false := by simpa using hs
    by_cases hgo : (main_turn P d0).2 = true
    · simp only [hs, hgo, Bool.false_eq_true, if_false, if_true] at h
      exact main_after_acc P acc hP n _ d (main_turn_acc P acc hP d0 hs hgo) h
    · simp [hs, hgo] at h

theorem main_after_stuck {σ : Type} (P : Papi σ) (n : Nat) (d0 d : Driver σ)
    (h0 : d0.stuck = false) (h : main_after P n d0 = some d) : d.stuck = false := by
  induction n generalizing d0 with
  | zero =>
    simp only [main_after, Option.some.injEq] at h
    rw [← h]
    exact h0
  | succ n ih =>
    unfold main_after at h
    by_cases hs : (main_turn P d0).1.stuck = true
    · simp [hs] at h
    · have hs : (main_turn P d0).1.stuck = false := by simpa using hs
      by_cases hgo : (main_turn P d0).2 = true
      · simp only [hs, hgo, Bool.false_eq_true, if_false, if_true] at h
        exact ih _ hs h
      · simp [hs, hgo] at h

theorem marks_collect {σ : Type} (P : Papi σ) (d : Driver σ) (hs : d.stuck = false) :
    marks (main_collect P d).trace = marks d.trace ++ [Mark.stop] := by
  have h1 : ∀ r : Int, marks [Ev.papi PapiFn.stop r] = [Mark.stop] := fun _ => rfl
  have hr : ∀ r : Int, marks [Ev.papi PapiFn.reset r] = [] := fun _ => rfl
  have hv : ∀ x y : Int, marks [Ev.l1dcm x, Ev.l2dcm y] = [] := fun _ _ => rfl
  unfold main_collect
  simp [hs, marks_call, Driver.emit, marks_append, h1, hr, hv]

theorem marks_turn {σ : Type} (P : Papi σ) (d : Driver σ) :
    marks (main_turn P d).1.trace = marks d.trace ++
      (if (main_menu d).op = 0 then []
        else Mark.start ::
          ((if 1 ≤ (main_menu d).op ∧ (main_menu d).op ≤ 5 then [Mark.kernel] else []) ++
            (if (main_run P (main_menu d)).stuck then [] else [Mark.stop]))) := by
  by_cases hop : (main_menu d).op = 0
  · rw [main_turn_zero P d hop]
    simp [hop, marks_menu]
  · rw [main_turn_nonzero P d hop]
    by_cases hs : (main_run P (main_menu d)).stuck = true
    · rw [main_collect_of_stuck P _ hs]
      simp only [marks_run, marks_menu, hop, hs, if_false, if_true, List.append_nil]
    · have hs : (main_run P (main_menu d)).stuck = false := by simpa using hs
      simp only [marks_collect P _ hs, marks_run, marks_menu, hop, hs, if_false,
        Bool.false_eq_true, List.append_assoc, List.cons_append]

theorem bracketed_turn {σ : Type} (P : Papi σ) (d : Driver σ)
    (h : bracketed (marks d.trace) = true) (hs : (main_turn P d).1.stuck = false) :
    bracketed (marks (main_turn P d).1.trace) = true := by
  rw [marks_turn, bracketed_append _ _ h]
  by_cases hop : (main_menu d).op = 0
  · simp [hop, bracketed]
  · rw [main_turn_stuck P d hop] at hs
    by_cases h5 : 1 ≤ (main_menu d).op ∧ (main_menu d).op ≤ 5 <;>
      simp [hop, h5, hs, bracketed]

theorem bracketed_loop {σ : Type} (P : Papi σ) (fuel : Nat) (d d1 : Driver σ)
    (h : bracketed (marks d.trace) = true) (hl : main_loop P fuel d = some d1) :
    bracketed (marks d1.trace) = true := by
  induction fuel generalizing d with
  | zero => simp [main_loop] at hl
  | succ fuel ih =>
    unfold main_loop at hl
    by_cases hs : (main_turn P d).1.stuck = true
    · simp [hs] at hl
    · have hs : (main_turn P d).1.stuck = false := by simpa using hs
      have hb := bracketed_turn P d h hs
      by_cases hgo : (main_turn P d).2 = true
      · simp only [hs, hgo, Bool.false_eq_true, if_false, if_true] at hl
        exact ih _ hb hl
      · simp only [hs, hgo, Bool.false_eq_true, if_false, Option.some.injEq] at hl
        rw [← hl]
        exact hb

theorem bracketed_after {σ : Type} (P : Papi σ) (n : Nat) (d d1 : Driver σ)
    (h : bracketed (marks d.trace) = true) (hl : main_after P n d = some d1) :
    bracketed (marks d1.trace) = true := by
  induction n generalizing d with
  | zero =>
    simp only [main_after, Option.some.injEq] at hl
    rw [← hl]
    exact h
  | succ n ih =>
    unfold main_after at hl
    by_cases hs : (main_turn P d).1.stuck = true
    · simp [hs] at hl
    · have hs : (main_turn P d).1.stuck = false := by simpa using hs
      have hb := bracketed_turn P d h hs
      by_cases hgo : (main_turn P d).2 = true
      · simp only [hs, hgo, Bool.false_eq_true, if_false, if_true] at hl
        exact ih _ hb hl
      · simp [hs, hgo] at hl

theorem noRestart_append (a b : List Mark) (ha : bracketed a = true) :
    noRestart false (a ++ b) = noRestart false b := by
  induction a using bracketed.induct with
  | case1 => rfl
  | case2 rest ih =>
    simp only [bracketed] at ha
    simpa [noRestart] using ih ha
  | case3 rest ih =>
    simp only [bracketed] at ha
    simpa [noRestart] using ih ha
  | case4 l h1 h2 h3 =>
    exfalso
    unfold bracketed at ha
    split at ha
    · exact h1 rfl
    · exact h2 _ rfl
    · exact h3 _ rfl
    · simp at ha

theorem noRestart_turn {σ : Type} (P : Papi σ) (d : Driver σ)
    (h : bracketed (marks d.trace) = true) :
    noRestart false (marks (main_turn P d).1.trace) = true := by
  rw [marks_turn, noRestart_append _ _ h]
  by_cases hop : (main_menu d).op = 0
  · simp [hop, noRestart]
  · by_cases h5 : 1 ≤ (main_menu d).op ∧ (main_menu d).op ≤ 5 <;>
      by_cases hs : (main_run P (main_menu d)).stuck = true <;>
      simp [hop, h5, hs, noRestart]

theorem main_setup_stuck {σ : Type} (P : Papi σ) (d : Driver σ) :
    (main_setup P d).stuck = d.stuck := by
  unfold main_setup
  simp only [call_stuck]

/-- C10, as stated, fails in three ways. On the input `3 4 0`, the turn starts the event set,
reads the block size 0 and invokes `OnMultBlock(4, 4, 0)`, whose loop nest never comes to an
end: `main` is stuck in the kernel and performs no stop, print or reset, whatever the number
of turns allowed. With a library in which `PAPI_reset` zeroes the accumulators but where
the second `PAPI_start` fails, so that the second `PAPI_stop` fails too and leaves `values`
alone, the input `1 3 2 3 0` makes the second turn print the counts 100 and 40 of the first
turn although its own kernel `OnMultLine(3, 3)` was not counted. And in a counter model
where `PAPI_reset` zeroes the accumulators but the event set is created with the
accumulators 5 and 5, they are not zero at the start of the first turn: on the input `1 3 0`
it prints 105 and 45 for a kernel that adds 100 and 40. -/
theorem C10_no_stop_or_stale_counts :
    ((main_turn (smallPapi 117440512 117440512 0 exampleCost) (driverAt 1 [3, 4, 0])).1.trace =
        menu ++ [Ev.read 3, Ev.out "Dimensions: lins=cols ? ", Ev.read 4,
          Ev.papi PapiFn.start 0, Ev.out "Block Size? ", Ev.read 0,
          Ev.kernel (Call.OnMultBlock 4 4 0)] ∧
      (main_turn (smallPapi 117440512 117440512 0 exampleCost)
        (driverAt 1 [3, 4, 0])).1.stuck = true ∧
      (∀ fuel : Nat, OnMultBlock_mult fuel 4 4 0 example4 = none) ∧
      ∀ fuel : Nat, main (smallPapi 117440512 117440512 0 exampleCost) fuel ⟨false, (0, 0)⟩
        [3, 4, 0] 7 7 7 7 (7, 7) = none) ∧
    ((∀ s : Counters × Nat, (startsLeft.PAPI_reset s).2.1.acc = (0, 0)) ∧
      (main startsLeft 3 (⟨false, (0, 0)⟩, 1) [1, 3, 2, 3, 0] 7 7 7 7 (7, 7)).map
          (fun r => (kernelCalls r.2, measurement r.2)) =
        some ([Call.OnMult 3 3, Call.OnMultLine 3 3],
          [Ev.papi PapiFn.library_init 117440512, Ev.papi PapiFn.create_eventset 0,
            Ev.papi (PapiFn.add_event Preset.PAPI_L1_DCM) 0,
            Ev.papi (PapiFn.add_event Preset.PAPI_L2_DCM) 0,
            Ev.papi PapiFn.start 0, Ev.papi PapiFn.stop 0, Ev.l1dcm 100, Ev.l2dcm 40,
            Ev.papi PapiFn.reset 0,
            Ev.papi PapiFn.start (-1), Ev.papi PapiFn.stop (-9), Ev.l1dcm 100, Ev.l2dcm 40,
            Ev.papi PapiFn.reset 0,
            Ev.papi (PapiFn.remove_event Preset.PAPI_L1_DCM) 0,
            Ev.papi (PapiFn.remove_event Preset.PAPI_L2_DCM) 0,
            Ev.papi PapiFn.destroy_eventset 0])) ∧
    ((∀ s : Counters,
        ((smallPapi 117440512 117440512 0 exampleCost).PAPI_reset s).2.acc = (0, 0)) ∧
      (main (smallPapi 117440512 117440512 0 exampleCost) 2 ⟨false, (5, 5)⟩ [1, 3, 0]
          7 7 7 7 (7, 7)).map (fun r => (kernelCalls r.2, measurement r.2)) =
        some ([Call.OnMult 3 3],
          [Ev.papi PapiFn.library_init 117440512, Ev.papi PapiFn.create_eventset 0,
            Ev.papi (PapiFn.add_event Preset.PAPI_L1_DCM) 0,
            Ev.papi (PapiFn.add_event Preset.PAPI_L2_DCM) 0,
            Ev.papi PapiFn.start 0, Ev.papi PapiFn.stop 0, Ev.l1dcm 105, Ev.l2dcm 45,
            Ev.papi PapiFn.reset 0,
            Ev.papi (PapiFn.remove_event Preset.PAPI_L1_DCM) 0,
            Ev.papi (PapiFn.remove_event Preset.PAPI_L2_DCM) 0,
            Ev.papi PapiFn.destroy_eventset 0])) := by
  refine ⟨⟨by rfl, by rfl, ?_, ?_⟩, ⟨fun _ => rfl, by decide⟩, fun _ => rfl, by decide⟩
  · intro fuel
    exact forStep_zero_step fuel 0 4 (by decide) _ _
  · intro fuel
    cases fuel with
    | zero => rfl
    | succ fuel => rfl

/-- C10, amended. In a turn of the menu loop with a non-zero selection whose kernel step
returns (`stuck` is not set after it), the turn consists of the menu, the part up to the
kernel (`main_run`) and then, once each and in this order: `PAPI_stop`, its error line if it
fails, the print of the L1 DCM and of the L2 DCM value, `PAPI_reset`, its error line if it
fails; the PAPI calls and count prints of the whole turn are the start, the stop, the two
prints and the reset. In a counter model where `PAPI_reset` zeroes the accumulators, the
accumulators are zero after the turn, at the head of every turn that follows a turn, and at
the head of every turn of a loop that is entered with zero accumulators; and if the
`PAPI_stop` of the turn retrieves the accumulators into `values`, the values printed are the
accumulators at the stop. -/
theorem C10_stop_print_reset {σ : Type} (P : Papi σ) (d : Driver σ)
    (hop : (main_menu d).op ≠ 0) (hret : (main_run P (main_menu d)).stuck = false) :
    (main_turn P d).1.trace = (main_run P (main_menu d)).trace ++
      (Ev.papi PapiFn.stop
          (P.PAPI_stop (main_run P (main_menu d)).papi (main_run P (main_menu d)).values).1 ::
        (if (P.PAPI_stop (main_run P (main_menu d)).papi
            (main_run P (main_menu d)).values).1 ≠ PAPI_OK
          then [Ev.out "ERROR: Stop PAPI", Ev.out "\n"] else [])) ++
      [Ev.l1dcm (main_turn P d).1.values.1, Ev.l2dcm (main_turn P d).1.values.2] ++
      (Ev.papi PapiFn.reset (P.PAPI_reset (P.PAPI_stop (main_run P (main_menu d)).papi
          (main_run P (main_menu d)).values).2.2).1 ::
        (if (P.PAPI_reset (P.PAPI_stop (main_run P (main_menu d)).papi
            (main_run P (main_menu d)).values).2.2).1 ≠ PAPI_OK
          then [Ev.out "FAIL reset", Ev.out "\n"] else [])) ∧
    measurement (main_turn P d).1.trace = measurement d.trace ++
      [Ev.papi PapiFn.start (P.PAPI_start (main_menu d).papi).1,
        Ev.papi PapiFn.stop
          (P.PAPI_stop (main_run P (main_menu d)).papi (main_run P (main_menu d)).values).1,
        Ev.l1dcm (main_turn P d).1.values.1, Ev.l2dcm (main_turn P d).1.values.2,
        Ev.papi PapiFn.reset (P.PAPI_reset (P.PAPI_stop (main_run P (main_menu d)).papi
          (main_run P (main_menu d)).values).2.2).1] ∧
    ∀ acc : σ → Int × Int, (∀ s, acc (P.PAPI_reset s).2 = (0, 0)) →
      acc (main_turn P d).1.papi = (0, 0) ∧
      (∀ (n : Nat) (d0 : Driver σ), main_after P (n + 1) d0 = some d → acc d.papi = (0, 0)) ∧
      (∀ (n : Nat) (d0 : Driver σ), acc d0.papi = (0, 0) → main_after P n d0 = some d →
        acc d.papi = (0, 0)) ∧
      ((P.PAPI_stop (main_run P (main_menu d)).papi (main_run P (main_menu d)).values).2.1 =
          acc (main_run P (main_menu d)).papi →
        (main_turn P d).1.values = acc (main_run P (main_menu d)).papi) := by
  rw [main_turn_nonzero P d hop]
  have htrace := main_collect_trace P (main_run P (main_menu d)) hret
  refine ⟨?_, ?_, ?_⟩
  · simp only [htrace, (main_collect_fields P _ hret).2.1]
  · rw [htrace]
    simp only [measurement_append, main_run_measurement, main_menu_measurement,
      (main_collect_fields P _ hret).2.1]
    by_cases h1 : (P.PAPI_stop (main_run P (main_menu d)).papi
        (main_run P (main_menu d)).values).1 = PAPI_OK <;>
      by_cases h2 : (P.PAPI_reset (P.PAPI_stop (main_run P (main_menu d)).papi
        (main_run P (main_menu d)).values).2.2).1 = PAPI_OK <;>
      simp [h1, h2, measurement]
  · intro acc hP
    refine ⟨?_, ?_, ?_, ?_⟩
    · simp only [(main_collect_fields P _ hret).1]
      exact hP _
    · intro n d0 h
      exact main_after_succ_acc P acc hP n d0 d h
    · intro n d0 h0 h
      exact main_after_acc P acc hP n d0 d h0 h
    · intro h
      simp only [(main_collect_fields P _ hret).2.1]
      exact h

/-- C10 amended, on the input `1 3 2 3 0`: the second turn, which runs `OnMultLine(3, 3)`
after `OnMult(3, 3)`, prints the counts 10 and 3 of its own kernel and leaves zero
accumulators. -/
theorem C10_stop_print_reset_witness :
    ((main_menu (main_turn (smallPapi 117440512 117440512 0 exampleCost)
        (driverAt 1 [1, 3, 2, 3, 0])).1).op ≠ 0 ∧
      (main_run (smallPapi 117440512 117440512 0 exampleCost)
        (main_menu (main_turn (smallPapi 117440512 117440512 0 exampleCost)
          (driverAt 1 [1, 3, 2, 3, 0])).1)).stuck = false) ∧
    (∀ s, ((smallPapi 117440512 117440512 0 exampleCost).PAPI_reset s).2.acc = (0, 0)) ∧
    (main_turn (smallPapi 117440512 117440512 0 exampleCost)
      (driverAt 1 [1, 3, 2, 3, 0])).1.values = (100, 40) ∧
    (main_turn (smallPapi 117440512 117440512 0 exampleCost)
      (main_turn (smallPapi 117440512 117440512 0 exampleCost)
        (driverAt 1 [1, 3, 2, 3, 0])).1).1.values = (10, 3) ∧
    (main_turn (smallPapi 117440512 117440512 0 exampleCost)
      (main_turn (smallPapi 117440512 117440512 0 exampleCost)
        (driverAt 1 [1, 3, 2, 3, 0])).1).1.papi.acc = (0, 0) :=
  ⟨⟨by decide, by decide⟩, fun _ => rfl, by decide,
    (((C10_stop_print_reset (smallPapi 117440512 117440512 0 exampleCost)
      (main_turn (smallPapi 117440512 117440512 0 exampleCost)
        (driverAt 1 [1, 3, 2, 3, 0])).1 (by decide) (by decide)).2.2 Counters.acc
          (fun _ => rfl)).2.2.2 (by rfl)).trans (by decide),
    ((C10_stop_print_reset (smallPapi 117440512 117440512 0 exampleCost)
      (main_turn (smallPapi 117440512 117440512 0 exampleCost)
        (driverAt 1 [1, 3, 2, 3, 0])).1 (by decide) (by decide)).2.2 Counters.acc
          (fun _ => rfl)).1⟩

/-- C11, as stated, fails in two ways. For a non-zero selection outside 1..5, as on the
input `7 3 0`, the start is followed by the stop with no kernel invocation in between. And
on the input `3 4 0` the start is followed by the invocation `OnMultBlock(4, 4, 0)`, which
does not return: no stop follows, whatever the number of turns allowed. -/
theorem C11_no_kernel_or_no_stop :
    ((main (smallPapi 117440512 117440512 0 exampleCost) 2 ⟨false, (0, 0)⟩ [7, 3, 0]
        7 7 7 7 (7, 7)).map (fun r => marks r.2) = some [Mark.start, Mark.stop] ∧
      bracketedOne [Mark.start, Mark.stop] = false) ∧
    (marks (main_turn (smallPapi 117440512 117440512 0 exampleCost)
        (driverAt 1 [3, 4, 0])).1.trace = [Mark.start, Mark.kernel] ∧
      (main_turn (smallPapi 117440512 117440512 0 exampleCost)
        (driverAt 1 [3, 4, 0])).1.stuck = true ∧
      kernelCalls (main_turn (smallPapi 117440512 117440512 0 exampleCost)
        (driverAt 1 [3, 4, 0])).1.trace = [Call.OnMultBlock 4 4 0] ∧
      (∀ fuel : Nat, OnMultBlock_mult fuel 4 4 0 example4 = none) ∧
      ∀ fuel : Nat, main (smallPapi 117440512 117440512 0 exampleCost) fuel ⟨false, (0, 0)⟩
        [3, 4, 0] 7 7 7 7 (7, 7) = none) := by
  refine ⟨by decide, by decide, by decide, by decide, ?_, ?_⟩
  · intro fuel
    exact forStep_zero_step fuel 0 4 (by decide) _ _
  · intro fuel
    cases fuel with
    | zero => rfl
    | succ fuel => rfl

/-- C11, amended. In every turn of the menu loop the starts, kernel invocations and stops
are: nothing for the selection 0; otherwise the start, then one kernel invocation if the
selection is in 1..5 and none if it is not, then the stop, unless the kernel invocation does
not return (`stuck`), in which case nothing follows it. So in every run of `main` that ends
each start is followed by its stop with at most one kernel invocation in between, and at the
head of every turn of the menu loop, however long it runs, the same holds of the events so
far; and the event set is never started while it is started, the turn that follows
included. -/
theorem C11_bracketing {σ : Type} (P : Papi σ) :
    (∀ d : Driver σ, marks (main_turn P d).1.trace = marks d.trace ++
      (if (main_menu d).op = 0 then []
        else Mark.start ::
          ((if 1 ≤ (main_menu d).op ∧ (main_menu d).op ≤ 5 then [Mark.kernel] else []) ++
            (if (main_run P (main_menu d)).stuck then [] else [Mark.stop])))) ∧
    (∀ (fuel : Nat) (s0 : σ) (input : List Int) (lin col blockSize ret : Int)
      (values : Int × Int) (r : Int × List Ev),
      main P fuel s0 input lin col blockSize ret values = some r →
        bracketed (marks r.2) = true ∧ noRestart false (marks r.2) = true) ∧
    ∀ (n : Nat) (s0 : σ) (input : List Int) (lin col blockSize ret : Int)
      (values : Int × Int) (d : Driver σ),
      main_after P n (main_setup P
        { papi := s0
          stdin := { rest := input, failed := false }
          op := 0
          lin := lin
          col := col
          blockSize := blockSize
          values := values
          ret := ret
          trace := [] }) = some d →
        d.stuck = false ∧ bracketed (marks d.trace) = true ∧
        noRestart false (marks (main_turn P d).1.trace) = true ∧
        ((main_turn P d).1.stuck = false → bracketed (marks (main_turn P d).1.trace) = true) := by
  refine ⟨marks_turn P, ?_, ?_⟩
  · intro fuel s0 input lin col blockSize ret values r hr
    unfold main at hr
    simp only at hr
    split at hr
    · simp at hr
    · next d hd =>
      simp only [Option.some.injEq] at hr
      rw [← hr]
      simp only [marks_teardown]
      have hb : bracketed (marks d.trace) = true := by
        refine bracketed_loop P fuel _ d ?_ hd
        rw [marks_setup]
        rfl
      refine ⟨hb, ?_⟩
      have h := noRestart_append (marks d.trace) [] hb
      rw [List.append_nil] at h
      rw [h]
      rfl
  · intro n s0 input lin col blockSize ret values d hd
    have hb : bracketed (marks d.trace) = true := by
      refine bracketed_after P n _ d ?_ hd
      rw [marks_setup]
      rfl
    refine ⟨main_after_stuck P n _ d ?_ hd, hb, noRestart_turn P d hb,
      fun hs => bracketed_turn P d hb hs⟩
    rw [main_setup_stuck]

/-- C11 amended, on the input `1 3 7 3 0` (one bracket with a kernel, one without) and at
the head of the first turn on the input `3 4 0`: the turn that follows is stuck in
`OnMultBlock(4, 4, 0)` after the start, and starts the event set once. -/
theorem C11_bracketing_witness :
    (main (smallPapi 117440512 117440512 0 exampleCost) 3 ⟨false, (0, 0)⟩ [1, 3, 7, 3, 0]
        7 7 7 7 (7, 7) ≠ none ∧
      (main (smallPapi 117440512 117440512 0 exampleCost) 3 ⟨false, (0, 0)⟩ [1, 3, 7, 3, 0]
        7 7 7 7 (7, 7)).map (fun r => marks r.2) =
          some [Mark.start, Mark.kernel, Mark.stop, Mark.start, Mark.stop] ∧
      ∀ r, main (smallPapi 117440512 117440512 0 exampleCost) 3 ⟨false, (0, 0)⟩
        [1, 3, 7, 3, 0] 7 7 7 7 (7, 7) = some r →
          bracketed (marks r.2) = true ∧ noRestart false (marks r.2) = true) ∧
    ((main_turn (smallPapi 117440512 117440512 0 exampleCost)
        (main_setup (smallPapi 117440512 117440512 0 exampleCost)
          { papi := ⟨false, (0, 0)⟩
            stdin := { rest := [3, 4, 0], failed := false }
            op := 0
            lin := 7
            col := 7
            blockSize := 7
            values := (7, 7)
            ret := 7
            trace := [] })).1.stuck = true ∧
      noRestart false (marks (main_turn (smallPapi 117440512 117440512 0 exampleCost)
        (main_setup (smallPapi 117440512 117440512 0 exampleCost)
          { papi := ⟨false, (0, 0)⟩
            stdin := { rest := [3, 4, 0], failed := false }
            op := 0
            lin := 7
            col := 7
            blockSize := 7
            values := (7, 7)
            ret := 7
            trace := [] })).1.trace) = true ∧
      marks (main_turn (smallPapi 117440512 117440512 0 exampleCost)
        (main_setup (smallPapi 117440512 117440512 0 exampleCost)
          { papi := ⟨false, (0, 0)⟩
            stdin := { rest := [3, 4, 0], failed := false }
            op := 0
            lin := 7
            col := 7
            blockSize := 7
            values := (7, 7)
            ret := 7
            trace := [] })).1.trace = [Mark.start, Mark.kernel]) :=
  ⟨⟨by decide, by decide,
      (C11_bracketing (smallPapi 117440512 117440512 0 exampleCost)).2.1 3 ⟨false, (0, 0)⟩
        [1, 3, 7, 3, 0] 7 7 7 7 (7, 7)⟩,
    by decide,
    ((C11_bracketing (smallPapi 117440512 117440512 0 exampleCost)).2.2 0 ⟨false, (0, 0)⟩
      [3, 4, 0] 7 7 7 7 (7, 7) _ rfl).2.2.1,
    by decide⟩

/-! ## Rounding, allocation and the checked calls -/

theorem round53_of_lt (x : Int) (h : x.natAbs < 2 ^ 53) : round53 x = x := by
  have he : droppedBits 971 0 x.natAbs = 0 := by
    unfold droppedBits
    simp only [Nat.add_zero, h, if_true]
  unfold round53
  simp only [he, pow_zero, Nat.div_one, Nat.mod_one, Nat.mul_zero, Nat.mul_one]
  have hf : ¬ ((1 : Nat) < 0 ∨ ((0 : Nat) = 1 ∧ x.natAbs % 2 = 1)) := by omega
  rw [if_neg hf]
  exact Int.sign_mul_natAbs x

theorem round53_natCast (n : Nat) (h : n < 2 ^ 53) : round53 (n : Int) = (n : Int) :=
  round53_of_lt _ (by simpa using h)

theorem F64.natCast_def (n : Nat) : ((n : Nat) : F64) = ⟨round53 (n : Int)⟩ := rfl

theorem F64.add_def (a b : F64) : a + b = ⟨round53 (a.val + b.val)⟩ := rfl

theorem F64.mul_def (a b : F64) : a * b = ⟨round53 (a.val * b.val)⟩ := rfl

theorem exactOnNat_F64 : ExactOnNat F64 where
  zero := rfl
  one := rfl
  add := by
    intro a b h
    have ha : a < 2 ^ 53 := by omega
    have hb : b < 2 ^ 53 := by omega
    rw [F64.natCast_def, F64.natCast_def, F64.natCast_def, F64.add_def,
      round53_natCast a ha, round53_natCast b hb, Nat.cast_add]
  mul := by
    intro a b ha hb _
    rw [F64.natCast_def, F64.natCast_def, F64.natCast_def, F64.mul_def,
      round53_natCast a ha, round53_natCast b hb, Nat.cast_mul]

theorem exactOnNat_of_semiring (α : Type) [Semiring α] : ExactOnNat α where
  zero := Nat.cast_zero.symm
  one := Nat.cast_one.symm
  add := fun a b _ => (Nat.cast_add a b).symm
  mul := fun a b _ _ _ => (Nat.cast_mul a b).symm

theorem allocated_eq (N : Nat) (hN : N ≤ 46340) : allocated N = N * N := by
  have h2 : N * N ≤ 46340 * 46340 := Nat.mul_le_mul hN hN
  have h3 : ((N : Int) * (N : Int)) = ((N * N : Nat) : Int) := by push_cast; rfl
  unfold allocated elementCount32
  rw [h3, wrap32_eq _ (by omega) (by omega)]
  exact Int.toNat_natCast (N * N)

theorem allocated_le (N : Nat) : allocated N ≤ 2147483647 := by
  unfold allocated elementCount32 wrap32
  omega

theorem foldl_reach {σ ι : Type} (P : σ → Prop) (f : σ → ι → σ) (l : List ι) (x : ι)
    (hx : x ∈ l) (hmono : ∀ s i, P s → P (f s i)) (hP : ∀ s, P (f s x)) (s : σ) :
    P (l.foldl f s) := by
  induction l generalizing s with
  | nil => simp at hx
  | cons y l ih =>
    rw [List.foldl_cons]
    rcases List.mem_cons.mp hx with h | h
    · subst h
      exact foldl_inv P f l (fun s i _ hs => hmono s i hs) _ (hP s)
    · exact ih h _

theorem initInputs_last_store {α : Type} [One α] [NatCast α] (N : Nat) (hN : 1 ≤ N)
    (m : Mem α) :
    Access.store Buffer.pha ((N - 1) * N + (N - 1)) ∈ (initInputs N N m).log := by
  have hx : N - 1 ∈ List.range' 0 N := by
    rw [List.mem_range'_1]
    omega
  unfold initInputs forLoop
  simp only [Nat.sub_zero]
  refine foldl_inv
    (fun m' : Mem α => Access.store Buffer.pha ((N - 1) * N + (N - 1)) ∈ m'.log) _ _ ?_ _ ?_
  · intro s i _ hs
    refine foldl_inv
      (fun m' : Mem α => Access.store Buffer.pha ((N - 1) * N + (N - 1)) ∈ m'.log) _ _ ?_ _ hs
    intro s j _ hs
    exact List.mem_append_left _ hs
  · refine foldl_reach
      (fun m' : Mem α => Access.store Buffer.pha ((N - 1) * N + (N - 1)) ∈ m'.log) _ _
      (N - 1) hx ?_ ?_ m
    · intro s i hs
      refine foldl_inv
        (fun m' : Mem α => Access.store Buffer.pha ((N - 1) * N + (N - 1)) ∈ m'.log) _ _ ?_ _ hs
      intro s j _ hs
      exact List.mem_append_left _ hs
    · intro s
      refine foldl_reach
        (fun m' : Mem α => Access.store Buffer.pha ((N - 1) * N + (N - 1)) ∈ m'.log) _ _
        (N - 1) hx ?_ ?_ s
      · intro s j hs
        exact List.mem_append_left _ hs
      · intro s
        exact List.mem_append_right _ (List.mem_singleton.mpr rfl)

theorem initInputs_not_within {α : Type} [One α] [NatCast α] (N : Nat) (hN : 46341 ≤ N)
    (m : Mem α) : ¬ Within (allocated N) (initInputs N N m).log := by
  intro h
  have h1 := h _ (initInputs_last_store N (by omega) m)
  have h2 := allocated_le N
  have h3 : 46341 * 46341 ≤ N * N := Nat.mul_le_mul hN hN
  have h4 : (N - 1) * N + (N - 1) + 1 = N * N := by
    have : (N - 1 + 1) * N = N * N := by rw [Nat.sub_add_cancel (by omega)]
    rw [Nat.add_mul] at this
    omega
  simp only [Access.off] at h1
  omega

theorem mem_checked_of_within {α : Type} (size : Nat) (m : Mem α) (h : Within size m.log) :
    m.checked size = some m :=
  if_pos h

theorem mem_checked_eq_none {α : Type} (size : Nat) (m : Mem α) (h : ¬ Within size m.log) :
    m.checked size = none :=
  if_neg h

theorem run_checked_of_within {α : Type} (size : Nat) (r : Run α)
    (h : Within size r.mem.log) : r.checked size = some r :=
  if_pos h

theorem OnMult_call_eq {α : Type} [Zero α] [One α] [NatCast α] [Add α] [Mul α]
    (CLOCKS_PER_SEC : Int) (N : Nat) (hN : N ≤ 46340) (a0 b0 c0 : Buf α) (Time1 Time2 : Int) :
    OnMult_call CLOCKS_PER_SEC N N a0 b0 c0 Time1 Time2 =
      some (OnMult CLOCKS_PER_SEC N N a0 b0 c0 Time1 Time2) := by
  have h1 := (within_setup N a0 b0 c0).1
  have h2 := within_OnMult_mult N _ h1
  have h3 := within_report N _ [Out.text "Time: ",
    Out.seconds (clockSeconds CLOCKS_PER_SEC Time1 Time2), Out.text " seconds\n"] h2
  unfold OnMult_call
  rw [allocated_eq N hN, mem_checked_of_within _ _ h1]
  simp only [Option.bind_eq_bind, Option.some_bind]
  rw [mem_checked_of_within _ _ h2]
  simp only [Option.some_bind]
  rw [run_checked_of_within _ _ h3]
  rfl

theorem OnMultLine_call_eq {α : Type} [Zero α] [One α] [NatCast α] [Add α] [Mul α]
    (CLOCKS_PER_SEC : Int) (N : Nat) (hN : N ≤ 46340) (a0 b0 : Buf α) (Time1 Time2 : Int) :
    OnMultLine_call CLOCKS_PER_SEC N N a0 b0 Time1 Time2 =
      some (OnMultLine CLOCKS_PER_SEC N N a0 b0 Time1 Time2) := by
  have h1 := (within_setup N a0 b0 (fun _ => (0 : α))).2
  have h2 := within_OnMultLine_mult N _ h1
  have h3 := within_report N _ [Out.text "Time: ",
    Out.seconds (clockSeconds CLOCKS_PER_SEC Time1 Time2), Out.text " seconds\n",
    Out.text "Performance: ",
    Out.num (OnMultLine_gflops N N (clockSeconds CLOCKS_PER_SEC Time1 Time2)),
    Out.text " GFLOPS", Out.endl] h2
  unfold OnMultLine_call
  rw [allocated_eq N hN, mem_checked_of_within _ _ h1]
  simp only [Option.bind_eq_bind, Option.some_bind]
  rw [mem_checked_of_within _ _ h2]
  simp only [Option.some_bind]
  rw [run_checked_of_within _ _ h3]
  rfl

theorem OnMultBlock_call_eq {α : Type} [Zero α] [One α] [NatCast α] [Add α] [Mul α]
    (CLOCKS_PER_SEC : Int) (N bkSize fuel : Nat) (hN : N ≤ 46340) (hbk : 1 ≤ bkSize)
    (hfuel : N < fuel) (a0 b0 : Buf α) (Time1 Time2 : Int) :
    ∃ r, OnMultBlock CLOCKS_PER_SEC fuel N N bkSize a0 b0 Time1 Time2 = some r ∧
      OnMultBlock_call CLOCKS_PER_SEC fuel N N bkSize a0 b0 Time1 Time2 = some r ∧
      Within (N * N) r.mem.log := by
  have h1 := (within_setup N a0 b0 (fun _ => (0 : α))).2
  obtain ⟨m', hm, h2⟩ := within_OnMultBlock_mult N bkSize fuel hbk hfuel _ h1
  have h3 := within_report N m' [Out.text "Time: ",
    Out.seconds (clockSeconds CLOCKS_PER_SEC Time1 Time2), Out.text " seconds\n"] h2
  refine ⟨_, ?_, ?_, h3⟩
  · unfold OnMultBlock
    simp only [hm]
  · unfold OnMultBlock_call
    rw [allocated_eq N hN, mem_checked_of_within _ _ h1]
    simp only [Option.bind_eq_bind, Option.some_bind, hm]
    rw [mem_checked_of_within _ _ h2]
    simp only [Option.some_bind]
    rw [run_checked_of_within _ _ h3]

theorem OnMultLineOMP1_call_eq {α : Type} [Zero α] [One α] [NatCast α] [Add α] [Mul α]
    (N : Nat) (hN : N ≤ 46340) (sched : List Nat) (hs : IsSchedule N sched) (a0 b0 : Buf α)
    (Time1 Time2 : ℚ) :
    OnMultLineOMP1_call N N sched a0 b0 Time1 Time2 =
      some (OnMultLineOMP1 N N sched a0 b0 Time1 Time2) := by
  have h1 := (within_setup N a0 b0 (fun _ => (0 : α))).2
  have h2 := within_OnMultLineOMP1_mult N sched hs _ h1
  have h3 := within_report N _ [Out.text "Time: ", Out.seconds (Dbl.fin (Time2 - Time1)),
    Out.text " seconds\n"] h2
  unfold OnMultLineOMP1_call
  rw [allocated_eq N hN, mem_checked_of_within _ _ h1]
  simp only [Option.bind_eq_bind, Option.some_bind]
  rw [mem_checked_of_within _ _ h2]
  simp only [Option.some_bind]
  rw [run_checked_of_within _ _ h3]
  rfl

theorem OnMultLineOMP2_call_eq {α : Type} [Zero α] [One α] [NatCast α] [Add α] [Mul α]
    (N : Nat) (hN : N ≤ 46340) (sched : Nat → Nat → List Nat)
    (hs : ∀ i k, IsSchedule N (sched i k)) (a0 b0 : Buf α) (Time1 Time2 : ℚ) :
    OnMultLineOMP2_call N N sched a0 b0 Time1 Time2 =
      some (OnMultLineOMP2 N N sched a0 b0 Time1 Time2) := by
  have h1 := (within_setup N a0 b0 (fun _ => (0 : α))).2
  have h2 := within_OnMultLineOMP2_mult N sched hs _ h1
  have h3 := within_report N _ [Out.text "Time: ", Out.seconds (Dbl.fin (Time2 - Time1)),
    Out.text " seconds\n"] h2
  unfold OnMultLineOMP2_call
  rw [allocated_eq N hN, mem_checked_of_within _ _ h1]
  simp only [Option.bind_eq_bind, Option.some_bind]
  rw [mem_checked_of_within _ _ h2]
  simp only [Option.some_bind]
  rw [run_checked_of_within _ _ h3]
  rfl

theorem calls_fault {α : Type} [Zero α] [One α] [NatCast α] [Add α] [Mul α] (N : Nat)
    (hN : 46341 ≤ N) (CLOCKS_PER_SEC : Int) (a0 b0 c0 : Buf α) (Time1 Time2 : Int)
    (t1 t2 : ℚ) (fuel bkSize : Nat) (sched1 : List Nat) (sched2 : Nat → Nat → List Nat) :
    OnMult_call CLOCKS_PER_SEC N N a0 b0 c0 Time1 Time2 = none ∧
    OnMultLine_call CLOCKS_PER_SEC N N a0 b0 Time1 Time2 = none ∧
    OnMultBlock_call CLOCKS_PER_SEC fuel N N bkSize a0 b0 Time1 Time2 = none ∧
    OnMultLineOMP1_call N N sched1 a0 b0 t1 t2 = none ∧
    OnMultLineOMP2_call N N sched2 a0 b0 t1 t2 = none := by
  have h1 : (OnMult_setup N N a0 b0 c0).checked (allocated N) = none :=
    mem_checked_eq_none _ _ (initInputs_not_within N hN _)
  have h2 : (calloc_setup N N a0 b0).checked (allocated N) = none :=
    mem_checked_eq_none _ _ (initInputs_not_within N hN _)
  unfold OnMult_call OnMultLine_call OnMultBlock_call OnMultLineOMP1_call OnMultLineOMP2_call
  rw [h1, h2]
  exact ⟨rfl, rfl, rfl, rfl, rfl⟩

theorem OnMultBlock_call_stuck {α : Type} [Zero α] [One α] [NatCast α] [Add α] [Mul α]
    (CLOCKS_PER_SEC : Int) (fuel N : Nat) (hN : 1 ≤ N) (a0 b0 : Buf α) (Time1 Time2 : Int) :
    OnMultBlock_call CLOCKS_PER_SEC fuel N N 0 a0 b0 Time1 Time2 = none := by
  unfold OnMultBlock_call OnMultBlock_mult
  cases (calloc_setup N N a0 b0).checked (allocated N) with
  | none => rfl
  | some m =>
    simp only [Option.bind_eq_bind, Option.some_bind]
    rw [forStep_zero_step fuel 0 N hN]
    rfl

theorem OnMultBlock_call_zero {α : Type} [Zero α] [One α] [NatCast α] [Add α] [Mul α]
    (CLOCKS_PER_SEC : Int) (bkSize : Nat) (a0 b0 : Buf α) (Time1 Time2 : Int) :
    (OnMultBlock_call CLOCKS_PER_SEC 1 0 0 bkSize a0 b0 Time1 Time2).isSome = true := by
  rfl

/-- For dimensions and block sizes in the natural numbers, `Call.returns` tells whether the
call of the kernel, with its allocations, has a result (the blocked kernel: for some amount
of fuel). -/
theorem returns_iff {α : Type} [Zero α] [One α] [NatCast α] [Add α] [Mul α] (N bkSize : Nat)
    (CLOCKS_PER_SEC : Int) (a0 b0 c0 : Buf α) (Time1 Time2 : Int) (t1 t2 : ℚ)
    (sched1 : List Nat) (hs1 : IsSchedule N sched1) (sched2 : Nat → Nat → List Nat)
    (hs2 : ∀ i k, IsSchedule N (sched2 i k)) :
    ((Call.OnMult N N).returns = true ↔
      (OnMult_call CLOCKS_PER_SEC N N a0 b0 c0 Time1 Time2).isSome = true) ∧
    ((Call.OnMultLine N N).returns = true ↔
      (OnMultLine_call CLOCKS_PER_SEC N N a0 b0 Time1 Time2).isSome = true) ∧
    ((Call.OnMultBlock N N bkSize).returns = true ↔
      ∃ fuel, (OnMultBlock_call CLOCKS_PER_SEC fuel N N bkSize a0 b0 Time1 Time2).isSome =
        true) ∧
    ((Call.OnMultLineOMP1 N N).returns = true ↔
      (OnMultLineOMP1_call N N sched1 a0 b0 t1 t2).isSome = true) ∧
    ((Call.OnMultLineOMP2 N N).returns = true ↔
      (OnMultLineOMP2_call N N sched2 a0 b0 t1 t2).isSome = true) := by
  by_cases hN : N ≤ 46340
  · have hZ : ((N : Int) ≤ 46340) := by exact_mod_cast hN
    refine ⟨?_, ?_, ?_, ?_, ?_⟩
    · simp [Call.returns, hZ, OnMult_call_eq CLOCKS_PER_SEC N hN a0 b0 c0 Time1 Time2]
    · simp [Call.returns, hZ, OnMultLine_call_eq CLOCKS_PER_SEC N hN a0 b0 Time1 Time2]
    · by_cases hbk : 1 ≤ bkSize
      · have hB : ((1 : Int) ≤ (bkSize : Int)) := by exact_mod_cast hbk
        obtain ⟨r, _, hc, _⟩ := OnMultBlock_call_eq CLOCKS_PER_SEC N bkSize (N + 1) hN hbk
          (Nat.lt_succ_self N) a0 b0 Time1 Time2
        simp only [Call.returns, hZ, hB, and_self, or_true, decide_True, true_iff]
        exact ⟨N + 1, by rw [hc]; rfl⟩
      · have hbk0 : bkSize = 0 := by omega
        subst hbk0
        by_cases hN0 : N = 0
        · subst hN0
          simp only [Call.returns, Nat.cast_zero, le_refl, true_or, decide_True, true_iff]
          exact ⟨1, OnMultBlock_call_zero CLOCKS_PER_SEC 0 a0 b0 Time1 Time2⟩
        · have hN1 : 1 ≤ N := by omega
          have hZ1 : ¬ ((N : Int) ≤ 0) := by omega
          simp only [Call.returns, hZ1, Nat.cast_zero, false_or, hZ, true_and]
          constructor
          · intro h
            simp at h
          · rintro ⟨fuel, h⟩
            rw [OnMultBlock_call_stuck CLOCKS_PER_SEC fuel N hN1 a0 b0 Time1 Time2] at h
            simp at h
    · simp [Call.returns, hZ, OnMultLineOMP1_call_eq N hN sched1 hs1 a0 b0 t1 t2]
    · simp [Call.returns, hZ, OnMultLineOMP2_call_eq N hN sched2 hs2 a0 b0 t1 t2]
  · have hZ : ¬ ((N : Int) ≤ 46340) := by omega
    have hZ0 : ¬ ((N : Int) ≤ 0) := by omega
    have h := fun fuel => calls_fault N (by omega) CLOCKS_PER_SEC a0 b0 c0 Time1 Time2 t1 t2
      fuel bkSize sched1 sched2
    refine ⟨?_, ?_, ?_, ?_, ?_⟩
    · simp [Call.returns, hZ, (h 0).1]
    · simp [Call.returns, hZ, (h 0).2.1]
    · simp [Call.returns, hZ, hZ0, fun fuel => (h fuel).2.2.1]
    · simp [Call.returns, hZ, (h 0).2.2.2.1]
    · simp [Call.returns, hZ, (h 0).2.2.2.2]

/-! ## The kernels on the generator inputs -/

theorem sum_succ_le (n N : Nat) (h : n ≤ N) (hN : N ≤ 46340) :
    ∑ k in Finset.range n, (k + 1) < 2 ^ 53 := by
  rw [sum_succ]
  have h1 : n * (n + 1) ≤ 46340 * 46341 := Nat.mul_le_mul (by omega) (by omega)
  have h2 : n * (n + 1) / 2 ≤ n * (n + 1) := Nat.div_le_self _ _
  have h3 : 46340 * 46341 < 2 ^ 53 := by decide
  omega

theorem generator_fold_exact {α : Type} [Zero α] [One α] [NatCast α] [Add α] [Mul α]
    (hα : ExactOnNat α) (N : Nat) (hN : N ≤ 46340) (n : Nat) (hn : n ≤ N) :
    (List.range n).foldl (fun (v : α) k => v + 1 * ((k + 1 : Nat) : α)) 0 =
      ((∑ k in Finset.range n, (k + 1) : Nat) : α) := by
  induction n with
  | zero =>
    simp only [List.range_zero, List.foldl_nil, Finset.range_zero, Finset.sum_empty]
    exact hα.zero
  | succ n ih =>
    have hb := sum_succ_le (n + 1) N hn hN
    rw [Finset.sum_range_succ] at hb
    rw [List.range_succ, List.foldl_append, ih (by omega), List.foldl_cons, List.foldl_nil,
      hα.one, hα.mul 1 (n + 1) (by decide) (by omega) (by omega), Nat.one_mul,
      hα.add _ _ hb, Finset.sum_range_succ]

theorem generator_accumulate_exact {α : Type} [Zero α] [One α] [NatCast α] [Add α] [Mul α]
    (hα : ExactOnNat α) (N : Nat) (hN : N ≤ 46340) (a0 b0 : Buf α) (i j : Nat)
    (hi : i < N) (hj : j < N) :
    accumulate N (fun o => if o / N < N then 1 else a0 o)
      (fun o => if o / N < N then ((o / N + 1 : Nat) : α) else b0 o) i j 0 =
      ((N * (N + 1) / 2 : Nat) : α) := by
  unfold accumulate
  rw [foldl_congr_mem _ (fun (v : α) k => v + 1 * ((k + 1 : Nat) : α)) (List.range N)]
  · rw [generator_fold_exact hα N hN N (Nat.le_refl N), sum_succ]
  · intro v k hk
    have hk := List.mem_range.mp hk
    simp only [offset_div N k j hj, offset_div N i k hk, hk, hi, if_true]

theorem lineResult_generator_exact {α : Type} [Zero α] [One α] [NatCast α] [Add α] [Mul α]
    (hα : ExactOnNat α) (N : Nat) (hN : N ≤ 46340) (a0 b0 : Buf α) (i j : Nat)
    (hi : i < N) (hj : j < N) :
    lineResult N (calloc_setup N N a0 b0).pha (calloc_setup N N a0 b0).phb
      (calloc_setup N N a0 b0).phc (i * N + j) = ((N * (N + 1) / 2 : Nat) : α) := by
  obtain ⟨h1, h2, h3⟩ := initInputs_spec N
    ({ pha := a0, phb := b0, phc := fun _ => 0, log := [] } : Mem α)
  unfold calloc_setup lineResult
  rw [h1, h2, h3]
  simp only [offset_div N i j hj, offset_mod N i j hj, hi, if_true]
  exact generator_accumulate_exact hα N hN a0 b0 i j hi hj

/-! ## The first access of a loop nest -/

theorem OnMultLine_mult_first {α : Type} [Add α] [Mul α] (N : Nat) (hN : 1 ≤ N) (m : Mem α) :
    Access.load Buffer.phc (0 * N + 0) ∈ (OnMultLine_mult N N m).log := by
  have hx : 0 ∈ List.range' 0 N := by
    rw [List.mem_range'_1]
    omega
  have hmono : ∀ (s : Mem α) (c a b : Nat),
      Access.load Buffer.phc (0 * N + 0) ∈ s.log →
        Access.load Buffer.phc (0 * N + 0) ∈ (s.accumC c a b).log :=
    fun s c a b hs => List.mem_append_left _ hs
  unfold OnMultLine_mult forLoop
  simp only [Nat.sub_zero]
  refine foldl_reach (fun m' : Mem α => Access.load Buffer.phc (0 * N + 0) ∈ m'.log) _ _
    0 hx ?_ ?_ m
  · intro s i hs
    refine foldl_inv (fun m' : Mem α => Access.load Buffer.phc (0 * N + 0) ∈ m'.log) _ _ ?_ _ hs
    intro s k _ hs
    refine foldl_inv (fun m' : Mem α => Access.load Buffer.phc (0 * N + 0) ∈ m'.log) _ _ ?_ _ hs
    intro s j _ hs
    exact hmono s _ _ _ hs
  · intro s
    refine foldl_reach (fun m' : Mem α => Access.load Buffer.phc (0 * N + 0) ∈ m'.log) _ _
      0 hx ?_ ?_ s
    · intro s k hs
      refine foldl_inv (fun m' : Mem α => Access.load Buffer.phc (0 * N + 0) ∈ m'.log) _ _ ?_ _
        hs
      intro s j _ hs
      exact hmono s _ _ _ hs
    · intro s
      refine foldl_reach (fun m' : Mem α => Access.load Buffer.phc (0 * N + 0) ∈ m'.log) _ _
        0 hx ?_ ?_ s
      · intro s j hs
        exact hmono s _ _ _ hs
      · intro s
        refine List.mem_append_right _ ?_
        simp

theorem OnMult_mult_first {α : Type} [Zero α] [Add α] [Mul α] (N : Nat) (hN : 1 ≤ N)
    (m : Mem α) : Access.load Buffer.pha (0 * N + 0) ∈ (OnMult_mult N N m).log := by
  have hx : 0 ∈ List.range' 0 N := by
    rw [List.mem_range'_1]
    omega
  have hk : ∀ (i j : Nat) (s : α × Mem α), Access.load Buffer.pha (0 * N + 0) ∈ s.2.log →
      Access.load Buffer.pha (0 * N + 0) ∈ ((List.range' 0 N).foldl
        (fun (s : α × Mem α) k => accumTemp s (i * N + k) (k * N + j)) s).2.log := by
    intro i j s hs
    refine foldl_inv (fun s' : α × Mem α => Access.load Buffer.pha (0 * N + 0) ∈ s'.2.log)
      _ _ ?_ _ hs
    intro s k _ hs
    exact List.mem_append_left _ hs
  unfold OnMult_mult forLoop
  simp only [Nat.sub_zero]
  refine foldl_reach (fun m' : Mem α => Access.load Buffer.pha (0 * N + 0) ∈ m'.log) _ _
    0 hx ?_ ?_ m
  · intro s i hs
    refine foldl_inv (fun m' : Mem α => Access.load Buffer.pha (0 * N + 0) ∈ m'.log) _ _ ?_ _ hs
    intro s j _ hs
    exact List.mem_append_left _ (hk i j _ hs)
  · intro s
    refine foldl_reach (fun m' : Mem α => Access.load Buffer.pha (0 * N + 0) ∈ m'.log) _ _
      0 hx ?_ ?_ s
    · intro s j hs
      exact List.mem_append_left _ (hk 0 j _ hs)
    · intro s
      refine List.mem_append_left _ ?_
      refine foldl_reach
        (fun s' : α × Mem α => Access.load Buffer.pha (0 * N + 0) ∈ s'.2.log) _ _ 0 hx ?_ ?_ _
      · intro s k hs
        exact List.mem_append_left _ hs
      · intro s
        refine List.mem_append_right _ ?_
        simp

theorem not_within_zero (log : List Access) (a : Access) (h : a ∈ log) : ¬ Within 0 log :=
  fun hw => Nat.not_lt_zero _ (hw a h)

/-- C1, as stated, fails for `N = 46341`: the `int` element count `m_ar * m_ar` wraps around
to -2147479015, the three allocations hold no element, and the first store of the
initialisation is outside them. None of the five kernels leaves an output matrix (the blocked
kernel for no amount of fuel). -/
theorem C1_fault_at_46341 :
    elementCount32 46341 = -2147479015 ∧ allocated 46341 = 0 ∧
    OnMult_call (α := F64) 1000000 46341 46341 (fun _ => 0) (fun _ => 0) (fun _ => 0) 0 0 =
      none ∧
    OnMultLine_call (α := F64) 1000000 46341 46341 (fun _ => 0) (fun _ => 0) 0 0 = none ∧
    (∀ fuel : Nat, OnMultBlock_call (α := F64) 1000000 fuel 46341 46341 1 (fun _ => 0)
      (fun _ => 0) 0 0 = none) ∧
    OnMultLineOMP1_call (α := F64) 46341 46341 (List.range 46341) (fun _ => 0) (fun _ => 0)
      0 0 = none ∧
    OnMultLineOMP2_call (α := F64) 46341 46341 (fun _ _ => List.range 46341) (fun _ => 0)
      (fun _ => 0) 0 0 = none := by
  have h := fun fuel => calls_fault (α := F64) 46341 (Nat.le_refl _) 1000000 (fun _ => 0)
    (fun _ => 0) (fun _ => 0) 0 0 0 0 fuel 1 (List.range 46341) (fun _ _ => List.range 46341)
  exact ⟨by decide, by decide, (h 0).1, (h 0).2.1, fun fuel => (h fuel).2.2.1, (h 0).2.2.2.1,
    (h 0).2.2.2.2⟩

/-- C1, amended. For `1 ≤ N ≤ 46340` and a value type whose arithmetic is exact on the
natural numbers below `2^53` (as binary64 is), every kernel, called with `m_ar = m_br = N`
(the blocked one with a block size of at least 1 and enough fuel, the OpenMP ones under any
schedule of the work-shared loop), returns and leaves `N (N + 1) / 2` in every cell `C[i][j]`,
`i, j < N`, of its output buffer; so the five outputs agree. -/
theorem C1_every_entry {α : Type} [Zero α] [One α] [NatCast α] [Add α] [Mul α]
    (hα : ExactOnNat α) (N bkSize fuel : Nat) (hN : N ≤ 46340) (hbk : 1 ≤ bkSize)
    (hfuel : N < fuel) (sched1 : List Nat) (hs1 : IsSchedule N sched1)
    (sched2 : Nat → Nat → List Nat) (hs2 : ∀ i k, IsSchedule N (sched2 i k))
    (CLOCKS_PER_SEC : Int) (a0 b0 c0 : Buf α) (Time1 Time2 : Int) (t1 t2 : ℚ)
    (i j : Nat) (hi : i < N) (hj : j < N) :
    (∃ r, OnMult_call CLOCKS_PER_SEC N N a0 b0 c0 Time1 Time2 = some r ∧
      r.mem.phc (i * N + j) = ((N * (N + 1) / 2 : Nat) : α)) ∧
    (∃ r, OnMultLine_call CLOCKS_PER_SEC N N a0 b0 Time1 Time2 = some r ∧
      r.mem.phc (i * N + j) = ((N * (N + 1) / 2 : Nat) : α)) ∧
    (∃ r, OnMultBlock_call CLOCKS_PER_SEC fuel N N bkSize a0 b0 Time1 Time2 = some r ∧
      r.mem.phc (i * N + j) = ((N * (N + 1) / 2 : Nat) : α)) ∧
    (∃ r, OnMultLineOMP1_call N N sched1 a0 b0 t1 t2 = some r ∧
      r.mem.phc (i * N + j) = ((N * (N + 1) / 2 : Nat) : α)) ∧
    (∃ r, OnMultLineOMP2_call N N sched2 a0 b0 t1 t2 = some r ∧
      r.mem.phc (i * N + j) = ((N * (N + 1) / 2 : Nat) : α)) := by
  refine ⟨⟨_, OnMult_call_eq CLOCKS_PER_SEC N hN a0 b0 c0 Time1 Time2, ?_⟩,
    ⟨_, OnMultLine_call_eq CLOCKS_PER_SEC N hN a0 b0 Time1 Time2, ?_⟩, ?_,
    ⟨_, OnMultLineOMP1_call_eq N hN sched1 hs1 a0 b0 t1 t2, ?_⟩,
    ⟨_, OnMultLineOMP2_call_eq N hN sched2 hs2 a0 b0 t1 t2, ?_⟩⟩
  · unfold OnMult
    rw [(report_spec _ _ _).2.2.1]
    obtain ⟨e1, e2, e3, _⟩ := OnMult_mult_spec N (OnMult_setup N N a0 b0 c0)
    obtain ⟨h1, h2, _⟩ := initInputs_spec N ({ pha := a0, phb := b0, phc := c0, log := [] } : Mem α)
    rw [e3]
    unfold OnMult_setup
    rw [h1, h2]
    simp only [offset_div N i j hj, offset_mod N i j hj, hi, if_true]
    exact generator_accumulate_exact hα N hN a0 b0 i j hi hj
  · unfold OnMultLine
    rw [(report_spec _ _ _).2.2.1, (OnMultLine_mult_spec N _).2.2]
    exact lineResult_generator_exact hα N hN a0 b0 i j hi hj
  · obtain ⟨r, hr, hc, _⟩ := OnMultBlock_call_eq CLOCKS_PER_SEC N bkSize fuel hN hbk hfuel a0 b0
      Time1 Time2
    refine ⟨r, hc, ?_⟩
    obtain ⟨m', hm, _, _, h3⟩ := OnMultBlock_mult_spec N bkSize hbk fuel hfuel
      (calloc_setup N N a0 b0)
    unfold OnMultBlock at hr
    simp only [hm, Option.some.injEq] at hr
    rw [← hr, (report_spec _ _ _).2.2.1, h3]
    exact lineResult_generator_exact hα N hN a0 b0 i j hi hj
  · unfold OnMultLineOMP1
    rw [(report_spec _ _ _).2.2.1, (OnMultLineOMP1_mult_spec N sched1 hs1 _).2.2]
    exact lineResult_generator_exact hα N hN a0 b0 i j hi hj
  · unfold OnMultLineOMP2
    rw [(report_spec _ _ _).2.2.1, (OnMultLineOMP2_mult_spec N sched2 hs2 _).2.2]
    exact lineResult_generator_exact hα N hN a0 b0 i j hi hj

set_option maxRecDepth 100000 in
/-- C1 amended, run in binary64 for `N = 3` (cell `C[2][1]` is 6, as are all nine cells of
each kernel) and for `N = 1` (the only cell is 1). -/
theorem C1_every_entry_witness :
    ((3 ≤ 46340 ∧ 1 ≤ 2 ∧ 3 < 4) ∧ IsSchedule 3 [2, 0, 1] ∧ IsSchedule 3 [1, 2, 0] ∧
      2 < 3 ∧ 1 < 3) ∧
    ((∃ r, OnMult_call (α := F64) 1000000 3 3 (fun _ => 0) (fun _ => 0) (fun _ => ⟨7⟩) 0 0 =
        some r ∧ r.mem.phc (2 * 3 + 1) = ((3 * (3 + 1) / 2 : Nat) : F64)) ∧
      (∃ r, OnMultLine_call (α := F64) 1000000 3 3 (fun _ => 0) (fun _ => 0) 0 0 = some r ∧
        r.mem.phc (2 * 3 + 1) = ((3 * (3 + 1) / 2 : Nat) : F64)) ∧
      (∃ r, OnMultBlock_call (α := F64) 1000000 4 3 3 2 (fun _ => 0) (fun _ => 0) 0 0 =
        some r ∧ r.mem.phc (2 * 3 + 1) = ((3 * (3 + 1) / 2 : Nat) : F64)) ∧
      (∃ r, OnMultLineOMP1_call (α := F64) 3 3 [2, 0, 1] (fun _ => 0) (fun _ => 0) 0 0 =
        some r ∧ r.mem.phc (2 * 3 + 1) = ((3 * (3 + 1) / 2 : Nat) : F64)) ∧
      (∃ r, OnMultLineOMP2_call (α := F64) 3 3 (fun _ _ => [1, 2, 0]) (fun _ => 0)
        (fun _ => 0) 0 0 = some r ∧
        r.mem.phc (2 * 3 + 1) = ((3 * (3 + 1) / 2 : Nat) : F64))) ∧
    ((3 * (3 + 1) / 2 : Nat) : F64) = ⟨6⟩ ∧
    (OnMult_call (α := F64) 1000000 3 3 (fun _ => 0) (fun _ => 0) (fun _ => ⟨7⟩) 0 0).map
      (fun r => (List.range 9).map r.mem.phc) = some (List.replicate 9 ⟨6⟩) ∧
    (OnMultLine_call (α := F64) 1000000 3 3 (fun _ => 0) (fun _ => 0) 0 0).map
      (fun r => (List.range 9).map r.mem.phc) = some (List.replicate 9 ⟨6⟩) ∧
    (OnMultBlock_call (α := F64) 1000000 4 3 3 2 (fun _ => 0) (fun _ => 0) 0 0).map
      (fun r => (List.range 9).map r.mem.phc) = some (List.replicate 9 ⟨6⟩) ∧
    (OnMultLineOMP1_call (α := F64) 3 3 [2, 0, 1] (fun _ => 0) (fun _ => 0) 0 0).map
      (fun r => (List.range 9).map r.mem.phc) = some (List.replicate 9 ⟨6⟩) ∧
    (OnMultLineOMP2_call (α := F64) 3 3 (fun _ _ => [1, 2, 0]) (fun _ => 0) (fun _ => 0)
      0 0).map (fun r => (List.range 9).map r.mem.phc) = some (List.replicate 9 ⟨6⟩) ∧
    (OnMultLine_call (α := F64) 1000000 1 1 (fun _ => 0) (fun _ => 0) 0 0).map
      (fun r => r.mem.phc 0) = some ⟨1⟩ :=
  ⟨⟨⟨by decide, by decide, by decide⟩, by decide, by decide, by decide, by decide⟩,
    C1_every_entry exactOnNat_F64 3 2 4 (by decide) (by decide) (by decide) [2, 0, 1]
      (by decide) (fun _ _ => [1, 2, 0]) (fun _ _ => (by decide : IsSchedule 3 [1, 2, 0]))
      1000000 (fun _ => 0) (fun _ => 0) (fun _ => ⟨7⟩) 0 0 0 0 2 1 (by decide) (by decide),
    by decide, by decide, by decide, by decide, by decide, by decide, by decide⟩

/-- C2, as stated, fails in two ways. In binary64 the loop nest of `OnMultLine` with `N = 2`,
`A` and `B` of ones and `C0[0][0] = 10^16` leaves `10^16` in `C[0][0]` (each of the two
additions of 1 is rounded away), while `C0[0][0] + Σ_k A[0][k] * B[k][0]` is `10^16 + 2`,
itself a binary64 number. And for `N = 46341` the buffers hold no element (the `int` element
count has wrapped around to -2147479015): the first access of the nest is outside them. -/
theorem C2_rounding_or_fault :
    (((OnMultLine_mult 2 2 roundingLine).phc (0 * 2 + 0)).val = 10000000000000000 ∧
      (roundingLine.phc (0 * 2 + 0)).val +
        ∑ k in Finset.range 2,
          (roundingLine.pha (0 * 2 + k)).val * (roundingLine.phb (k * 2 + 0)).val =
        10000000000000002 ∧
      round53 10000000000000002 = 10000000000000002) ∧
    (elementCount32 46341 = -2147479015 ∧ allocated 46341 = 0 ∧
      (OnMultLine_mult 46341 46341 roundingLine).checked (allocated 46341) = none) := by
  refine ⟨⟨by decide, by decide, by decide⟩, by decide, by decide, ?_⟩
  refine mem_checked_eq_none _ _ ?_
  have h : allocated 46341 = 0 := by decide
  rw [h]
  exact not_within_zero _ _ (OnMultLine_mult_first 46341 (by decide) roundingLine)

/-- C2, amended. For `1 ≤ N ≤ 46340` the i-k-j loop nest of `OnMultLine` with
`m_ar = m_br = N`, run on any buffers after accesses that were inside the allocation, makes
its accesses inside the allocation and ends with `C[i][j]`, for all `i, j < N`, equal to the
left-to-right accumulation `((C0[i][j] + A[i][0] * B[0][j]) + A[i][1] * B[1][j]) + ..` in the
arithmetic of the value type, where `C0` is the content of the output buffer before the nest;
`A` and `B` are left as they were. In exact arithmetic (any semiring) this accumulation is
`C0[i][j] + Σ_k A[i][k] * B[k][j]`. -/
theorem C2_line_product {α : Type} [Add α] [Mul α] (N : Nat) (hN : N ≤ 46340) (m : Mem α)
    (hm : Within (allocated N) m.log) (i j : Nat) (hi : i < N) (hj : j < N) :
    (∃ r, (OnMultLine_mult N N m).checked (allocated N) = some r ∧
      r.phc (i * N + j) = accumulate N m.pha m.phb i j (m.phc (i * N + j)) ∧
      r.pha = m.pha ∧ r.phb = m.phb) ∧
    ∀ (β : Type) [Semiring β] (A B : Buf β) (v : β),
      accumulate N A B i j v = v + ∑ k in Finset.range N, A (i * N + k) * B (k * N + j) := by
  obtain ⟨h1, h2, h3⟩ := OnMultLine_mult_spec N m
  rw [allocated_eq N hN] at hm ⊢
  refine ⟨⟨_, mem_checked_of_within _ _ (within_OnMultLine_mult N m hm), ?_, h1, h2⟩, ?_⟩
  · rw [h3]
    unfold lineResult
    simp only [offset_div N i j hj, offset_mod N i j hj, hi, if_true]
  · intro β _ A B v
    exact accumulate_eq_sum N A B i j v

/-- C2 amended, on the worked example of the source: cell `C[1][2]`, and the whole
product. -/
theorem C2_line_product_witness :
    (3 ≤ 46340 ∧ Within (allocated 3) example3.log ∧ 1 < 3 ∧ 2 < 3) ∧
    ((∃ r, (OnMultLine_mult 3 3 example3).checked (allocated 3) = some r ∧
      r.phc (1 * 3 + 2) = accumulate 3 example3.pha example3.phb 1 2 (example3.phc (1 * 3 + 2)) ∧
      r.pha = example3.pha ∧ r.phb = example3.phb) ∧
    ∀ (β : Type) [Semiring β] (A B : Buf β) (v : β),
      accumulate 3 A B 1 2 v = v + ∑ k in Finset.range 3, A (1 * 3 + k) * B (k * 3 + 2)) ∧
    accumulate 3 example3.pha example3.phb 1 2 (example3.phc (1 * 3 + 2)) = 54 ∧
    ((OnMultLine_mult 3 3 example3).checked (allocated 3)).map
        (fun r => (List.range 9).map r.phc) =
      some [30, 24, 18, 84, 69, 54, 138, 114, 90] :=
  ⟨⟨by decide, by decide, by decide, by decide⟩,
    C2_line_product 3 (by decide) example3 (by decide) 1 2 (by decide) (by decide),
    by decide, by decide⟩

/-- C4, as stated, fails in two ways. In binary64 the loop nest of `OnMult` with `N = 3`,
`A[0][0] = 10^16` and every other entry of `A` and `B` equal to 1 leaves `10^16` in
`C[0][0]`, while `Σ_k A[0][k] * B[k][0]` is `10^16 + 2`, itself a binary64 number. And for
`N = 46341` the buffers hold no element (the `int` element count has wrapped around): the
first access of the nest is outside them. -/
theorem C4_rounding_or_fault :
    (((OnMult_mult 3 3 roundingNaive).phc (0 * 3 + 0)).val = 10000000000000000 ∧
      ∑ k in Finset.range 3,
          (roundingNaive.pha (0 * 3 + k)).val * (roundingNaive.phb (k * 3 + 0)).val =
        10000000000000002 ∧
      round53 10000000000000002 = 10000000000000002) ∧
    (elementCount32 46341 = -2147479015 ∧ allocated 46341 = 0 ∧
      (OnMult_mult 46341 46341 roundingNaive).checked (allocated 46341) = none) := by
  refine ⟨⟨by decide, by decide, by decide⟩, by decide, by decide, ?_⟩
  refine mem_checked_eq_none _ _ ?_
  have h : allocated 46341 = 0 := by decide
  rw [h]
  exact not_within_zero _ _ (OnMult_mult_first 46341 (by decide) roundingNaive)

/-- C4, amended. For `1 ≤ N ≤ 46340` the i-j-k loop nest of `OnMult` with `m_ar = m_br = N`,
run on any buffers after accesses that were inside the allocation, makes its accesses inside
the allocation, stores to the cell `C[i][j]` exactly once, for all `i, j < N`, and ends with
`C[i][j]` equal to the left-to-right accumulation
`((0 + A[i][0] * B[0][j]) + A[i][1] * B[1][j]) + ..` in the arithmetic of the value type,
whatever the output buffer held before. In exact arithmetic (any semiring) this accumulation
is `Σ_k A[i][k] * B[k][j]`. -/
theorem C4_naive_product {α : Type} [Zero α] [Add α] [Mul α] (N : Nat) (hN : N ≤ 46340)
    (m : Mem α) (hm : Within (allocated N) m.log) (i j : Nat) (hi : i < N) (hj : j < N) :
    (∃ r, (OnMult_mult N N m).checked (allocated N) = some r ∧
      r.phc (i * N + j) = accumulate N m.pha m.phb i j 0 ∧
      r.log.count (Access.store Buffer.phc (i * N + j)) =
        m.log.count (Access.store Buffer.phc (i * N + j)) + 1) ∧
    ∀ (β : Type) [Semiring β] (A B : Buf β),
      accumulate N A B i j 0 = ∑ k in Finset.range N, A (i * N + k) * B (k * N + j) := by
  obtain ⟨_, _, h3, h4⟩ := OnMult_mult_spec N m
  rw [allocated_eq N hN] at hm ⊢
  refine ⟨⟨_, mem_checked_of_within _ _ (within_OnMult_mult N m hm), ?_, ?_⟩, ?_⟩
  · rw [h3]
    simp only [offset_div N i j hj, offset_mod N i j hj, hi, if_true]
  · rw [h4]
    simp only [offset_div N i j hj, hi, if_true]
  · intro β _ A B
    rw [accumulate_eq_sum, zero_add]

/-- C4 amended, on the worked example, started on an output buffer full of 7s. -/
theorem C4_naive_product_witness :
    (3 ≤ 46340 ∧ Within (allocated 3) example3.log ∧ 1 < 3 ∧ 2 < 3) ∧
    ((∃ r, (OnMult_mult 3 3 { example3 with phc := fun _ => 7 }).checked (allocated 3) =
        some r ∧
      r.phc (1 * 3 + 2) = accumulate 3 example3.pha example3.phb 1 2 0 ∧
      r.log.count (Access.store Buffer.phc (1 * 3 + 2)) =
        ([] : List Access).count (Access.store Buffer.phc (1 * 3 + 2)) + 1) ∧
    ∀ (β : Type) [Semiring β] (A B : Buf β),
      accumulate 3 A B 1 2 0 = ∑ k in Finset.range 3, A (1 * 3 + k) * B (k * 3 + 2)) ∧
    accumulate 3 example3.pha example3.phb 1 2 0 = 54 ∧
    ((OnMult_mult 3 3 { example3 with phc := fun _ => 7 }).checked (allocated 3)).map
        (fun r => (List.range 9).map r.phc) =
      some [30, 24, 18, 84, 69, 54, 138, 114, 90] :=
  ⟨⟨by decide, by decide, by decide, by decide⟩,
    C4_naive_product 3 (by decide) { example3 with phc := fun _ => 7 } (by decide) 1 2
      (by decide) (by decide),
    by decide, by decide⟩

theorem setups_fault {α : Type} [Zero α] [One α] [NatCast α] (N : Nat) (hN : 46341 ≤ N)
    (a0 b0 c0 : Buf α) :
    Access.store Buffer.pha ((N - 1) * N + (N - 1)) ∈ (OnMult_setup N N a0 b0 c0).log ∧
    ¬ Within (allocated N) (OnMult_setup N N a0 b0 c0).log ∧
    (OnMult_setup N N a0 b0 c0).checked (allocated N) = none ∧
    (calloc_setup N N a0 b0).checked (allocated N) = none :=
  ⟨initInputs_last_store N (by omega) _, initInputs_not_within N hN _,
    mem_checked_eq_none _ _ (initInputs_not_within N hN _),
    mem_checked_eq_none _ _ (initInputs_not_within N hN _)⟩

/-- C5, as stated, fails for `N = 46341`: the `int` element count `m_ar * m_ar` wraps around
to -2147479015, the buffers hold no element, and the initialisation, which stores to
`pha[46340 * 46341 + 46340]` among others, is outside them, in `OnMult` and in the four other
kernels alike. -/
theorem C5_fault_at_46341 :
    elementCount32 46341 = -2147479015 ∧ allocated 46341 = 0 ∧
    Access.store Buffer.pha ((46341 - 1) * 46341 + (46341 - 1)) ∈
      (OnMult_setup (α := F64) 46341 46341 (fun _ => 0) (fun _ => 0) (fun _ => 0)).log ∧
    (OnMult_setup (α := F64) 46341 46341 (fun _ => 0) (fun _ => 0) (fun _ => 0)).checked
      (allocated 46341) = none ∧
    (calloc_setup (α := F64) 46341 46341 (fun _ => 0) (fun _ => 0)).checked
      (allocated 46341) = none :=
  ⟨by decide, by decide,
    (setups_fault (α := F64) 46341 (Nat.le_refl _) (fun _ => 0) (fun _ => 0) (fun _ => 0)).1,
    (setups_fault (α := F64) 46341 (Nat.le_refl _) (fun _ => 0) (fun _ => 0)
      (fun _ => 0)).2.2.1,
    (setups_fault (α := F64) 46341 (Nat.le_refl _) (fun _ => 0) (fun _ => 0)
      (fun _ => 0)).2.2.2⟩

/-- C5, amended. For `1 ≤ N ≤ 46340`, with `m_ar = m_br = N` the initialisation makes its
accesses inside the allocation and leaves `A[i][j] = 1` and `B[i][j] = i + 1` for all
`i, j < N`, in `OnMult` (three `malloc`s) and in the four other kernels (`phc` from `calloc`)
alike. -/
theorem C5_generator {α : Type} [Zero α] [One α] [NatCast α] (N : Nat) (hN : N ≤ 46340)
    (a0 b0 c0 : Buf α) (i j : Nat) (hi : i < N) (hj : j < N) :
    (∃ m, (OnMult_setup N N a0 b0 c0).checked (allocated N) = some m ∧
      m.pha (i * N + j) = 1 ∧ m.phb (i * N + j) = ((i + 1 : Nat) : α)) ∧
    (∃ m, (calloc_setup N N a0 b0).checked (allocated N) = some m ∧
      m.pha (i * N + j) = 1 ∧ m.phb (i * N + j) = ((i + 1 : Nat) : α)) := by
  obtain ⟨h1, h2, _⟩ := initInputs_spec N ({ pha := a0, phb := b0, phc := c0, log := [] } : Mem α)
  obtain ⟨k1, k2, _⟩ := initInputs_spec N
    ({ pha := a0, phb := b0, phc := fun _ => 0, log := [] } : Mem α)
  obtain ⟨w1, w2⟩ := within_setup N a0 b0 c0
  rw [allocated_eq N hN]
  refine ⟨⟨_, mem_checked_of_within _ _ w1, ?_, ?_⟩, ⟨_, mem_checked_of_within _ _ w2, ?_, ?_⟩⟩
  · unfold OnMult_setup
    rw [h1]
    simp only [offset_div N i j hj, hi, if_true]
  · unfold OnMult_setup
    rw [h2]
    simp only [offset_div N i j hj, hi, if_true]
  · unfold calloc_setup
    rw [k1]
    simp only [offset_div N i j hj, hi, if_true]
  · unfold calloc_setup
    rw [k2]
    simp only [offset_div N i j hj, hi, if_true]

/-- C5 amended, for `N = 4`, cell (2, 3), and the whole of `A` and `B`. -/
theorem C5_generator_witness :
    (4 ≤ 46340 ∧ 2 < 4 ∧ 3 < 4) ∧
    ((∃ m, (OnMult_setup (α := ℤ) 4 4 (fun _ => 5) (fun _ => 6) (fun _ => 7)).checked
        (allocated 4) = some m ∧
      m.pha (2 * 4 + 3) = 1 ∧ m.phb (2 * 4 + 3) = ((2 + 1 : Nat) : ℤ)) ∧
    (∃ m, (calloc_setup (α := ℤ) 4 4 (fun _ => 5) (fun _ => 6)).checked (allocated 4) =
        some m ∧
      m.pha (2 * 4 + 3) = 1 ∧ m.phb (2 * 4 + 3) = ((2 + 1 : Nat) : ℤ))) ∧
    ((OnMult_setup (α := ℤ) 4 4 (fun _ => 5) (fun _ => 6) (fun _ => 7)).checked
        (allocated 4)).map (fun m => ((List.range 16).map m.pha, (List.range 16).map m.phb)) =
      some ([1, 1, 1, 1, 1, 1, 1, 1, 1, 1, 1, 1, 1, 1, 1, 1],
        [1, 1, 1, 1, 2, 2, 2, 2, 3, 3, 3, 3, 4, 4, 4, 4]) :=
  ⟨⟨by decide, by decide, by decide⟩,
    C5_generator 4 (by decide) (fun _ => 5) (fun _ => 6) (fun _ => 7) 2 3 (by decide)
      (by decide),
    by decide⟩

/-- C6, as stated, fails in two ways. For `N = 46341` the buffers hold no element (the `int`
element count `m_ar * m_ar` has wrapped around to -2147479015) and each kernel faults in its
initialisation, before any preview is printed. And for `N = 4` the blocked kernel with the
block size 0 never comes to its preview, whatever the fuel. -/
theorem C6_no_preview :
    (elementCount32 46341 = -2147479015 ∧ allocated 46341 = 0 ∧
      (OnMult_call (α := F64) 1000000 46341 46341 (fun _ => 0) (fun _ => 0) (fun _ => 0)
        0 0).map (fun r => printedValues r.out) = none ∧
      (OnMultLine_call (α := F64) 1000000 46341 46341 (fun _ => 0) (fun _ => 0) 0 0).map
        (fun r => printedValues r.out) = none ∧
      (∀ fuel : Nat, (OnMultBlock_call (α := F64) 1000000 fuel 46341 46341 1 (fun _ => 0)
        (fun _ => 0) 0 0).map (fun r => printedValues r.out) = none) ∧
      (OnMultLineOMP1_call (α := F64) 46341 46341 (List.range 46341) (fun _ => 0)
        (fun _ => 0) 0 0).map (fun r => printedValues r.out) = none ∧
      (OnMultLineOMP2_call (α := F64) 46341 46341 (fun _ _ => List.range 46341) (fun _ => 0)
        (fun _ => 0) 0 0).map (fun r => printedValues r.out) = none) ∧
    ∀ fuel : Nat, (OnMultBlock_call (α := F64) 1000000 fuel 4 4 0 (fun _ => 0) (fun _ => 0)
      0 0).map (fun r => printedValues r.out) = none := by
  have h := fun fuel => calls_fault (α := F64) 46341 (Nat.le_refl _) 1000000 (fun _ => 0)
    (fun _ => 0) (fun _ => 0) 0 0 0 0 fuel 1 (List.range 46341) (fun _ _ => List.range 46341)
  refine ⟨⟨by decide, by decide, ?_, ?_, ?_, ?_, ?_⟩, ?_⟩
  · rw [(h 0).1]
    rfl
  · rw [(h 0).2.1]
    rfl
  · intro fuel
    rw [(h fuel).2.2.1]
    rfl
  · rw [(h 0).2.2.2.1]
    rfl
  · rw [(h 0).2.2.2.2]
    rfl
  · intro fuel
    rw [OnMultBlock_call_stuck 1000000 fuel 4 (by decide) (fun _ => 0) (fun _ => 0) 0 0]
    rfl

/-- C6, amended. For `1 ≤ N ≤ 46340` every kernel, called with `m_ar = m_br = N` (the blocked
one with a block size of at least 1 and enough fuel, the OpenMP ones under any schedule),
returns and prints after its timing lines (which hold no matrix entry) the line
"Result matrix: " and then exactly `min(10, N)` matrix entries, the `j`-th of which,
`j = 0 .. min(10, N) - 1`, is the entry `C[0][j]` of its output buffer. -/
theorem C6_preview {α : Type} [Zero α] [One α] [NatCast α] [Add α] [Mul α]
    (N bkSize fuel : Nat) (hN : N ≤ 46340) (hbk : 1 ≤ bkSize) (hfuel : N < fuel)
    (sched1 : List Nat) (hs1 : IsSchedule N sched1) (sched2 : Nat → Nat → List Nat)
    (hs2 : ∀ i k, IsSchedule N (sched2 i k)) (CLOCKS_PER_SEC : Int) (a0 b0 c0 : Buf α)
    (Time1 Time2 : Int) (t1 t2 : ℚ) :
    (∃ r, OnMult_call CLOCKS_PER_SEC N N a0 b0 c0 Time1 Time2 = some r ∧
      (∃ pre, ShowsFirstRow N r pre) ∧
      printedValues r.out = (List.range (min 10 N)).map (fun j => r.mem.phc (0 * N + j))) ∧
    (∃ r, OnMultLine_call CLOCKS_PER_SEC N N a0 b0 Time1 Time2 = some r ∧
      (∃ pre, ShowsFirstRow N r pre) ∧
      printedValues r.out = (List.range (min 10 N)).map (fun j => r.mem.phc (0 * N + j))) ∧
    (∃ r, OnMultBlock_call CLOCKS_PER_SEC fuel N N bkSize a0 b0 Time1 Time2 = some r ∧
      (∃ pre, ShowsFirstRow N r pre) ∧
      printedValues r.out = (List.range (min 10 N)).map (fun j => r.mem.phc (0 * N + j))) ∧
    (∃ r, OnMultLineOMP1_call N N sched1 a0 b0 t1 t2 = some r ∧
      (∃ pre, ShowsFirstRow N r pre) ∧
      printedValues r.out = (List.range (min 10 N)).map (fun j => r.mem.phc (0 * N + j))) ∧
    (∃ r, OnMultLineOMP2_call N N sched2 a0 b0 t1 t2 = some r ∧
      (∃ pre, ShowsFirstRow N r pre) ∧
      printedValues r.out = (List.range (min 10 N)).map (fun j => r.mem.phc (0 * N + j))) := by
  refine ⟨⟨_, OnMult_call_eq CLOCKS_PER_SEC N hN a0 b0 c0 Time1 Time2,
      ⟨_, (report_shows N _ _ (by rfl)).1⟩, (report_shows N _ _ (by rfl)).2⟩,
    ⟨_, OnMultLine_call_eq CLOCKS_PER_SEC N hN a0 b0 Time1 Time2,
      ⟨_, (report_shows N _ _ (by rfl)).1⟩, (report_shows N _ _ (by rfl)).2⟩, ?_,
    ⟨_, OnMultLineOMP1_call_eq N hN sched1 hs1 a0 b0 t1 t2,
      ⟨_, (report_shows N _ _ (by rfl)).1⟩, (report_shows N _ _ (by rfl)).2⟩,
    ⟨_, OnMultLineOMP2_call_eq N hN sched2 hs2 a0 b0 t1 t2,
      ⟨_, (report_shows N _ _ (by rfl)).1⟩, (report_shows N _ _ (by rfl)).2⟩⟩
  obtain ⟨r, hr, hc, _⟩ := OnMultBlock_call_eq CLOCKS_PER_SEC N bkSize fuel hN hbk hfuel a0 b0
    Time1 Time2
  obtain ⟨m', hm, _⟩ := OnMultBlock_mult_spec N bkSize hbk fuel hfuel (calloc_setup N N a0 b0)
  unfold OnMultBlock at hr
  simp only [hm, Option.some.injEq] at hr
  refine ⟨r, hc, ?_⟩
  rw [← hr]
  exact ⟨⟨_, (report_shows N _ _ (by rfl)).1⟩, (report_shows N _ _ (by rfl)).2⟩

set_option maxRecDepth 100000 in
/-- C6 amended, applied for `N = 12` (ten values) and run for `N = 3` (three values, all
6). -/
theorem C6_preview_witness :
    (12 ≤ 46340 ∧ 1 ≤ 5 ∧ 12 < 13 ∧ IsSchedule 12 (List.range 12)) ∧
    (∃ r, OnMultLine_call (α := ℤ) 1000000 12 12 (fun _ => 0) (fun _ => 0) 0 0 = some r ∧
      (∃ pre, ShowsFirstRow 12 r pre) ∧
      printedValues r.out = (List.range (min 10 12)).map (fun j => r.mem.phc (0 * 12 + j))) ∧
    (List.range (min 10 12)).length = 10 ∧
    (OnMult_call (α := ℤ) 1000000 3 3 (fun _ => 0) (fun _ => 0) (fun _ => 0) 0 0).map
      (fun r => printedValues r.out) = some [6, 6, 6] :=
  ⟨⟨by decide, by decide, by decide, by decide⟩,
    (C6_preview (α := ℤ) 12 5 13 (by decide) (by decide) (by decide) (List.range 12)
      (by decide) (fun _ _ => List.range 12)
      (fun _ _ => (by decide : IsSchedule 12 (List.range 12))) 1000000 (fun _ => 0)
      (fun _ => 0) (fun _ => 0) 0 0 0 0).2.1,
    by decide, by decide⟩

/-- C18, as stated, fails for `N = 46341`: the number of elements allocated is not `N * N`,
for the `int` element count `m_ar * m_ar` wraps around to -2147479015 and the buffers hold no
element. The initialisation stores to `pha[46340 * 46341 + 46340]`, an offset whose `int`
expression wraps around to -2147479016, its accesses are not inside the allocation, and the
kernel, run with checked indexing, takes the out-of-range branch. -/
theorem C18_out_of_range_at_46341 :
    elementCount32 46341 = -2147479015 ∧ allocated 46341 = 0 ∧
    offset32 (46341 - 1) 46341 (46341 - 1) = -2147479016 ∧
    Access.store Buffer.pha ((46341 - 1) * 46341 + (46341 - 1)) ∈
      (OnMult_setup (α := F64) 46341 46341 (fun _ => 0) (fun _ => 0) (fun _ => 0)).log ∧
    ¬ Within (allocated 46341)
      (OnMult_setup (α := F64) 46341 46341 (fun _ => 0) (fun _ => 0) (fun _ => 0)).log ∧
    OnMult_call (α := F64) 1000000 46341 46341 (fun _ => 0) (fun _ => 0) (fun _ => 0) 0 0 =
      none :=
  ⟨by decide, by decide, by decide,
    (setups_fault (α := F64) 46341 (Nat.le_refl _) (fun _ => 0) (fun _ => 0) (fun _ => 0)).1,
    (setups_fault (α := F64) 46341 (Nat.le_refl _) (fun _ => 0) (fun _ => 0)
      (fun _ => 0)).2.1,
    (calls_fault (α := F64) 46341 (Nat.le_refl _) 1000000 (fun _ => 0) (fun _ => 0)
      (fun _ => 0) 0 0 0 0 0 1 [] (fun _ _ => [])).1⟩

/-- C18, amended. For `1 ≤ N ≤ 46340` each buffer holds `N * N` elements and, with
`m_ar = m_br = N` (the blocked kernel with a block size of at least 1 and enough fuel, the
OpenMP kernels under any schedule), every load and store that a kernel makes on `pha`, `phb`
and `phc`, from the initialisation through the multiplication to the preview, is at an
offset below `N * N`; so the replay of its accesses with checked indexing never takes the
out-of-range branch, and the call with checked allocations returns the run of the kernel. -/
theorem C18_offsets_in_range {α : Type} [Zero α] [One α] [NatCast α] [Add α] [Mul α]
    (N bkSize fuel : Nat) (hN : N ≤ 46340) (hbk : 1 ≤ bkSize) (hfuel : N < fuel)
    (sched1 : List Nat) (hs1 : IsSchedule N sched1) (sched2 : Nat → Nat → List Nat)
    (hs2 : ∀ i k, IsSchedule N (sched2 i k)) (CLOCKS_PER_SEC : Int) (a0 b0 c0 : Buf α)
    (Time1 Time2 : Int) (t1 t2 : ℚ) :
    allocated N = N * N ∧
    (∃ r, OnMult_call CLOCKS_PER_SEC N N a0 b0 c0 Time1 Time2 = some r ∧
      Within (N * N) r.mem.log ∧ replay (N * N) r.mem.log = some ()) ∧
    (∃ r, OnMultLine_call CLOCKS_PER_SEC N N a0 b0 Time1 Time2 = some r ∧
      Within (N * N) r.mem.log ∧ replay (N * N) r.mem.log = some ()) ∧
    (∃ r, OnMultBlock_call CLOCKS_PER_SEC fuel N N bkSize a0 b0 Time1 Time2 = some r ∧
      Within (N * N) r.mem.log ∧ replay (N * N) r.mem.log = some ()) ∧
    (∃ r, OnMultLineOMP1_call N N sched1 a0 b0 t1 t2 = some r ∧
      Within (N * N) r.mem.log ∧ replay (N * N) r.mem.log = some ()) ∧
    (∃ r, OnMultLineOMP2_call N N sched2 a0 b0 t1 t2 = some r ∧
      Within (N * N) r.mem.log ∧ replay (N * N) r.mem.log = some ()) := by
  have hboth : ∀ log : List Access, Within (N * N) log →
      Within (N * N) log ∧ replay (N * N) log = some () :=
    fun log h => ⟨h, replay_eq_some _ log h⟩
  obtain ⟨hm, hc⟩ := within_setup N a0 b0 c0
  refine ⟨allocated_eq N hN,
    ⟨_, OnMult_call_eq CLOCKS_PER_SEC N hN a0 b0 c0 Time1 Time2, hboth _ ?_⟩,
    ⟨_, OnMultLine_call_eq CLOCKS_PER_SEC N hN a0 b0 Time1 Time2, hboth _ ?_⟩, ?_,
    ⟨_, OnMultLineOMP1_call_eq N hN sched1 hs1 a0 b0 t1 t2, hboth _ ?_⟩,
    ⟨_, OnMultLineOMP2_call_eq N hN sched2 hs2 a0 b0 t1 t2, hboth _ ?_⟩⟩
  · exact within_report N _ _ (within_OnMult_mult N _ hm)
  · exact within_report N _ _ (within_OnMultLine_mult N _ hc)
  · obtain ⟨r, _, hcall, hw⟩ := OnMultBlock_call_eq CLOCKS_PER_SEC N bkSize fuel hN hbk hfuel
      a0 b0 Time1 Time2
    exact ⟨r, hcall, hboth _ hw⟩
  · exact within_report N _ _ (within_OnMultLineOMP1_mult N sched1 hs1 _ hc)
  · exact within_report N _ _ (within_OnMultLineOMP2_mult N sched2 hs2 _ hc)

set_option maxRecDepth 100000 in
/-- C18 amended, for `N = 2`: the accesses of `OnMult` in full, all below 4, and the four
other kernels; with 3 elements per buffer the replay of `OnMult` fails. -/
theorem C18_offsets_in_range_witness :
    ((2 ≤ 46340 ∧ 1 ≤ 1 ∧ 2 < 3) ∧ IsSchedule 2 [1, 0]) ∧
    (allocated 2 = 2 * 2 ∧
    (∃ r, OnMult_call (α := ℤ) 1000000 2 2 (fun _ => 0) (fun _ => 0) (fun _ => 0) 0 0 =
        some r ∧ Within (2 * 2) r.mem.log ∧ replay (2 * 2) r.mem.log = some ()) ∧
    (∃ r, OnMultLine_call (α := ℤ) 1000000 2 2 (fun _ => 0) (fun _ => 0) 0 0 = some r ∧
      Within (2 * 2) r.mem.log ∧ replay (2 * 2) r.mem.log = some ()) ∧
    (∃ r, OnMultBlock_call (α := ℤ) 1000000 3 2 2 1 (fun _ => 0) (fun _ => 0) 0 0 = some r ∧
      Within (2 * 2) r.mem.log ∧ replay (2 * 2) r.mem.log = some ()) ∧
    (∃ r, OnMultLineOMP1_call (α := ℤ) 2 2 [1, 0] (fun _ => 0) (fun _ => 0) 0 0 = some r ∧
      Within (2 * 2) r.mem.log ∧ replay (2 * 2) r.mem.log = some ()) ∧
    (∃ r, OnMultLineOMP2_call (α := ℤ) 2 2 (fun _ _ => [1, 0]) (fun _ => 0) (fun _ => 0)
        0 0 = some r ∧
      Within (2 * 2) r.mem.log ∧ replay (2 * 2) r.mem.log = some ())) ∧
    (OnMult_call (α := ℤ) 1000000 2 2 (fun _ => 0) (fun _ => 0) (fun _ => 0) 0 0).map
        (fun r => r.mem.log) =
      some [Access.store Buffer.pha 0, Access.store Buffer.pha 1, Access.store Buffer.pha 2,
        Access.store Buffer.pha 3, Access.store Buffer.phb 0, Access.store Buffer.phb 1,
        Access.store Buffer.phb 2, Access.store Buffer.phb 3,
        Access.load Buffer.pha 0, Access.load Buffer.phb 0, Access.load Buffer.pha 1,
        Access.load Buffer.phb 2, Access.store Buffer.phc 0,
        Access.load Buffer.pha 0, Access.load Buffer.phb 1, Access.load Buffer.pha 1,
        Access.load Buffer.phb 3, Access.store Buffer.phc 1,
        Access.load Buffer.pha 2, Access.load Buffer.phb 0, Access.load Buffer.pha 3,
        Access.load Buffer.phb 2, Access.store Buffer.phc 2,
        Access.load Buffer.pha 2, Access.load Buffer.phb 1, Access.load Buffer.pha 3,
        Access.load Buffer.phb 3, Access.store Buffer.phc 3,
        Access.load Buffer.phc 0, Access.load Buffer.phc 1] ∧
    replay 3 (OnMult (α := ℤ) 1000000 2 2 (fun _ => 0) (fun _ => 0) (fun _ => 0)
      0 0).mem.log = none :=
  ⟨⟨⟨by decide, by decide, by decide⟩, by decide⟩,
    C18_offsets_in_range (α := ℤ) 2 1 3 (by decide) (by decide) (by decide) [1, 0]
      (by decide) (fun _ _ => [1, 0]) (fun _ _ => (by decide : IsSchedule 2 [1, 0])) 1000000
      (fun _ => 0) (fun _ => 0) (fun _ => 0) 0 0 0 0,
    by decide, by decide⟩

end MatrixProduct
